import Mathlib

/-!
# jalv: event buffer (`lv2_evbuf.c`) and process cycle (`jalv.c`)

A shallow embedding of the event buffer of `src/lv2_evbuf.c` and of the process
cycle `jack_process_cb` of `src/jalv.c`.

Machine integers are natural numbers reduced modulo `2^32` (`uint32_t`) or
`2^16` (`uint16_t`) wherever the C code stores them.  Multi-byte fields are
stored little-endian.

The records of an event buffer lie behind the pointer `data` of the buffer
header.  The model keeps the bytes at that pointer, indexed by byte offset
(`data + offset` in C), and the number of bytes of memory the pointer refers to
(`data_size`).  `lv2_evbuf_new` allocates the header alone and assigns `data`
nowhere, so the buffer it returns has no memory for records (`data_size` 0).
`lv2_evbuf_write` tells what a call does when its stores lie within the memory
of the buffer, `write_in_memory` whether they do; the process cycle ends with
`Outcome.invalid_store` at a call whose stores do not.

The LV2 headers `event.h` and `atom-buffer.h` are not part of the sources.  The
record layouts used for the event buffer are the ones `lv2_evbuf.c` relies on:
`LV2_Event = { uint32_t frames; uint32_t subframes; uint16_t type; uint16_t size; }`
(12 bytes, payload follows) and
`LV2_Atom_Event = { uint32_t frames; uint32_t subframes; LV2_Atom body; }` with
`LV2_Atom = { uint32_t type; uint32_t size; uint8_t body[]; }` (16 bytes).
`jalv.c` is written against the `atom.h` in which an `LV2_Atom` is
`{ uint32_t size; uint32_t type; }`; the atoms it reads from and writes to the
rings have that layout.
-/

namespace JalvHost

/-! ## Machine integers and bytes -/

/-- Conversion to `uint32_t`. -/
def u32 (n : Nat) : Nat := n % 4294967296

/-- Conversion to `uint16_t`. -/
def u16 (n : Nat) : Nat := n % 65536

/-- One byte of memory. -/
abbrev Byte := Fin 256

/-- The low byte of a number. -/
def toByte (n : Nat) : Byte := ⟨n % 256, Nat.mod_lt n (by decide)⟩

/-- Store a `uint32_t` at address `a`, little-endian. -/
def store32 (m : Nat → Byte) (a v : Nat) : Nat → Byte := fun x =>
  if x = a then toByte v
  else if x = a + 1 then toByte (v / 256)
  else if x = a + 2 then toByte (v / 65536)
  else if x = a + 3 then toByte (v / 16777216)
  else m x

/-- Store a `uint16_t` at address `a`, little-endian. -/
def store16 (m : Nat → Byte) (a v : Nat) : Nat → Byte := fun x =>
  if x = a then toByte v
  else if x = a + 1 then toByte (v / 256)
  else m x

/-- Load a `uint32_t` from address `a`. -/
def load32 (m : Nat → Byte) (a : Nat) : Nat :=
  (m a).val + 256 * (m (a + 1)).val + 65536 * (m (a + 2)).val
    + 16777216 * (m (a + 3)).val

/-- Load a `uint16_t` from address `a`. -/
def load16 (m : Nat → Byte) (a : Nat) : Nat :=
  (m a).val + 256 * (m (a + 1)).val

/-- The call `memcpy(dst, src, n)` into the byte store: byte `j` of the source
is `src.getD j 0`. -/
def memcpy (m : Nat → Byte) (dst : Nat) (src : List Byte) (n : Nat) : Nat → Byte :=
  fun x => if dst ≤ x ∧ x < dst + n then src.getD (x - dst) 0 else m x

/-- The `n` bytes of the store starting at address `a`. -/
def bytesAt (m : Nat → Byte) (a n : Nat) : List Byte :=
  (List.range n).map (fun j => m (a + j))

/-! ## Event buffer (`lv2_evbuf.c`) -/

/-- The value of `sizeof(LV2_Event)`: frames, subframes (32 bit each), type, size
(16 bit each). -/
def sizeof_LV2_Event : Nat := 12

/-- The value of `sizeof(LV2_Atom_Event)`: frames, subframes, body type, body size
(32 bit each). -/
def sizeof_LV2_Atom_Event : Nat := 16

/-- The value of `sizeof(LV2_Event_Buffer)` (a pointer, two 16-bit and three
32-bit fields). -/
def sizeof_LV2_Event_Buffer : Nat := 24

/-- The constant `LV2_EVENT_AUDIO_STAMP` of `event.h`. -/
def LV2_EVENT_AUDIO_STAMP : Nat := 0

/-- The two variants of an event buffer. -/
inductive LV2_Evbuf_Type where
  | LV2_EVBUF_EVENT
  | LV2_EVBUF_ATOM
  deriving DecidableEq, Repr

open LV2_Evbuf_Type

/-- The structure `LV2_Evbuf_Impl`.  The union `buf` holds either an
`LV2_Event_Buffer` or an `LV2_Atom_Buffer`; each variant only ever accesses its
own member, so the shared fields are kept once.  `header_size` and `stamp_type`
exist in the legacy member only.  `data` are the bytes at the pointer `data` of
the member, by byte offset; `data_size` is the number of bytes of memory that
pointer refers to, 0 when it refers to none: a store at offset `x` lies within
memory when `x < data_size`. -/
structure LV2_Evbuf where
  type : LV2_Evbuf_Type
  capacity : Nat
  size : Nat
  event_count : Nat
  header_size : Nat
  stamp_type : Nat
  data : Nat → Byte
  data_size : Nat

/-- The structure `LV2_Evbuf_Iterator`; the buffer it points to is passed along
explicitly. -/
structure LV2_Evbuf_Iterator where
  offset : Nat
  deriving DecidableEq, Repr

/-- The function `lv2_evbuf_pad_size`: `(size + 7) & (~7)` on `uint32_t`. -/
def lv2_evbuf_pad_size (size : Nat) : Nat :=
  u32 (size + 7) &&& 4294967288

/-- Modelled from the spec: `lv2_atom_pad_size` of the LV2 header
`atom-buffer.h`, which is not among the sources; the spec gives
`pad(n) = (n+7) & ~7`, on `uint32_t` like `lv2_evbuf_pad_size`. -/
def lv2_atom_pad_size (size : Nat) : Nat :=
  u32 (size + 7) &&& 4294967288

/-- The function `lv2_evbuf_reset`. -/
def lv2_evbuf_reset (evbuf : LV2_Evbuf) : LV2_Evbuf :=
  match evbuf.type with
  | LV2_EVBUF_EVENT =>
    { evbuf with
      header_size := u16 sizeof_LV2_Event_Buffer
      stamp_type := LV2_EVENT_AUDIO_STAMP
      event_count := 0
      size := 0 }
  | LV2_EVBUF_ATOM =>
    { evbuf with
      event_count := 0
      size := 0 }

/-- The function `lv2_evbuf_new`.  It allocates `sizeof(LV2_Evbuf)` bytes, the
header alone, assigns the variant and the capacity and calls `lv2_evbuf_reset`.
The pointer `data` is assigned nowhere, and no memory is allocated for the
records: the pointer of the buffer returned refers to no memory (`data_size`
0).  `malloc` returns uninitialised memory: the other fields the function does
not assign keep the contents `raw` of that memory. -/
def lv2_evbuf_new (capacity : Nat) (type : LV2_Evbuf_Type) (raw : LV2_Evbuf) : LV2_Evbuf :=
  lv2_evbuf_reset { raw with type := type, capacity := u32 capacity, data_size := 0 }

/-- The function `lv2_evbuf_get_size`. -/
def lv2_evbuf_get_size (evbuf : LV2_Evbuf) : Nat :=
  match evbuf.type with
  | LV2_EVBUF_EVENT => evbuf.size
  | LV2_EVBUF_ATOM => evbuf.size

/-- The function `lv2_evbuf_get_event_count`. -/
def lv2_evbuf_get_event_count (evbuf : LV2_Evbuf) : Nat :=
  match evbuf.type with
  | LV2_EVBUF_EVENT => evbuf.event_count
  | LV2_EVBUF_ATOM => evbuf.event_count

/-- The function `lv2_evbuf_get_buffer`: the buffer header handed to the plugin
is the union member itself, so the plugin sees the fields of `evbuf`. -/
def lv2_evbuf_get_buffer (evbuf : LV2_Evbuf) : LV2_Evbuf :=
  match evbuf.type with
  | LV2_EVBUF_EVENT => evbuf
  | LV2_EVBUF_ATOM => evbuf

/-- The function `lv2_evbuf_begin`. -/
def lv2_evbuf_begin (_evbuf : LV2_Evbuf) : LV2_Evbuf_Iterator :=
  { offset := 0 }

/-- The function `lv2_evbuf_end`. -/
def lv2_evbuf_end (evbuf : LV2_Evbuf) : LV2_Evbuf_Iterator :=
  { offset := lv2_atom_pad_size (lv2_evbuf_get_size evbuf) }

/-- The function `lv2_evbuf_is_valid`. -/
def lv2_evbuf_is_valid (evbuf : LV2_Evbuf) (iter : LV2_Evbuf_Iterator) : Bool :=
  decide (iter.offset < lv2_evbuf_get_size evbuf)

/-- The function `lv2_evbuf_next`. -/
def lv2_evbuf_next (evbuf : LV2_Evbuf) (iter : LV2_Evbuf_Iterator) : LV2_Evbuf_Iterator :=
  if !lv2_evbuf_is_valid evbuf iter then iter
  else
    let offset := iter.offset
    let size :=
      match evbuf.type with
      | LV2_EVBUF_EVENT => load16 evbuf.data (offset + 10)
      | LV2_EVBUF_ATOM => load32 evbuf.data (offset + 12)
    { offset := u32 (offset + lv2_evbuf_pad_size (sizeof_LV2_Atom_Event + size)) }

/-- The out-parameters and the return value of `lv2_evbuf_get`.  `data` is the
offset of the payload in the data region, `none` for `NULL`. -/
structure EvbufGet where
  ok : Bool
  frames : Nat
  subframes : Nat
  type : Nat
  size : Nat
  data : Option Nat
  deriving DecidableEq, Repr

/-- The function `lv2_evbuf_get`. -/
def lv2_evbuf_get (evbuf : LV2_Evbuf) (iter : LV2_Evbuf_Iterator) : EvbufGet :=
  if !lv2_evbuf_is_valid evbuf iter then
    { ok := false, frames := 0, subframes := 0, type := 0, size := 0, data := none }
  else
    match evbuf.type with
    | LV2_EVBUF_EVENT =>
      { ok := true
        frames := load32 evbuf.data iter.offset
        subframes := load32 evbuf.data (iter.offset + 4)
        type := load16 evbuf.data (iter.offset + 8)
        size := load16 evbuf.data (iter.offset + 10)
        data := some (iter.offset + sizeof_LV2_Event) }
    | LV2_EVBUF_ATOM =>
      { ok := true
        frames := load32 evbuf.data iter.offset
        subframes := load32 evbuf.data (iter.offset + 4)
        type := load32 evbuf.data (iter.offset + 8)
        size := load32 evbuf.data (iter.offset + 12)
        data := some (iter.offset + 16) }

/-- The function `lv2_evbuf_write`: the return value, the buffer and the
iterator after the call.  The arguments `frames`, `subframes`, `type`, `size`
are `uint32_t`.  A call that passes the capacity check stores the record
through the pointer `data`; the result is the one of a call whose stores lie
within the memory of the buffer (`write_in_memory`). -/
def lv2_evbuf_write (evbuf : LV2_Evbuf) (iter : LV2_Evbuf_Iterator)
    (frames subframes type size : Nat) (data : List Byte) :
    Bool × LV2_Evbuf × LV2_Evbuf_Iterator :=
  match evbuf.type with
  | LV2_EVBUF_EVENT =>
    if u32 (evbuf.capacity + 4294967296 - evbuf.size) < sizeof_LV2_Event + size then
      (false, evbuf, iter)
    else
      let m1 := store32 evbuf.data iter.offset frames
      let m2 := store32 m1 (iter.offset + 4) subframes
      let m3 := store16 m2 (iter.offset + 8) type
      let m4 := store16 m3 (iter.offset + 10) size
      let m5 := memcpy m4 (iter.offset + sizeof_LV2_Event) data size
      let size1 := lv2_evbuf_pad_size (sizeof_LV2_Event + size)
      (true,
       { evbuf with
         data := m5
         size := u32 (evbuf.size + size1)
         event_count := u32 (evbuf.event_count + 1) },
       { offset := u32 (iter.offset + size1) })
  | LV2_EVBUF_ATOM =>
    if u32 (evbuf.capacity + 4294967296 - evbuf.size) < sizeof_LV2_Atom_Event + size then
      (false, evbuf, iter)
    else
      let m1 := store32 evbuf.data iter.offset frames
      let m2 := store32 m1 (iter.offset + 4) subframes
      let m3 := store32 m2 (iter.offset + 8) type
      let m4 := store32 m3 (iter.offset + 12) size
      let m5 := memcpy m4 (iter.offset + 16) data size
      let count1 := u32 (evbuf.event_count + 1)
      let size1 := lv2_atom_pad_size (sizeof_LV2_Atom_Event + size)
      (true,
       { evbuf with
         data := m5
         size := u32 (evbuf.size + size1)
         event_count := u32 (count1 + 1) },
       { offset := u32 (iter.offset + size1) })

/-- Whether the stores of the call `lv2_evbuf_write(iter, ..., size, data)` lie
within the memory the pointer `data` of the buffer refers to.  A call that
fails the capacity check stores nothing.  A call that passes it stores the
record header at `data + iter->offset` and `size` payload bytes behind it;
outside the memory of the buffer the behaviour of the C program is
undefined. -/
def write_in_memory (evbuf : LV2_Evbuf) (iter : LV2_Evbuf_Iterator) (size : Nat) : Bool :=
  match evbuf.type with
  | LV2_EVBUF_EVENT =>
    if u32 (evbuf.capacity + 4294967296 - evbuf.size) < sizeof_LV2_Event + size then true
    else decide (iter.offset + sizeof_LV2_Event + size ≤ evbuf.data_size)
  | LV2_EVBUF_ATOM =>
    if u32 (evbuf.capacity + 4294967296 - evbuf.size) < sizeof_LV2_Atom_Event + size then true
    else decide (iter.offset + sizeof_LV2_Atom_Event + size ≤ evbuf.data_size)

/-! ## Sequences of calls -/

/-- The arguments of one `lv2_evbuf_write` call. -/
structure Record where
  frames : Nat
  subframes : Nat
  type : Nat
  size : Nat
  data : List Byte
  deriving DecidableEq, Repr

/-- The arguments are `uint32_t` values and `data` points to `size` bytes. -/
def Record.wf (r : Record) : Prop :=
  r.frames < 4294967296 ∧ r.subframes < 4294967296 ∧ r.type < 4294967296 ∧
    r.size < 4294967296 ∧ r.data.length = r.size

instance (r : Record) : Decidable r.wf := by
  unfold Record.wf; infer_instance

/-- Consecutive `lv2_evbuf_write` calls through one iterator, a failed call
included: the return values in call order, the buffer and the iterator at the
end. -/
def write_all (evbuf : LV2_Evbuf) (iter : LV2_Evbuf_Iterator) :
    List Record → List Bool × LV2_Evbuf × LV2_Evbuf_Iterator
  | [] => ([], evbuf, iter)
  | r :: rs =>
    let w := lv2_evbuf_write evbuf iter r.frames r.subframes r.type r.size r.data
    let rest := write_all w.2.1 w.2.2 rs
    (w.1 :: rest.1, rest.2.1, rest.2.2)

/-- Whether the stores of consecutive `lv2_evbuf_write` calls through one
iterator all lie within the memory of the buffer. -/
def write_all_in_memory (evbuf : LV2_Evbuf) (iter : LV2_Evbuf_Iterator) : List Record → Bool
  | [] => true
  | r :: rs =>
    let w := lv2_evbuf_write evbuf iter r.frames r.subframes r.type r.size r.data
    write_in_memory evbuf iter r.size && write_all_in_memory w.2.1 w.2.2 rs

/-- The record `lv2_evbuf_get` yields at an iterator, with the payload bytes its
data pointer points to; `none` when `lv2_evbuf_get` returns false. -/
def read_record (evbuf : LV2_Evbuf) (iter : LV2_Evbuf_Iterator) : Option Record :=
  let g := lv2_evbuf_get evbuf iter
  match g.ok, g.data with
  | true, some p =>
    some { frames := g.frames, subframes := g.subframes, type := g.type,
           size := g.size, data := bytesAt evbuf.data p g.size }
  | _, _ => none

/-- The loop `for (i = start; lv2_evbuf_is_valid(i); i = lv2_evbuf_next(i))`
run for at most `fuel` steps: the iterators visited, in order. -/
def visit (evbuf : LV2_Evbuf) : Nat → LV2_Evbuf_Iterator → List LV2_Evbuf_Iterator
  | 0, _ => []
  | fuel + 1, i =>
    if lv2_evbuf_is_valid evbuf i then i :: visit evbuf fuel (lv2_evbuf_next evbuf i)
    else []

/-- What `lv2_evbuf_get` yields at every position of the loop from
`lv2_evbuf_begin`. -/
def iterate (evbuf : LV2_Evbuf) (fuel : Nat) : List (Option Record) :=
  (visit evbuf fuel (lv2_evbuf_begin evbuf)).map (read_record evbuf)

/-- A buffer as `malloc` leaves it: all fields and bytes zero (one possible
content of uninitialised memory), the pointer `data` referring to no memory. -/
def raw_zero : LV2_Evbuf :=
  { type := LV2_EVBUF_EVENT, capacity := 0, size := 0, event_count := 0,
    header_size := 0, stamp_type := 0, data := fun _ => 0, data_size := 0 }

/-- A buffer like the one `lv2_evbuf_new` returns for all-zero `malloc` memory,
with the data region `lv2_evbuf_new` does not provide: the pointer `data`
refers to `capacity` bytes of zeroed memory. -/
def evbuf_with_memory (capacity : Nat) (type : LV2_Evbuf_Type) : LV2_Evbuf :=
  { lv2_evbuf_new capacity type raw_zero with data_size := capacity }

/-- The record-header size of a variant: `sizeof(LV2_Event)` (frames,
subframes, type, size) for the legacy variant, `sizeof(LV2_Atom_Event)` (frames,
subframes, body type, body size) for the atom variant. -/
def record_header (t : LV2_Evbuf_Type) : Nat :=
  match t with
  | LV2_EVBUF_EVENT => sizeof_LV2_Event
  | LV2_EVBUF_ATOM => sizeof_LV2_Atom_Event

/-- The padding of the specification, `pad(n) = (n+7) & ~7`, on unbounded
numbers: `n` rounded up to a multiple of 8. -/
def pad (n : Nat) : Nat := (n + 7) / 8 * 8

/-- The padded lengths `pad(H + size)` of the records, summed, `H` being the
record-header size of the variant. -/
def stride_total (t : LV2_Evbuf_Type) : List Record → Nat
  | [] => 0
  | r :: rs => pad (record_header t + r.size) + stride_total t rs

/-! ## Process cycle (`jalv.c`)

`jack_process_cb` is embedded as a function from the host state, the block
length and the values the cycle obtains from outside (the transport, the MIDI
input, the effect of the plugin) to the host state after the cycle, the calls
into the audio server, the plugin and the C library it made, in order, and the
way the cycle ended.  Floating point values are kept as bit patterns; the
floating point operations the cycle uses are parameters (`FloatOps`). -/

/-- The enumeration `PortFlow`. -/
inductive PortFlow where
  | FLOW_UNKNOWN
  | FLOW_INPUT
  | FLOW_OUTPUT
  deriving DecidableEq, Repr

/-- The enumeration `PortType`. -/
inductive PortType where
  | TYPE_UNKNOWN
  | TYPE_CONTROL
  | TYPE_AUDIO
  | TYPE_EVENT
  | TYPE_CV
  deriving DecidableEq, Repr

/-- The enumeration `JalvPlayState`. -/
inductive JalvPlayState where
  | JALV_RUNNING
  | JALV_PAUSE_REQUESTED
  | JALV_PAUSED
  deriving DecidableEq, Repr

open PortFlow PortType JalvPlayState

/-- The structure `Port`, with the fields the process cycle uses.  `jack_port`
and `evbuf` are pointers, `none` for `NULL`; `control` is the bit pattern of the
float; `reports_latency` stands for the plugin data query
`lilv_port_has_property(..., lv2_reportsLatency)` on `lilv_port`. -/
structure Port where
  type : PortType
  flow : PortFlow
  jack_port : Option Nat
  evbuf : Option LV2_Evbuf
  buf_size : Nat
  index : Nat
  control : Nat
  old_api : Bool
  reports_latency : Bool

/-- Modelled from the spec: the byte ring of the ring channel (the JACK ring
buffer is not among the sources).  `content` are the bytes written and not yet
read, oldest first; at most `capacity` bytes are held. -/
structure Ringbuffer where
  capacity : Nat
  content : List Byte

/-- Modelled from the spec: `jack_ringbuffer_read_space`, the bytes available
for reading. -/
def jack_ringbuffer_read_space (rb : Ringbuffer) : Nat := rb.content.length

/-- Modelled from the spec: `jack_ringbuffer_write_space`, the free bytes. -/
def jack_ringbuffer_write_space (rb : Ringbuffer) : Nat := rb.capacity - rb.content.length

/-- Modelled from the spec: `jack_ringbuffer_read` of `cnt` bytes: the bytes
read (as many as are available, at most `cnt`; their number is the return
value) and the ring afterwards. -/
def jack_ringbuffer_read (rb : Ringbuffer) (cnt : Nat) : List Byte × Ringbuffer :=
  (rb.content.take cnt, { rb with content := rb.content.drop cnt })

/-- Modelled from the spec: `jack_ringbuffer_write` of the first `cnt` bytes of
`src`: the number of bytes written (as many as fit, at most `cnt`) and the ring
afterwards. -/
def jack_ringbuffer_write (rb : Ringbuffer) (src : List Byte) (cnt : Nat) : Nat × Ringbuffer :=
  let n := min cnt (jack_ringbuffer_write_space rb)
  (n, { rb with content := rb.content ++ src.take n })

/-- The four bytes of a `uint32_t`, little-endian. -/
def le32 (v : Nat) : List Byte :=
  [toByte v, toByte (v / 256), toByte (v / 65536), toByte (v / 16777216)]

/-- Read a `uint32_t` at offset `off` of the bytes `l` (bytes beyond the end of
`l`, which C would read from adjacent memory, read as 0). -/
def load32_list (l : List Byte) (off : Nat) : Nat :=
  load32 (fun i => l.getD i 0) off

/-- An `LV2_Atom` with its body: `{ uint32_t size; uint32_t type; }` followed by
the body bytes. -/
structure Atom where
  size : Nat
  type : Nat
  body : List Byte

/-- The structure `jack_midi_event_t`. -/
structure JackMidiEvent where
  time : Nat
  size : Nat
  buffer : List Byte

/-- What the plugin leaves in the memory a port is connected to: the float of a
control port, the buffer of an event port. -/
structure PluginOut where
  control : Nat
  evbuf : LV2_Evbuf

/-- The values one execution of `jack_process_cb` obtains from outside.
`rolling`, `pos_frame` and `pos_beats_per_minute` are the result of
`jack_transport_query`; `lv2_pos` is the object the atom forge calls leave in
`pos_buf`; `midi_in` are the events of the MIDI buffer of an audio-server port;
`run` gives, for the block length, the ports before the call and a port index,
what `lilv_instance_run` leaves in the memory connected to that port;
`uninit_ev` is the indeterminate initial content of the local `ev` of the UI
ring loop and `uninit_get` the 8 bytes that follow the local `get` in memory. -/
structure CycleInput where
  rolling : Bool
  pos_frame : Nat
  pos_beats_per_minute : Nat
  lv2_pos : Atom
  midi_in : Nat → List JackMidiEvent
  run : Nat → List Port → Nat → PluginOut
  uninit_ev : List Byte
  uninit_get : List Byte

/-- The floating point operations of the process cycle, on bit patterns:
`d != f` for a double and a float, the conversion of a double to float,
`(jack_nframes_t)(sample_rate / ui_update_hz)`, `latency != control` for a
`uint32_t` and a float, and the conversion of a float to `uint32_t`. -/
structure FloatOps where
  f64_ne_f32 : Nat → Nat → Bool
  f64_to_f32 : Nat → Nat
  div_u32_f32 : Nat → Nat → Nat
  u32_ne_f32 : Nat → Nat → Bool
  f32_to_u32 : Nat → Nat

/-- The messages the process cycle prints to `stderr`. -/
inductive LogMsg where
  | ui_ring_read_error
  | unknown_protocol (protocol : Nat)
  | plugin_ui_overflow
  deriving DecidableEq, Repr

/-- The calls of the process cycle into the audio server, the plugin, the
worker and the C library that have an effect outside the host state. -/
inductive Call where
  | sratom_to_turtle
  | printf_position
  | free
  | jack_midi_clear_buffer (jack_port : Nat)
  | memset_zero (jack_port : Nat) (bytes : Nat)
  | lilv_instance_connect_port (index : Nat) (jack_port : Nat)
  | lilv_instance_run (nframes : Nat)
  | jalv_worker_emit_responses
  | end_run
  | jack_recompute_total_latencies
  | jack_midi_event_write (jack_port : Nat) (time : Nat) (data : List Byte) (size : Nat)
  | fprintf_stderr (msg : LogMsg)
  deriving DecidableEq, Repr

/-- How an execution of the process cycle ends: it returns a value, an
`assert` fails, it dereferences a `NULL` pointer, the loop over an event
output buffer has not come to its end within the steps allowed, or an
`lv2_evbuf_write` call stores outside the memory of the buffer (undefined
behaviour in C). -/
inductive Outcome where
  | returned (value : Int)
  | assert_failed
  | null_dereference
  | loop_unfinished
  | invalid_store
  deriving DecidableEq, Repr

/-- The structure `JalvURIDs`, with the identifiers the process cycle uses. -/
structure JalvURIDs where
  atom_Object : Nat
  atom_eventTransfer : Nat
  patch_Get : Nat

/-- The structure `Jalv`, with the fields the process cycle uses.  `paused` is
the count of the semaphore `paused`; `num_ports` is the length of `ports`;
`worker_end_run` stands for `worker.iface && worker.iface->end_run`. -/
structure Jalv where
  opts_dump : Bool
  urids : JalvURIDs
  ui_events : Ringbuffer
  plugin_events : Ringbuffer
  worker_end_run : Bool
  paused : Nat
  play_state : JalvPlayState
  ports : List Port
  plugin_latency : Nat
  ui_update_hz : Nat
  sample_rate : Nat
  event_delta_t : Nat
  midi_event_id : Nat
  position : Nat
  bpm : Nat
  rolling : Bool
  has_ui : Bool
  state_changed : Bool

/-- The field `num_ports`: the size of the array `ports`. -/
def Jalv.num_ports (jalv : Jalv) : Nat := jalv.ports.length

/-- The part of the host state the cycle works on after the play-state switch,
with the calls made so far and the way the cycle ended, `none` while it is
running. -/
structure Cycle where
  ports : List Port
  state_changed : Bool
  ui_events : Ringbuffer
  plugin_events : Ringbuffer
  event_delta_t : Nat
  plugin_latency : Nat
  calls : List Call
  outcome : Option Outcome

/-- The `JALV_PAUSED` case of the play-state switch: the loop that clears the
MIDI buffer or zeroes the audio buffer of every output port registered with the
audio server. -/
def silence_outputs (nframes : Nat) : List Port → List Call
  | [] => []
  | port :: rest =>
    match port.jack_port with
    | some jport =>
      if port.flow = FLOW_OUTPUT then
        (if port.type = TYPE_EVENT then Call.jack_midi_clear_buffer jport
         else Call.memset_zero jport (nframes * 4)) :: silence_outputs nframes rest
      else silence_outputs nframes rest
    | none => silence_outputs nframes rest

/-- The loop that writes the MIDI input of the audio server into an event
buffer (the return value of `lv2_evbuf_write` is ignored). -/
def write_midi_input (midi_event_id : Nat) :
    List JackMidiEvent → LV2_Evbuf → LV2_Evbuf_Iterator → LV2_Evbuf × LV2_Evbuf_Iterator
  | [], evbuf, iter => (evbuf, iter)
  | e :: es, evbuf, iter =>
    let w := lv2_evbuf_write evbuf iter (u32 e.time) 0 midi_event_id (u32 e.size) e.buffer
    write_midi_input midi_event_id es w.2.1 w.2.2

/-- Whether the stores of the `lv2_evbuf_write` calls of the MIDI input loop
all lie within the memory of the buffer. -/
def midi_input_in_memory (midi_event_id : Nat) :
    List JackMidiEvent → LV2_Evbuf → LV2_Evbuf_Iterator → Bool
  | [], _, _ => true
  | e :: es, evbuf, iter =>
    let w := lv2_evbuf_write evbuf iter (u32 e.time) 0 midi_event_id (u32 e.size) e.buffer
    write_in_memory evbuf iter (u32 e.size) && midi_input_in_memory midi_event_id es w.2.1 w.2.2

/-- Whether the stores of the `lv2_evbuf_write` calls "Prepare port buffers"
makes for an event input port all lie within the memory of its buffer `evbuf`:
the write of the position object when the transport has changed, the write of
the patch-get request when `state_changed` is set, the writes of the MIDI
input. -/
def fan_in_in_memory (jalv : Jalv) (inp : CycleInput) (xport_changed state_changed : Bool)
    (port : Port) (evbuf : LV2_Evbuf) : Bool :=
  let ev0 := lv2_evbuf_reset evbuf
  let it0 := lv2_evbuf_begin ev0
  let w1 :=
    if xport_changed then
      lv2_evbuf_write ev0 it0 0 0 inp.lv2_pos.type inp.lv2_pos.size inp.lv2_pos.body
    else (true, ev0, it0)
  let w2 :=
    if state_changed then
      lv2_evbuf_write w1.2.1 w1.2.2 0 0 jalv.urids.atom_Object 16
        (le32 0 ++ le32 jalv.urids.patch_Get ++ inp.uninit_get.take 8)
    else w1
  (!xport_changed || write_in_memory ev0 it0 inp.lv2_pos.size)
    && (!state_changed || write_in_memory w1.2.1 w1.2.2 16)
    && (match port.jack_port with
        | some jport => midi_input_in_memory jalv.midi_event_id (inp.midi_in jport) w2.2.1 w2.2.2
        | none => true)

/-- The body of the loop "Prepare port buffers" for port `p`.  The call sites
pass `lv2_evbuf_reset` a second argument (`true` for an event input, `false`
for an event output); `lv2_evbuf_reset` of `lv2_evbuf.c` has one parameter and
does the same in both cases.  The cycle ends with `Outcome.invalid_store` when
one of the `lv2_evbuf_write` calls for the port stores outside the memory of
the buffer (`fan_in_in_memory`). -/
def prepare_port (jalv : Jalv) (inp : CycleInput) (xport_changed : Bool) (p : Nat)
    (c : Cycle) : Cycle :=
  match c.ports[p]? with
  | none => c
  | some port =>
    if port.type = TYPE_AUDIO ∧ port.jack_port.isSome then
      match port.jack_port with
      | some jport => { c with calls := c.calls ++ [Call.lilv_instance_connect_port p jport] }
      | none => c
    else if port.type = TYPE_EVENT ∧ port.flow = FLOW_INPUT then
      match port.evbuf with
      | none => { c with outcome := some Outcome.null_dereference }
      | some evbuf =>
        let ev0 := lv2_evbuf_reset evbuf
        let it0 := lv2_evbuf_begin ev0
        let w1 :=
          if xport_changed then
            lv2_evbuf_write ev0 it0 0 0 inp.lv2_pos.type inp.lv2_pos.size inp.lv2_pos.body
          else (true, ev0, it0)
        let w2 :=
          if c.state_changed then
            lv2_evbuf_write w1.2.1 w1.2.2 0 0 jalv.urids.atom_Object 16
              (le32 0 ++ le32 jalv.urids.patch_Get ++ inp.uninit_get.take 8)
          else w1
        let w3 :=
          match port.jack_port with
          | some jport => write_midi_input jalv.midi_event_id (inp.midi_in jport) w2.2.1 w2.2.2
          | none => (w2.2.1, w2.2.2)
        if fan_in_in_memory jalv inp xport_changed c.state_changed port evbuf then
          { c with
            ports := c.ports.set p { port with evbuf := some w3.1 }
            state_changed := if c.state_changed then false else c.state_changed }
        else { c with outcome := some Outcome.invalid_store }
    else if port.type = TYPE_EVENT then
      match port.evbuf with
      | none => { c with outcome := some Outcome.null_dereference }
      | some evbuf =>
        { c with ports := c.ports.set p { port with evbuf := some (lv2_evbuf_reset evbuf) } }
    else c

/-- A loop `for (p = 0; p < num_ports; ++p)` whose body may end the cycle. -/
def for_ports (body : Nat → Cycle → Cycle) : List Nat → Cycle → Cycle
  | [], c => c
  | p :: ps, c =>
    let c1 := body p c
    match c1.outcome with
    | some _ => c1
    | none => for_ports body ps c1

/-- The loop "Read and apply control change events from UI", `fuel` bounding
the number of rounds: every round adds at least 12 to `i`, so `space` rounds
are enough.  `ev` are the 12 bytes of the local `ev`.  The cycle ends with
`Outcome.invalid_store` when the `lv2_evbuf_write` call for an event stores
outside the memory of the buffer. -/
def drain_ui (jalv : Jalv) (nframes space : Nat) :
    Nat → Nat → List Byte → Cycle → Cycle
  | 0, _, _, c => c
  | fuel + 1, i, ev, c =>
    if i < space then
      let r1 := jack_ringbuffer_read c.ui_events 12
      let ev1 := r1.1 ++ ev.drop r1.1.length
      let index := load32_list ev1 0
      let protocol := load32_list ev1 4
      let size := load32_list ev1 8
      let r2 := jack_ringbuffer_read r1.2 size
      if r2.1.length ≠ size then
        { c with
          ui_events := r2.2
          calls := c.calls ++ [Call.fprintf_stderr LogMsg.ui_ring_read_error] }
      else if ¬ (index < c.ports.length) then
        { c with ui_events := r2.2, outcome := some Outcome.assert_failed }
      else
        match c.ports[index]? with
        | none => { c with ui_events := r2.2, outcome := some Outcome.assert_failed }
        | some port =>
          if protocol = 0 then
            if size ≠ 4 then
              { c with ui_events := r2.2, outcome := some Outcome.assert_failed }
            else
              drain_ui jalv nframes space fuel (i + 12 + size) ev1
                { c with
                  ui_events := r2.2
                  ports := c.ports.set index { port with control := load32_list r2.1 0 } }
          else if protocol = jalv.urids.atom_eventTransfer then
            match port.evbuf with
            | none => { c with ui_events := r2.2, outcome := some Outcome.null_dereference }
            | some evbuf =>
              let w := lv2_evbuf_write evbuf (lv2_evbuf_end evbuf) (u32 nframes) 0
                (load32_list r2.1 4) (load32_list r2.1 0) (r2.1.drop 8)
              if write_in_memory evbuf (lv2_evbuf_end evbuf) (load32_list r2.1 0) then
                drain_ui jalv nframes space fuel (i + 12 + size) ev1
                  { c with
                    ui_events := r2.2
                    ports := c.ports.set index { port with evbuf := some w.2.1 } }
              else { c with ui_events := r2.2, outcome := some Outcome.invalid_store }
          else
            drain_ui jalv nframes space fuel (i + 12 + size) ev1
              { c with
                ui_events := r2.2
                calls := c.calls ++ [Call.fprintf_stderr (LogMsg.unknown_protocol protocol)] }
    else c

/-- The effect of `lilv_instance_run` on the ports: the plugin writes the float
of the control ports and the buffers of the event ports it is connected to; the
variant tag of a buffer lies outside the memory handed to the plugin, and the
plugin does not change how much memory the pointer `data` refers to. -/
def run_plugin (inp : CycleInput) (nframes : Nat) (ports : List Port) : List Port :=
  ports.enum.map (fun ip =>
    match ip.2.type with
    | TYPE_CONTROL => { ip.2 with control := (inp.run nframes ports ip.1).control }
    | TYPE_EVENT =>
      match ip.2.evbuf with
      | some evbuf =>
        { ip.2 with
          evbuf := some { (inp.run nframes ports ip.1).evbuf with
            type := evbuf.type, data_size := evbuf.data_size } }
      | none => ip.2
    | _ => ip.2)

/-- The loop over the records of an event output buffer in "Deliver MIDI output
and UI events", for at most `fuel` records: the ring to the UI, the calls, and
whether the loop is unfinished (the iterator still valid when the fuel ran
out). -/
def deliver_events (jalv : Jalv) (p : Nat) (old_api : Bool) (buf : Option Nat)
    (evbuf : LV2_Evbuf) :
    Nat → LV2_Evbuf_Iterator → Ringbuffer → List Call → Ringbuffer × List Call × Bool
  | 0, i, rb, calls => (rb, calls, lv2_evbuf_is_valid evbuf i)
  | fuel + 1, i, rb, calls =>
    if lv2_evbuf_is_valid evbuf i then
      let g := lv2_evbuf_get evbuf i
      let body :=
        match g.data with
        | some a => bytesAt evbuf.data a g.size
        | none => []
      let calls1 :=
        match buf with
        | some jport =>
          if g.type = jalv.midi_event_id then
            calls ++ [Call.jack_midi_event_write jport g.frames body g.size]
          else calls
        | none => calls
      if jalv.has_ui ∧ old_api = false then
        let hdr := le32 p ++ le32 jalv.urids.atom_eventTransfer ++ le32 (u32 (8 + g.size))
          ++ le32 g.size ++ le32 g.type
        if jack_ringbuffer_write_space rb < 20 + g.size then
          (rb, calls1 ++ [Call.fprintf_stderr LogMsg.plugin_ui_overflow], false)
        else
          let rb1 := (jack_ringbuffer_write rb hdr 20).2
          let rb2 := (jack_ringbuffer_write rb1 body g.size).2
          deliver_events jalv p old_api buf evbuf fuel (lv2_evbuf_next evbuf i) rb2 calls1
      else
        deliver_events jalv p old_api buf evbuf fuel (lv2_evbuf_next evbuf i) rb calls1
    else (rb, calls, false)

/-- The body of the loop "Deliver MIDI output and UI events" for port `p`. -/
def deliver_port (fl : FloatOps) (jalv : Jalv) (send_ui_updates : Bool) (fuel : Nat) (p : Nat)
    (c : Cycle) : Cycle :=
  match c.ports[p]? with
  | none => c
  | some port =>
    let c1 :=
      if port.flow = FLOW_OUTPUT ∧ port.type = TYPE_CONTROL ∧ port.reports_latency = true then
        if fl.u32_ne_f32 c.plugin_latency port.control then
          { c with
            plugin_latency := fl.f32_to_u32 port.control
            calls := c.calls ++ [Call.jack_recompute_total_latencies] }
        else c
      else c
    if port.flow = FLOW_OUTPUT ∧ port.type = TYPE_EVENT then
      let calls0 :=
        match port.jack_port with
        | some jport => c1.calls ++ [Call.jack_midi_clear_buffer jport]
        | none => c1.calls
      match port.evbuf with
      | none => { c1 with calls := calls0, outcome := some Outcome.null_dereference }
      | some evbuf =>
        let d := deliver_events jalv p port.old_api port.jack_port evbuf fuel
          (lv2_evbuf_begin evbuf) c1.plugin_events calls0
        { c1 with
          plugin_events := d.1
          calls := d.2.1
          outcome := if d.2.2 then some Outcome.loop_unfinished else none }
    else if send_ui_updates ∧ port.flow ≠ FLOW_INPUT ∧ port.type = TYPE_CONTROL then
      let w := jack_ringbuffer_write c1.plugin_events
        (le32 p ++ le32 0 ++ le32 4 ++ le32 port.control) 16
      { c1 with
        plugin_events := w.2
        calls :=
          if w.1 < 16 then c1.calls ++ [Call.fprintf_stderr LogMsg.plugin_ui_overflow]
          else c1.calls }
    else c1

/-- The process cycle from "Prepare port buffers" to the end. -/
def run_cycle (fl : FloatOps) (jalv : Jalv) (inp : CycleInput) (nframes : Nat)
    (xport_changed : Bool) (fuel : Nat) (c0 : Cycle) : Cycle :=
  let c1 := for_ports (prepare_port jalv inp xport_changed) (List.range c0.ports.length) c0
  match c1.outcome with
  | some _ => c1
  | none =>
    let c2 :=
      if jalv.has_ui then
        drain_ui jalv nframes (jack_ringbuffer_read_space c1.ui_events)
          (jack_ringbuffer_read_space c1.ui_events) 0 (inp.uninit_ev.take 12) c1
      else c1
    match c2.outcome with
    | some _ => c2
    | none =>
      let c3 : Cycle :=
        { c2 with
          ports := run_plugin inp nframes c2.ports
          calls := c2.calls ++ [Call.lilv_instance_run nframes, Call.jalv_worker_emit_responses]
            ++ (if jalv.worker_end_run then [Call.end_run] else []) }
      let delta := u32 (c3.event_delta_t + nframes)
      let update_frames := fl.div_u32_f32 jalv.sample_rate jalv.ui_update_hz
      let send_ui_updates : Bool := jalv.has_ui && decide (delta > update_frames)
      let c4 : Cycle := { c3 with event_delta_t := if send_ui_updates then 0 else delta }
      let c5 := for_ports (deliver_port fl jalv send_ui_updates fuel)
        (List.range c4.ports.length) c4
      match c5.outcome with
      | some _ => c5
      | none => { c5 with outcome := some (Outcome.returned 0) }

/-- The result of one execution of `jack_process_cb`. -/
structure CycleResult where
  jalv : Jalv
  calls : List Call
  outcome : Outcome

/-- The function `jack_process_cb`.  `fuel` bounds the number of records the
cycle reads from one event output buffer; the other loops are bounded by the
number of ports, of MIDI events and of bytes in the ring. -/
def jack_process_cb (fl : FloatOps) (jalv : Jalv) (inp : CycleInput) (nframes : Nat)
    (fuel : Nat) : CycleResult :=
  let rolling := inp.rolling
  let xport_changed : Bool :=
    (rolling != jalv.rolling) || (inp.pos_frame != jalv.position)
      || fl.f64_ne_f32 inp.pos_beats_per_minute jalv.bpm
  let calls0 : List Call :=
    if xport_changed ∧ jalv.opts_dump then
      [Call.sratom_to_turtle, Call.printf_position, Call.free]
    else []
  let jalv1 : Jalv :=
    { jalv with
      position := if rolling then u32 (inp.pos_frame + nframes) else inp.pos_frame
      bpm := fl.f64_to_f32 inp.pos_beats_per_minute
      rolling := rolling }
  let start (j : Jalv) : Cycle :=
    { ports := j.ports, state_changed := j.state_changed, ui_events := j.ui_events,
      plugin_events := j.plugin_events, event_delta_t := j.event_delta_t,
      plugin_latency := j.plugin_latency, calls := calls0, outcome := none }
  let finish (j : Jalv) (c : Cycle) : CycleResult :=
    { jalv :=
        { j with
          ports := c.ports, state_changed := c.state_changed, ui_events := c.ui_events,
          plugin_events := c.plugin_events, event_delta_t := c.event_delta_t,
          plugin_latency := c.plugin_latency }
      calls := c.calls
      outcome := c.outcome.getD (Outcome.returned 0) }
  match jalv1.play_state with
  | JALV_PAUSE_REQUESTED =>
    let jalv2 : Jalv := { jalv1 with play_state := JALV_PAUSED, paused := jalv1.paused + 1 }
    finish jalv2 (run_cycle fl jalv2 inp nframes xport_changed fuel (start jalv2))
  | JALV_PAUSED =>
    { jalv := jalv1
      calls := calls0 ++ silence_outputs nframes jalv1.ports
      outcome := Outcome.returned 0 }
  | JALV_RUNNING =>
    finish jalv1 (run_cycle fl jalv1 inp nframes xport_changed fuel (start jalv1))

/-! ## The process cycle by phases

The phases of `jack_process_cb` as functions of their own, and the UI ring loop
told record by record.  The theorems relate them to `jack_process_cb`,
`run_cycle` and `drain_ui`. -/

/-- The value of the local `xport_changed` of `jack_process_cb`. -/
def xport_changed (fl : FloatOps) (jalv : Jalv) (inp : CycleInput) : Bool :=
  (inp.rolling != jalv.rolling) || (inp.pos_frame != jalv.position)
    || fl.f64_ne_f32 inp.pos_beats_per_minute jalv.bpm

/-- The calls of the dump of the position object, made when the transport has
changed and `opts.dump` is set. -/
def dump_calls (fl : FloatOps) (jalv : Jalv) (inp : CycleInput) : List Call :=
  if xport_changed fl jalv inp ∧ jalv.opts_dump then
    [Call.sratom_to_turtle, Call.printf_position, Call.free]
  else []

/-- The host state after "Update transport state to expected values for next
cycle". -/
def transport_updated (fl : FloatOps) (jalv : Jalv) (inp : CycleInput) (nframes : Nat) : Jalv :=
  { jalv with
    position := if inp.rolling then u32 (inp.pos_frame + nframes) else inp.pos_frame
    bpm := fl.f64_to_f32 inp.pos_beats_per_minute
    rolling := inp.rolling }

/-- The cycle state with which a cycle that is not paused enters "Prepare port
buffers". -/
def cycle_start (fl : FloatOps) (jalv : Jalv) (inp : CycleInput) : Cycle :=
  { ports := jalv.ports, state_changed := jalv.state_changed, ui_events := jalv.ui_events,
    plugin_events := jalv.plugin_events, event_delta_t := jalv.event_delta_t,
    plugin_latency := jalv.plugin_latency, calls := dump_calls fl jalv inp, outcome := none }

/-- The loop "Prepare port buffers" over all ports. -/
def prepare_ports (jalv : Jalv) (inp : CycleInput) (xport : Bool) (c0 : Cycle) : Cycle :=
  for_ports (prepare_port jalv inp xport) (List.range c0.ports.length) c0

/-- The cycle from "Prepare port buffers" up to the call of `lilv_instance_run`:
the state in which the plugin is run, or the state in which the cycle ended
before that call. -/
def before_run (jalv : Jalv) (inp : CycleInput) (nframes : Nat) (xport : Bool)
    (c0 : Cycle) : Cycle :=
  let c1 := prepare_ports jalv inp xport c0
  match c1.outcome with
  | some _ => c1
  | none =>
    if jalv.has_ui then
      drain_ui jalv nframes (jack_ringbuffer_read_space c1.ui_events)
        (jack_ringbuffer_read_space c1.ui_events) 0 (inp.uninit_ev.take 12) c1
    else c1

/-- The cycle from the call of `lilv_instance_run` to the end, entered in the
state `c2`. -/
def after_run (fl : FloatOps) (jalv : Jalv) (inp : CycleInput) (nframes : Nat)
    (fuel : Nat) (c2 : Cycle) : Cycle :=
  let c3 : Cycle :=
    { c2 with
      ports := run_plugin inp nframes c2.ports
      calls := c2.calls ++ [Call.lilv_instance_run nframes, Call.jalv_worker_emit_responses]
        ++ (if jalv.worker_end_run then [Call.end_run] else []) }
  let delta := u32 (c3.event_delta_t + nframes)
  let update_frames := fl.div_u32_f32 jalv.sample_rate jalv.ui_update_hz
  let send_ui_updates : Bool := jalv.has_ui && decide (delta > update_frames)
  let c4 : Cycle := { c3 with event_delta_t := if send_ui_updates then 0 else delta }
  let c5 := for_ports (deliver_port fl jalv send_ui_updates fuel)
    (List.range c4.ports.length) c4
  match c5.outcome with
  | some _ => c5
  | none => { c5 with outcome := some (Outcome.returned 0) }

/-- The result of `jack_process_cb` when the cycle ends in the state `c` and the
rest of the host state is `j`. -/
def cycle_result (j : Jalv) (c : Cycle) : CycleResult :=
  { jalv :=
      { j with
        ports := c.ports, state_changed := c.state_changed, ui_events := c.ui_events,
        plugin_events := c.plugin_events, event_delta_t := c.event_delta_t,
        plugin_latency := c.plugin_latency }
    calls := c.calls
    outcome := c.outcome.getD (Outcome.returned 0) }

/-- The state in which a cycle started in `JALV_RUNNING` calls
`lilv_instance_run`, or in which it ended before that call. -/
def running_before_run (fl : FloatOps) (jalv : Jalv) (inp : CycleInput) (nframes : Nat) :
    Cycle :=
  before_run (transport_updated fl jalv inp nframes) inp nframes (xport_changed fl jalv inp)
    (cycle_start fl jalv inp)

/-- One record of a ring between UI and plugin: the structure `ControlChange`
with its body. -/
structure ControlChange where
  index : Nat
  protocol : Nat
  size : Nat
  body : List Byte

/-- A whole record: the header fields are `uint32_t` values and the body has
`size` bytes. -/
def ControlChange.whole (r : ControlChange) : Prop :=
  r.index < 4294967296 ∧ r.protocol < 4294967296 ∧ r.size < 4294967296 ∧
    r.body.length = r.size

instance (r : ControlChange) : Decidable r.whole := by
  unfold ControlChange.whole; infer_instance

/-- The bytes of a record in the ring: the 12-byte header, then the body. -/
def ControlChange.bytes (r : ControlChange) : List Byte :=
  le32 r.index ++ le32 r.protocol ++ le32 r.size ++ r.body

/-- The bytes of consecutive records in the ring. -/
def ring_bytes : List ControlChange → List Byte
  | [] => []
  | r :: rs => r.bytes ++ ring_bytes rs

/-- The loop "Read and apply control change events from UI" told record by
record, for a ring that holds the whole records `recs`: each record is taken
from the ring and applied as the loop body does, and as in `drain_ui` the cycle
ends with `Outcome.invalid_store` when the `lv2_evbuf_write` call for an event
stores outside the memory of the buffer. -/
def apply_control_changes (jalv : Jalv) (nframes : Nat) :
    List ControlChange → Cycle → Cycle
  | [], c => c
  | r :: rs, c =>
    let rb : Ringbuffer := { c.ui_events with content := c.ui_events.content.drop (12 + r.size) }
    match c.ports[r.index]? with
    | none => { c with ui_events := rb, outcome := some Outcome.assert_failed }
    | some port =>
      if r.protocol = 0 then
        if r.size ≠ 4 then
          { c with ui_events := rb, outcome := some Outcome.assert_failed }
        else
          apply_control_changes jalv nframes rs
            { c with
              ui_events := rb
              ports := c.ports.set r.index { port with control := load32_list r.body 0 } }
      else if r.protocol = jalv.urids.atom_eventTransfer then
        match port.evbuf with
        | none => { c with ui_events := rb, outcome := some Outcome.null_dereference }
        | some evbuf =>
          let w := lv2_evbuf_write evbuf (lv2_evbuf_end evbuf) (u32 nframes) 0
            (load32_list r.body 4) (load32_list r.body 0) (r.body.drop 8)
          if write_in_memory evbuf (lv2_evbuf_end evbuf) (load32_list r.body 0) then
            apply_control_changes jalv nframes rs
              { c with
                ui_events := rb
                ports := c.ports.set r.index { port with evbuf := some w.2.1 } }
          else { c with ui_events := rb, outcome := some Outcome.invalid_store }
      else
        apply_control_changes jalv nframes rs
          { c with
            ui_events := rb
            calls := c.calls ++ [Call.fprintf_stderr (LogMsg.unknown_protocol r.protocol)] }

/-- The control value of port `i` after the records `recs`, in ring order, when
it was `v` before: every record of protocol 0 addressed to `i` replaces it. -/
def control_after (i : Nat) : List ControlChange → Nat → Nat
  | [], v => v
  | r :: rs, v =>
    control_after i rs (if r.index = i ∧ r.protocol = 0 then load32_list r.body 0 else v)

/-- The arguments of the `lv2_evbuf_write` call the UI ring loop makes for an
event-transfer record: the frame is the block length, the atom header
`{ size, type }` and the atom body are taken from the record body. -/
def ui_event_record (nframes : Nat) (r : ControlChange) : Record :=
  { frames := u32 nframes, subframes := 0, type := load32_list r.body 4,
    size := load32_list r.body 0, data := r.body.drop 8 }

/-- The scalar control record that carries the float `v` to port `index`. -/
def control_change (index v : Nat) : ControlChange :=
  { index := index, protocol := 0, size := 4, body := le32 v }

/-- The records "Prepare port buffers" writes to the buffer of an event input
port, in the order of the calls: the position object when the transport has
changed, the patch-get request when `state_changed` is set, the MIDI input of
the audio-server port. -/
def fan_in_records (jalv : Jalv) (inp : CycleInput) (xport state_changed : Bool)
    (port : Port) : List Record :=
  (if xport then
    [{ frames := 0, subframes := 0, type := inp.lv2_pos.type, size := inp.lv2_pos.size,
       data := inp.lv2_pos.body }]
   else []) ++
  (if state_changed then
    [{ frames := 0, subframes := 0, type := jalv.urids.atom_Object, size := 16,
       data := le32 0 ++ le32 jalv.urids.patch_Get ++ inp.uninit_get.take 8 }]
   else []) ++
  (match port.jack_port with
   | some jport =>
     (inp.midi_in jport).map (fun e =>
       { frames := u32 e.time, subframes := 0, type := jalv.midi_event_id, size := u32 e.size,
         data := e.buffer })
   | none => [])

/-- The value of `state_changed` when "Prepare port buffers" comes to port `p`:
set at the start of the cycle, and no event input port before `p`. -/
def state_changed_at (ports : List Port) (state_changed : Bool) (p : Nat) : Bool :=
  state_changed && (ports.take p).all (fun q => !decide (q.type = TYPE_EVENT ∧ q.flow = FLOW_INPUT))

/-! ## UI side of the ring (`jalv.c`) -/

/-- What `jalv_ui_write` prints: the two error messages and the dump of an
event (`sratom_to_turtle`, `printf`, `free`). -/
inductive UiWriteCall where
  | fprintf_unsupported_protocol (protocol : Nat)
  | fprintf_out_of_range (port_index : Nat)
  | dump_event
  deriving DecidableEq, Repr

/-- The function `jalv_ui_write`: the host state and what was printed.
`port_index`, `buffer_size` and `protocol` are `uint32_t`; `buffer` points to
`buffer_size` bytes.  The return value of `jack_ringbuffer_write` is not
looked at. -/
def jalv_ui_write (jalv : Jalv) (port_index buffer_size protocol : Nat) (buffer : List Byte) :
    Jalv × List UiWriteCall :=
  if protocol ≠ 0 ∧ protocol ≠ jalv.urids.atom_eventTransfer then
    (jalv, [UiWriteCall.fprintf_unsupported_protocol protocol])
  else if port_index ≥ jalv.num_ports then
    (jalv, [UiWriteCall.fprintf_out_of_range port_index])
  else
    let printed :=
      if jalv.opts_dump ∧ protocol = jalv.urids.atom_eventTransfer then [UiWriteCall.dump_event]
      else []
    let buf := le32 port_index ++ le32 protocol ++ le32 buffer_size
      ++ (List.range buffer_size).map (fun j => buffer.getD j 0)
    ({ jalv with ui_events := (jack_ringbuffer_write jalv.ui_events buf (12 + buffer_size)).2 },
     printed)

/-- What "Prepare port buffers" makes of a port, `state_changed` being the value
of the flag when the loop comes to the port: the buffer of an event input port
is reset and filled with the records of `fan_in_records`, the buffer of another
event port is reset, any other port is left as it is. -/
def prepared_port (jalv : Jalv) (inp : CycleInput) (xport state_changed : Bool)
    (port : Port) : Port :=
  if port.type = TYPE_EVENT then
    { port with
      evbuf := port.evbuf.map (fun evbuf =>
        if port.flow = FLOW_INPUT then
          (write_all (lv2_evbuf_reset evbuf) (lv2_evbuf_begin (lv2_evbuf_reset evbuf))
            (fan_in_records jalv inp xport state_changed port)).2.1
        else lv2_evbuf_reset evbuf) }
  else port

/-- The arguments of the `lv2_evbuf_write` call that writes the position object
`lv2_pos` to an event input buffer. -/
def position_record (inp : CycleInput) : Record :=
  { frames := 0, subframes := 0, type := inp.lv2_pos.type, size := inp.lv2_pos.size,
    data := inp.lv2_pos.body }

/-! ## Port table (`jalv.c`)

`create_port` and `activate_port` work on one entry of the array `ports`.  The
plugin data they query through `lilv` is an input (`PortData`).  `size_t` is
taken to have 64 bits and `int` 32 bits. -/

/-- Conversion to `size_t`. -/
def usize (n : Nat) : Nat := n % 18446744073709551616

/-- Conversion of an `int` to `size_t`. -/
def int_to_usize (m : Int) : Nat := (m % 18446744073709551616).toNat

/-- The constant `N_BUFFER_CYCLES`. -/
def N_BUFFER_CYCLES : Nat := 16

/-- What the plugin data says about a port: the results of the `lilv` queries
of `create_port` and `activate_port`.  `minimum_size` is the value of
`rsz:minimumSize` when the port has one and it is an integer node
(`min_size && lilv_node_is_int(min_size)`), `symbol_length` the length of the
port symbol, `supports_midi` the result of `lilv_port_supports_event` for MIDI
events. -/
structure PortData where
  connection_optional : Bool
  is_input : Bool
  is_output : Bool
  is_control : Bool
  is_audio : Bool
  is_event : Bool
  is_atom : Bool
  minimum_size : Option Int
  symbol_length : Nat
  supports_midi : Bool

/-- The fields of `Jalv` outside the port that `create_port` writes:
`opts.buffer_size` and `longest_sym`. -/
structure PortSetup where
  buffer_size : Nat
  longest_sym : Nat

/-- The function `create_port` on the entry `raw` of the array `ports` (the
fields the function does not assign keep their contents): the host fields and
the port afterwards, `none` when `die` ends the program.  `default_value` is
the bit pattern of the float and `default_is_nan` the result of `isnan` on
it. -/
def create_port (setup : PortSetup) (raw : Port) (data : PortData) (port_index : Nat)
    (default_value : Nat) (default_is_nan : Bool) : Option (PortSetup × Port) :=
  let port0 : Port :=
    { raw with
      jack_port := none
      evbuf := none
      buf_size := 0
      index := port_index
      control := 0
      flow := FLOW_UNKNOWN }
  let optional := data.connection_optional
  let flowed : Option Port :=
    if data.is_input then some { port0 with flow := FLOW_INPUT }
    else if data.is_output then some { port0 with flow := FLOW_OUTPUT }
    else if !optional then none
    else some port0
  match flowed with
  | none => none
  | some port1 =>
    let typed : Option Port :=
      if data.is_control then
        some { port1 with
          type := TYPE_CONTROL
          control := if default_is_nan then 0 else default_value }
      else if data.is_audio then some { port1 with type := TYPE_AUDIO }
      else if data.is_event then some { port1 with type := TYPE_EVENT, old_api := true }
      else if data.is_atom then some { port1 with type := TYPE_EVENT, old_api := false }
      else if !optional then none
      else some port1
    match typed with
    | none => none
    | some port2 =>
      let sized : PortSetup × Port :=
        match data.minimum_size with
        | some m =>
          let buf_size := int_to_usize m
          let wanted := usize (buf_size * N_BUFFER_CYCLES)
          ({ setup with
             buffer_size := u32 (if setup.buffer_size > wanted then setup.buffer_size else wanted) },
           { port2 with buf_size := buf_size })
        | none => (setup, port2)
      some
        ({ sized.1 with
           longest_sym :=
             if data.symbol_length > sized.1.longest_sym then u32 data.symbol_length
             else sized.1.longest_sym },
         sized.2)

/-- The calls of `activate_port` into the plugin instance, the audio server and
the console. -/
inductive SetupCall where
  | lilv_instance_connect_port_null (index : Nat)
  | print_control_value (index : Nat)
  | lilv_instance_connect_port_control (index : Nat)
  | jack_port_register_audio (index : Nat) (is_input : Bool)
  | jack_port_register_midi (index : Nat) (is_input : Bool)
  | jack_set_property_order (index : Nat)
  | jack_set_property_pretty_name (index : Nat)
  deriving DecidableEq, Repr

/-- The function `activate_port` on the port `port` with index `port_index`: the
port afterwards and the calls made.  `registered` is what `jack_port_register`
returns when it is called (`none` for `NULL`); `have_jack_metadata` says
whether the code under `HAVE_JACK_METADATA` is compiled. -/
def activate_port (port : Port) (data : PortData) (port_index : Nat)
    (registered : Option Nat) (have_jack_metadata : Bool) : Port × List SetupCall :=
  if port.flow = FLOW_UNKNOWN ∨ port.type = TYPE_UNKNOWN then
    (port, [SetupCall.lilv_instance_connect_port_null port_index])
  else
    let is_input : Bool := decide (port.flow = FLOW_INPUT)
    let r : Port × List SetupCall :=
      match port.type with
      | TYPE_CONTROL =>
        (port, [SetupCall.print_control_value port_index,
                SetupCall.lilv_instance_connect_port_control port_index])
      | TYPE_AUDIO =>
        ({ port with jack_port := registered },
         [SetupCall.jack_port_register_audio port_index is_input])
      | TYPE_EVENT =>
        if data.supports_midi then
          ({ port with jack_port := registered },
           [SetupCall.jack_port_register_midi port_index is_input])
        else (port, [])
      | _ => (port, [])
    if have_jack_metadata ∧ r.1.jack_port.isSome then
      (r.1, r.2 ++ [SetupCall.jack_set_property_order port_index,
                    SetupCall.jack_set_property_pretty_name port_index])
    else r

/-- The kind, the flow and the index of a port. -/
def port_identity (port : Port) : PortType × PortFlow × Nat :=
  (port.type, port.flow, port.index)

/-- The function `jalv_allocate_port_buffers` on the array `ports`: every event
port gets the buffer `lv2_evbuf_new` returns, of the capacity `buf_size` of the
port if that is positive and of `midi_buf_size` otherwise, in the legacy
variant for a port of the old event API.  The call passes `lv2_evbuf_new` two
more arguments (the identifiers of `atom:Chunk` and `atom:Sequence`);
`lv2_evbuf_new` of `lv2_evbuf.c` has the two parameters capacity and variant.
`raw` is the content of the memory `malloc` returns.  The function does nothing
else to the buffer: its pointer `data` is left as `lv2_evbuf_new` leaves it. -/
def jalv_allocate_port_buffers (midi_buf_size : Nat) (raw : LV2_Evbuf) (ports : List Port) :
    List Port :=
  ports.map (fun port =>
    match port.type with
    | TYPE_EVENT =>
      let buf_size := if port.buf_size > 0 then port.buf_size else midi_buf_size
      { port with
        evbuf := some (lv2_evbuf_new buf_size
          (if port.old_api then LV2_EVBUF_EVENT else LV2_EVBUF_ATOM) raw) }
    | _ => port)

/-! ## Symbol map (`jalv.c`)

`map_uri` and `unmap_uri` take the semaphore `symap_lock` around one call into
the symbol map. -/

/-- Modelled from the spec: the symbol map, an append-only dictionary from
strings to integer IDs from 1 on with a reverse index (`symap.c` is not among
the sources).  The ID of a string is its position in `symbols`, counted from
1. -/
structure Symap where
  symbols : List String

/-- Modelled from the spec: `map(s)→id` (creates if absent): the ID of the
string, and the map, to which an absent string has been appended. -/
def symap_map (map : Symap) (uri : String) : Nat × Symap :=
  if uri ∈ map.symbols then (map.symbols.indexOf uri + 1, map)
  else (map.symbols.length + 1, { symbols := map.symbols ++ [uri] })

/-- Modelled from the spec: `unmap(id)→s` (nullable): the string of the ID,
`none` (for `NULL`) when no string has that ID. -/
def symap_unmap (map : Symap) (id : Nat) : Option String :=
  if id = 0 then none else map.symbols[id - 1]?

/-- The fields `symap` and `symap_lock` of `Jalv`; `symap_lock` is the count
of the semaphore. -/
structure JalvSymap where
  symap : Symap
  symap_lock : Nat

/-- Modelled from the spec: taking the mutex of the symbol map
(`zix_sem_wait`): the count afterwards, `none` when the count is 0 and the
call waits. -/
def zix_sem_wait (count : Nat) : Option Nat :=
  if count = 0 then none else some (count - 1)

/-- Modelled from the spec: releasing the mutex of the symbol map
(`zix_sem_post`). -/
def zix_sem_post (count : Nat) : Nat := count + 1

/-- The function `map_uri`: the ID returned and the host fields afterwards,
`none` when the call waits for the lock. -/
def map_uri (jalv : JalvSymap) (uri : String) : Option (Nat × JalvSymap) :=
  match zix_sem_wait jalv.symap_lock with
  | none => none
  | some locked =>
    let r := symap_map jalv.symap uri
    some (r.1, { symap := r.2, symap_lock := zix_sem_post locked })

/-- The function `unmap_uri`: the string returned (`none` for `NULL`) and the
host fields afterwards, `none` when the call waits for the lock. -/
def unmap_uri (jalv : JalvSymap) (urid : Nat) : Option (Option String × JalvSymap) :=
  match zix_sem_wait jalv.symap_lock with
  | none => none
  | some locked =>
    let uri := symap_unmap jalv.symap urid
    some (uri, { jalv with symap_lock := zix_sem_post locked })

/-! ## Conversions between `double` and `float`

The bit patterns are those of IEEE 754 binary64 and binary32; the conversion
of a `double` to `float` rounds to nearest, ties to even. -/

/-- The quotient `x / 2^shift` rounded to nearest, ties to even. -/
def round_shift (x shift : Nat) : Nat :=
  let q := x / 2 ^ shift
  let r := x % 2 ^ shift
  if 2 * r > 2 ^ shift ∨ (2 * r = 2 ^ shift ∧ q % 2 = 1) then q + 1 else q

/-- The conversion of a `double` to `float`, on bit patterns.  A NaN becomes
the quiet NaN of its sign. -/
def f64_to_f32 (d : Nat) : Nat :=
  let sign := d / 9223372036854775808 % 2
  let e := d / 4503599627370496 % 2048
  let m := d % 4503599627370496
  let magnitude :=
    if e = 2047 then (if m = 0 then 2139095040 else 2143289344)
    else if e = 0 then 0
    else if e ≥ 1151 then 2139095040
    else if e ≥ 897 then (e - 897) * 8388608 + round_shift (4503599627370496 + m) 29
    else round_shift (4503599627370496 + m) (29 + (897 - e))
  sign * 2147483648 + magnitude

/-- The position of the highest bit set in the fraction field of a subnormal
`float`, for a fraction field that is not 0. -/
def top_bit (m : Nat) : Nat :=
  ((List.range 23).filter (fun k => decide (2 ^ k ≤ m))).length - 1

/-- The conversion of a `float` to `double`, on bit patterns; it is exact. -/
def f32_to_f64 (f : Nat) : Nat :=
  let sign := f / 2147483648 % 2
  let e := f / 8388608 % 256
  let m := f % 8388608
  let magnitude :=
    if e = 255 then 2047 * 4503599627370496 + m * 536870912
    else if e = 0 then
      (if m = 0 then 0
       else (top_bit m + 874) * 4503599627370496
         + (m - 2 ^ top_bit m) * 2 ^ (52 - top_bit m))
    else (e + 896) * 4503599627370496 + m * 536870912
  sign * 9223372036854775808 + magnitude

/-- Whether the bit pattern of a `double` is a NaN. -/
def f64_is_nan (d : Nat) : Bool :=
  decide (d / 4503599627370496 % 2048 = 2047) && decide (d % 4503599627370496 ≠ 0)

/-- The comparison `a != b` of two `double` values, on bit patterns. -/
def f64_ne (a b : Nat) : Bool :=
  f64_is_nan a || f64_is_nan b ||
    (decide (a ≠ b) && !(decide (a % 9223372036854775808 = 0) && decide (b % 9223372036854775808 = 0)))

/-! ## The update period in `float` arithmetic

`jalv->sample_rate / jalv->ui_update_hz` converts the sample rate, a
`uint32_t`, to `float`, divides in `float`, and the initialisation of
`update_frames` converts the quotient to `jack_nframes_t`.  `float` is the
IEEE 754 binary32 format; conversion and division round to nearest, ties to
even, and the division is evaluated in `float`. -/

/-- The quotient `n / d` of natural numbers rounded to the nearest integer, ties
to the even one. -/
def round_div (n d : Nat) : Nat :=
  if 2 * (n % d) < d then n / d
  else if d < 2 * (n % d) then n / d + 1
  else if n / d % 2 = 0 then n / d
  else n / d + 1

/-- The number of times `d` can be doubled, at most `fuel` times, before it
exceeds `n`, added to `k`: for `k = 0` the least `j` with `n < d * 2^j`, if that
is at most `fuel`. -/
def doublings (n : Nat) : Nat → Nat → Nat → Nat
  | 0, _, k => k
  | fuel + 1, d, k => if d ≤ n then doublings n fuel (2 * d) (k + 1) else k

/-- A value of type `float`: a finite value `± sig * 2^exp / 2^149` with
`sig ≤ 2^24` and `exp ≤ 253`, an infinity, or a NaN.  A float with the biased
exponent field `e > 0` and the fraction field `m` is `(2^23 + m) * 2^(e-1) /
2^149`, a subnormal float is `m * 2^0 / 2^149`. -/
inductive F32 where
  | finite (negative : Bool) (sig exp : Nat)
  | infinite (negative : Bool)
  | nan

/-- The `float` with the bit pattern `f`. -/
def f32_of_bits (f : Nat) : F32 :=
  let negative := decide (f / 2147483648 % 2 = 1)
  let e := f / 8388608 % 256
  let m := f % 8388608
  if e = 255 then (if m = 0 then F32.infinite negative else F32.nan)
  else if e = 0 then F32.finite negative m 0
  else F32.finite negative (8388608 + m) (e - 1)

/-- The `float` nearest to the rational `n / d` (`0 < d`, `n < 2^512 * d`),
ties to the even significand, with the sign given.  In units of `2^-149` the
rational is `n * 2^149 / d`; `exp` is the least `k` with
`n * 2^149 / d < 2^(24+k)`, so that the quotient by `2^exp` is below `2^24`,
and at least `2^23` unless `exp` is 0; `sig` is that quotient rounded (the
value with `sig = 2^24` is the float `2^23 * 2^(exp+1) / 2^149`).  A rounded
value of `2^128` or more, which is `2^277` in units of `2^-149`, is an
infinity. -/
def f32_round (negative : Bool) (n d : Nat) : F32 :=
  let exp := doublings (n * 2 ^ 149) 1024 (d * 16777216) 0
  let sig := round_div (n * 2 ^ 149) (d * 2 ^ exp)
  if sig * 2 ^ exp
      ≥ 242833611528216133864932738352939863330300854881517440156476551217363035650651062272 then
    F32.infinite negative
  else F32.finite negative sig exp

/-- The conversion of a `uint32_t` to `float`. -/
def u32_to_f32 (n : Nat) : F32 := f32_round false n 1

/-- The division `a / b` of two `float` values. -/
def f32_div (a b : F32) : F32 :=
  match a, b with
  | F32.nan, _ => F32.nan
  | _, F32.nan => F32.nan
  | F32.infinite _, F32.infinite _ => F32.nan
  | F32.infinite s, F32.finite t _ _ => F32.infinite (s != t)
  | F32.finite s _ _, F32.infinite t => F32.finite (s != t) 0 0
  | F32.finite s m e, F32.finite t m' e' =>
    if m' = 0 then (if m = 0 then F32.nan else F32.infinite (s != t))
    else if m = 0 then F32.finite (s != t) 0 0
    else f32_round (s != t) (m * 2 ^ e) (m' * 2 ^ e')

/-- The conversion of a `float` to `uint32_t`: the value truncated toward zero.
For a NaN, an infinity, and a value whose truncation is not a `uint32_t`, the
behaviour of the conversion is undefined in C; the result given here is 0. -/
def f32_trunc_u32 (a : F32) : Nat :=
  match a with
  | F32.finite negative sig exp =>
    let v := sig * 2 ^ exp / 2 ^ 149
    if negative then 0
    else if v < 4294967296 then v
    else 0
  | _ => 0

/-- The value of `(jack_nframes_t)(sample_rate / ui_update_hz)` for the
`uint32_t` `n` and the `float` with the bit pattern `hz`. -/
def u32_div_f32 (n hz : Nat) : Nat :=
  f32_trunc_u32 (f32_div (u32_to_f32 n) (f32_of_bits hz))

/-- The rational value of a `float` (0 for an infinity and a NaN). -/
def F32.value (a : F32) : ℚ :=
  match a with
  | F32.finite negative sig exp =>
    (if negative then -1 else 1) * ((sig : ℚ) * 2 ^ exp / 2 ^ 149)
  | _ => 0

/-- The rational value of the `float` with the bit pattern `f`. -/
def f32_value (f : Nat) : ℚ := (f32_of_bits f).value

/-- Whether a call belongs to the dump of an object: `sratom_to_turtle`, which
is handed `&jalv->unmap` and returns a string it has allocated, the `printf` of
that string, and the `free` of it. -/
def Call.is_dump : Call → Bool
  | Call.sratom_to_turtle => true
  | Call.printf_position => true
  | Call.free => true
  | _ => false

/-- The value of the local `update_frames` of `jack_process_cb`. -/
def update_frames (fl : FloatOps) (jalv : Jalv) : Nat :=
  fl.div_u32_f32 jalv.sample_rate jalv.ui_update_hz

/-- The value the local `send_ui_updates` of `jack_process_cb` takes in a cycle
of `nframes` frames that comes to "Check if it's time to send updates to the
UI", for the host state at the start of the cycle. -/
def send_ui_updates (fl : FloatOps) (jalv : Jalv) (nframes : Nat) : Bool :=
  jalv.has_ui && decide (u32 (jalv.event_delta_t + nframes) > update_frames fl jalv)

/-- Whether a cycle is one in which scalar control values are sent to the UI:
it calls `lilv_instance_run` and then finds `send_ui_updates` set. -/
def update_cycle (fl : FloatOps) (fuel : Nat) (jalv : Jalv) (inp : CycleInput)
    (nframes : Nat) : Bool :=
  decide (Call.lilv_instance_run nframes ∈ (jack_process_cb fl jalv inp nframes fuel).calls)
    && send_ui_updates fl jalv nframes

/-- The number of cycles in which scalar control values are sent to the UI,
among consecutive executions of `jack_process_cb` with the given inputs and
block lengths. -/
def update_cycles (fl : FloatOps) (fuel : Nat) : Jalv → List (CycleInput × Nat) → Nat
  | _, [] => 0
  | jalv, (inp, nframes) :: rest =>
    (if update_cycle fl fuel jalv inp nframes then 1 else 0)
      + update_cycles fl fuel (jack_process_cb fl jalv inp nframes fuel).jalv rest

/-- The frames of consecutive cycles. -/
def total_frames (cycles : List (CycleInput × Nat)) : Nat :=
  (cycles.map Prod.snd).sum

/-- The scalar control record of port `p` with the value `control`: the header
`(p, 0, sizeof(float))` and the float. -/
def scalar_record (p control : Nat) : List Byte :=
  le32 p ++ le32 0 ++ le32 4 ++ le32 control

/-! ## Concrete inputs -/

/-- Two records for an atom buffer; the type of the second does not fit 16 bits. -/
def atom_records : List Record :=
  [{ frames := 1, subframes := 2, type := 3, size := 2, data := [5, 6] },
   { frames := 7, subframes := 8, type := 70000, size := 1, data := [4] }]

/-- Two records of four payload bytes each. -/
def legacy_records : List Record :=
  [{ frames := 1, subframes := 2, type := 3, size := 4, data := [5, 6, 7, 8] },
   { frames := 7, subframes := 8, type := 9, size := 4, data := [4, 3, 2, 1] }]

/-- Floating point operations for concrete runs: comparisons compare the bit
patterns, conversions keep them, the update period is 1024 frames. -/
def float_ops_example : FloatOps :=
  { f64_ne_f32 := fun d f => d != f
    f64_to_f32 := fun d => d
    div_u32_f32 := fun _ _ => 1024
    u32_ne_f32 := fun n f => n != f
    f32_to_u32 := fun f => f }

/-- Three ports: an audio output, a control input and an atom event input with
a buffer of capacity 64 that has its 64 bytes of memory, the first and the
last registered with the audio server. -/
def ports_example : List Port :=
  [{ type := TYPE_AUDIO, flow := FLOW_OUTPUT, jack_port := some 1, evbuf := none,
     buf_size := 0, index := 0, control := 0, old_api := false, reports_latency := false },
   { type := TYPE_CONTROL, flow := FLOW_INPUT, jack_port := none, evbuf := none,
     buf_size := 0, index := 1, control := 7, old_api := false, reports_latency := false },
   { type := TYPE_EVENT, flow := FLOW_INPUT, jack_port := some 2,
     evbuf := some (evbuf_with_memory 64 LV2_EVBUF_ATOM),
     buf_size := 0, index := 2, control := 0, old_api := false, reports_latency := false }]

/-- A host state with the ports of `ports_example`, no UI and empty rings, in
the given play state. -/
def jalv_example (play_state : JalvPlayState) : Jalv :=
  { opts_dump := false
    urids := { atom_Object := 10, atom_eventTransfer := 11, patch_Get := 12 }
    ui_events := { capacity := 64, content := [] }
    plugin_events := { capacity := 64, content := [] }
    worker_end_run := false
    paused := 0
    play_state := play_state
    ports := ports_example
    plugin_latency := 0
    ui_update_hz := 30
    sample_rate := 48000
    event_delta_t := 0
    midi_event_id := 13
    position := 0
    bpm := 120
    rolling := false
    has_ui := false
    state_changed := false }

/-- A cycle input: stopped transport at frame 0, one MIDI event on the
audio-server port 2, a plugin that leaves the memory of its ports as it is. -/
def input_example : CycleInput :=
  { rolling := false
    pos_frame := 0
    pos_beats_per_minute := 120
    lv2_pos := { size := 0, type := 0, body := [] }
    midi_in := fun jport =>
      if jport = 2 then [{ time := 10, size := 3, buffer := [144, 60, 127] }] else []
    run := fun _ ports p =>
      match ports[p]? with
      | some port => { control := port.control, evbuf := port.evbuf.getD raw_zero }
      | none => { control := 0, evbuf := raw_zero }
    uninit_ev := []
    uninit_get := [] }

/-- A running host with a UI like `jalv_example`, whose ring from the UI holds
the bytes `ui`. -/
def jalv_with_ui (ui : List Byte) : Jalv :=
  { jalv_example JALV_RUNNING with
    has_ui := true
    ui_events := { capacity := 64, content := ui } }

/-- A record of protocol 0 for port 1 with a body of 8 bytes. -/
def wide_control_change : ControlChange :=
  { index := 1, protocol := 0, size := 8, body := [1, 2, 3, 4, 5, 6, 7, 8] }

/-- A cycle input like `input_example` with a rolling transport at frame 0 and
a position object of type 10 with 4 body bytes. -/
def input_rolling : CycleInput :=
  { input_example with
    rolling := true
    lv2_pos := { size := 4, type := 10, body := [1, 2, 3, 4] } }

/-- A control input and a control output with the value 5. -/
def ports_control_out : List Port :=
  [{ type := TYPE_CONTROL, flow := FLOW_INPUT, jack_port := none, evbuf := none,
     buf_size := 0, index := 0, control := 7, old_api := false, reports_latency := false },
   { type := TYPE_CONTROL, flow := FLOW_OUTPUT, jack_port := none, evbuf := none,
     buf_size := 0, index := 1, control := 5, old_api := false, reports_latency := false }]

/-- A running host with a UI and the ports of `ports_control_out`, due to send
its control values to the UI, whose ring to the UI is empty with the capacity
`free`. -/
def jalv_control_out (free : Nat) : Jalv :=
  { jalv_example JALV_RUNNING with
    ports := ports_control_out
    has_ui := true
    event_delta_t := 2000
    plugin_events := { capacity := free, content := [] } }

/-- A running host whose ring from the UI, of capacity 20, holds one scalar
record for port 1. -/
def jalv_ui_ring_used : Jalv :=
  { jalv_example JALV_RUNNING with
    has_ui := true
    ui_events := { capacity := 20, content := (control_change 1 7).bytes } }

/-- Two MIDI records (the host in `jalv_example` maps the MIDI event type to
13). -/
def midi_records : List Record :=
  [{ frames := 1, subframes := 0, type := 13, size := 3, data := [144, 60, 127] },
   { frames := 2, subframes := 0, type := 13, size := 3, data := [128, 60, 0] }]

/-- One atom event output port with a buffer of capacity 64 that has its 64
bytes of memory, registered with the audio server as MIDI port 3. -/
def ports_midi_out : List Port :=
  [{ type := TYPE_EVENT, flow := FLOW_OUTPUT, jack_port := some 3,
     evbuf := some (evbuf_with_memory 64 LV2_EVBUF_ATOM),
     buf_size := 0, index := 0, control := 0, old_api := false, reports_latency := false }]

/-- A running host with a UI and the port of `ports_midi_out`, whose ring to
the UI is empty with the capacity `free`. -/
def jalv_midi_out (free : Nat) : Jalv :=
  { jalv_example JALV_RUNNING with
    ports := ports_midi_out
    has_ui := true
    plugin_events := { capacity := free, content := [] } }

/-- A cycle input whose plugin leaves the two records of `midi_records` in the
buffer of its event output port. -/
def input_midi_out : CycleInput :=
  { input_example with
    run := fun _ _ _ =>
      { control := 0
        evbuf := (write_all (lv2_evbuf_new 64 LV2_EVBUF_ATOM raw_zero) { offset := 0 }
          midi_records).2.1 } }

/-- A whole record for port 1 of a protocol that is neither 0 nor
event-transfer (11 in `jalv_example`). -/
def unknown_control_change : ControlChange :=
  { index := 1, protocol := 99, size := 2, body := [1, 2] }

/-- An entry of the array `ports` as `calloc` leaves it. -/
def port_zero : Port :=
  { type := TYPE_UNKNOWN, flow := FLOW_UNKNOWN, jack_port := none, evbuf := none,
    buf_size := 0, index := 0, control := 0, old_api := false, reports_latency := false }

/-- The host fields before the ports are created: a UI-buffer size of 4096. -/
def setup_example : PortSetup := { buffer_size := 4096, longest_sym := 0 }

/-- The plugin data of a mandatory atom input port that declares the integer
minimum buffer size `m`. -/
def port_data_sized (m : Int) : PortData :=
  { connection_optional := false, is_input := true, is_output := false, is_control := false,
    is_audio := false, is_event := false, is_atom := true, minimum_size := some m,
    symbol_length := 2, supports_midi := true }

/-- The plugin data of a port of no recognised kind, connection-optional or
not. -/
def port_data_unknown (optional : Bool) : PortData :=
  { connection_optional := optional, is_input := true, is_output := false, is_control := false,
    is_audio := false, is_event := false, is_atom := false, minimum_size := none,
    symbol_length := 2, supports_midi := false }

/-- A symbol map with two strings and a free lock. -/
def symap_example : JalvSymap :=
  { symap := { symbols := ["http://lv2plug.in/ns/ext/atom#Object",
                           "http://lv2plug.in/ns/ext/midi#MidiEvent"] },
    symap_lock := 1 }

/-- Floating point operations whose conversion of a `double` to `float` and
whose comparison of a `double` with a `float` (the float is converted to
`double`) are those of IEEE 754; the other operations are those of
`float_ops_example`. -/
def float_ops_ieee : FloatOps :=
  { float_ops_example with
    f64_ne_f32 := fun d f => f64_ne d (f32_to_f64 f)
    f64_to_f32 := f64_to_f32 }

/-- Floating point operations like those of `float_ops_example`, with the
update period of IEEE 754 `float` arithmetic (`u32_div_f32`). -/
def float_ops_f32 : FloatOps :=
  { float_ops_example with div_u32_f32 := u32_div_f32 }

/-- A cycle input like `input_example` with the tempo 120.1, the `double`
`0x405E066666666666`, and the transport in the given state at the given
frame. -/
def input_tempo (rolling : Bool) (frame : Nat) : CycleInput :=
  { input_example with
    rolling := rolling
    pos_frame := frame
    pos_beats_per_minute := 4638151703112607334
    lv2_pos := { size := 4, type := 10, body := [1, 2, 3, 4] } }

/-- An event-transfer payload of 60 bytes: the header of an atom of type 3 with
52 body bytes, and the body. -/
def long_payload : List Byte :=
  le32 52 ++ le32 3 ++ List.replicate 52 7

/-- A host like `jalv_example` in the running state with `opts.dump` set. -/
def jalv_dump : Jalv :=
  { jalv_example JALV_RUNNING with opts_dump := true }

/-- A running host like `jalv_example` whose ports have the buffers
`jalv_allocate_port_buffers` gives them, for MIDI buffers of 4096 bytes. -/
def jalv_allocated : Jalv :=
  { jalv_example JALV_RUNNING with
    ports := jalv_allocate_port_buffers 4096 raw_zero ports_example }

/-- A running host with a UI, the sample rate 48000 and the ports of
`ports_control_out`, whose rings are empty. -/
def jalv_updates : Jalv :=
  { jalv_example JALV_RUNNING with
    ports := ports_control_out
    has_ui := true
    plugin_events := { capacity := 4096, content := [] } }

/-- A running host like `jalv_updates` with the update rate 30 Hz, the `float`
`0x41F00000`: at the sample rate 48000 the update period in `float` arithmetic
is 1600 frames. -/
def jalv_updates_30 : Jalv :=
  { jalv_updates with ui_update_hz := 1106247680 }

/-- A running host like `jalv_updates` with the sample rate `2^26 + 3`, the
update rate 1 Hz, the `float` `0x3F800000`, and an empty ring to the UI of
capacity `2^31`: the sample rate converted to `float` is `2^26`, and so is the
update period. -/
def jalv_rate_high : Jalv :=
  { jalv_updates with
    sample_rate := 67108867
    ui_update_hz := 1065353216
    plugin_events := { capacity := 2147483648, content := [] } }

/-- A running host like `jalv_updates` with the sample rate 48000, the update
rate `11 / 32768` Hz, the `float` `0x39B00000`, and an empty ring to the UI of
capacity `2^31`: the quotient `48000 / (11 / 32768)` is 142987636.36..., above
`2^24`, and rounded to `float` it is 142987632, the update period. -/
def jalv_rate_low : Jalv :=
  { jalv_updates with
    ui_update_hz := 967835648
    plugin_events := { capacity := 2147483648, content := [] } }

end JalvHost

/-! # Theorems -/

namespace JalvHost
open LV2_Evbuf_Type PortFlow PortType JalvPlayState

/-! ## Memory and padding -/

theorem and_mask_eq (x : Nat) (h : x < 4294967296) : x &&& 4294967288 = x / 8 * 8 := by
  apply Nat.eq_of_testBit_eq
  intro i
  have e1 : (4294967288 : Nat) = 2 ^ 3 * (2 ^ 29 - 1) := by norm_num
  have e2 : x / 8 * 8 = 2 ^ 3 * (x / 2 ^ 3) := by norm_num; omega
  rw [Nat.testBit_and, e1, e2, Nat.testBit_mul_pow_two, Nat.testBit_mul_pow_two,
    Nat.testBit_two_pow_sub_one, ← Nat.shiftRight_eq_div_pow, Nat.testBit_shiftRight]
  by_cases h3 : 3 ≤ i
  · by_cases h32 : i < 32
    · have : i - 3 < 29 := by omega
      have e : 3 + (i - 3) = i := by omega
      simp [h3, this, e]
    · have hx : x.testBit i = false := by
        apply Nat.testBit_lt_two_pow
        calc x < 2 ^ 32 := h
          _ ≤ 2 ^ i := Nat.pow_le_pow_right (by decide) (by omega)
      have e : 3 + (i - 3) = i := by omega
      simp [h3, e, hx]
  · simp [h3]

theorem pad_eq (n : Nat) (h : n + 7 < 4294967296) :
    lv2_evbuf_pad_size n = (n + 7) / 8 * 8 := by
  unfold lv2_evbuf_pad_size u32
  rw [Nat.mod_eq_of_lt h, and_mask_eq _ h]

theorem atom_pad_eq (n : Nat) (h : n + 7 < 4294967296) :
    lv2_atom_pad_size n = (n + 7) / 8 * 8 := by
  unfold lv2_atom_pad_size u32
  rw [Nat.mod_eq_of_lt h, and_mask_eq _ h]

theorem store32_out (m : Nat → Byte) (a v x : Nat) (h : x < a ∨ a + 4 ≤ x) :
    store32 m a v x = m x := by
  unfold store32
  have h0 : x ≠ a := by omega
  have h1 : x ≠ a + 1 := by omega
  have h2 : x ≠ a + 2 := by omega
  have h3 : x ≠ a + 3 := by omega
  simp [h0, h1, h2, h3]

theorem store16_out (m : Nat → Byte) (a v x : Nat) (h : x < a ∨ a + 2 ≤ x) :
    store16 m a v x = m x := by
  unfold store16
  have h0 : x ≠ a := by omega
  have h1 : x ≠ a + 1 := by omega
  simp [h0, h1]

theorem memcpy_out (m : Nat → Byte) (dst : Nat) (src : List Byte) (n x : Nat)
    (h : x < dst ∨ dst + n ≤ x) : memcpy m dst src n x = m x := by
  unfold memcpy
  have : ¬ (dst ≤ x ∧ x < dst + n) := by omega
  simp [this]

theorem memcpy_in (m : Nat → Byte) (dst : Nat) (src : List Byte) (n x : Nat)
    (h1 : dst ≤ x) (h2 : x < dst + n) : memcpy m dst src n x = src.getD (x - dst) 0 := by
  unfold memcpy
  simp [h1, h2]

theorem load32_store32 (m : Nat → Byte) (a v : Nat) (h : v < 4294967296) :
    load32 (store32 m a v) a = v := by
  unfold load32 store32 toByte
  simp
  omega

theorem load16_store16 (m : Nat → Byte) (a v : Nat) :
    load16 (store16 m a v) a = v % 65536 := by
  unfold load16 store16 toByte
  simp
  omega

theorem load32_congr (m m' : Nat → Byte) (a : Nat)
    (h : ∀ x, a ≤ x → x < a + 4 → m x = m' x) : load32 m a = load32 m' a := by
  unfold load32
  rw [h a (by omega) (by omega), h (a + 1) (by omega) (by omega),
    h (a + 2) (by omega) (by omega), h (a + 3) (by omega) (by omega)]

theorem load16_congr (m m' : Nat → Byte) (a : Nat)
    (h : ∀ x, a ≤ x → x < a + 2 → m x = m' x) : load16 m a = load16 m' a := by
  unfold load16
  rw [h a (by omega) (by omega), h (a + 1) (by omega) (by omega)]

theorem bytesAt_congr (m m' : Nat → Byte) (a n : Nat)
    (h : ∀ x, a ≤ x → x < a + n → m x = m' x) : bytesAt m a n = bytesAt m' a n := by
  unfold bytesAt
  apply List.map_congr_left
  intro j hj
  rw [List.mem_range] at hj
  exact h (a + j) (by omega) (by omega)

theorem bytesAt_memcpy (m : Nat → Byte) (a : Nat) (src : List Byte) :
    bytesAt (memcpy m a src src.length) a src.length = src := by
  unfold bytesAt
  apply List.ext_getElem
  · simp
  · intro i h1 h2
    simp only [List.getElem_map, List.getElem_range]
    rw [memcpy_in _ _ _ _ _ (by omega) (by omega)]
    have e : a + i - a = i := by omega
    rw [e]
    exact (List.getD_eq_getElem _ _ h2)

theorem pad_eq_pad (n : Nat) (h : n + 7 < 4294967296) : lv2_evbuf_pad_size n = pad n :=
  pad_eq n h

theorem atom_pad_eq_pad (n : Nat) (h : n + 7 < 4294967296) : lv2_atom_pad_size n = pad n :=
  atom_pad_eq n h

theorem pad_bounds (n : Nat) : n ≤ pad n ∧ pad n ≤ n + 7 ∧ pad n % 8 = 0 := by
  unfold pad
  omega

theorem write_ok_spec (ev : LV2_Evbuf) (it : LV2_Evbuf_Iterator) (r : Record)
    (hok : (lv2_evbuf_write ev it r.frames r.subframes r.type r.size r.data).1 = true)
    (hpad : record_header ev.type + r.size + 7 < 4294967296) :
    (lv2_evbuf_write ev it r.frames r.subframes r.type r.size r.data).2.1.type = ev.type ∧
    (lv2_evbuf_write ev it r.frames r.subframes r.type r.size r.data).2.1.capacity
      = ev.capacity ∧
    (lv2_evbuf_write ev it r.frames r.subframes r.type r.size r.data).2.1.size
      = u32 (ev.size + pad (record_header ev.type + r.size)) ∧
    (lv2_evbuf_write ev it r.frames r.subframes r.type r.size r.data).2.2.offset
      = u32 (it.offset + pad (record_header ev.type + r.size)) ∧
    (∀ x, x < it.offset ∨ it.offset + record_header ev.type + r.size ≤ x →
      (lv2_evbuf_write ev it r.frames r.subframes r.type r.size r.data).2.1.data x
        = ev.data x) := by
  unfold lv2_evbuf_write at hok ⊢
  cases hty : ev.type
  · simp only [hty, record_header] at hok hpad ⊢
    split at hok
    · simp at hok
    · rename_i hg
      simp only [hg, if_false]
      rw [pad_eq_pad _ hpad]
      refine ⟨trivial, trivial, rfl, rfl, ?_⟩
      intro x hx
      simp only [sizeof_LV2_Event] at hx ⊢
      rw [memcpy_out _ _ _ _ _ (by omega), store16_out _ _ _ _ (by omega),
        store16_out _ _ _ _ (by omega), store32_out _ _ _ _ (by omega),
        store32_out _ _ _ _ (by omega)]
  · simp only [hty, record_header] at hok hpad ⊢
    split at hok
    · simp at hok
    · rename_i hg
      simp only [hg, if_false]
      rw [atom_pad_eq_pad _ hpad]
      refine ⟨trivial, trivial, rfl, rfl, ?_⟩
      intro x hx
      simp only [sizeof_LV2_Atom_Event] at hx ⊢
      rw [memcpy_out _ _ _ _ _ (by omega), store32_out _ _ _ _ (by omega),
        store32_out _ _ _ _ (by omega), store32_out _ _ _ _ (by omega),
        store32_out _ _ _ _ (by omega)]

theorem atom_mem_read (m : Nat → Byte) (o : Nat) (r : Record) (hwf : r.wf) (m2 : Nat → Byte)
    (hagree : ∀ x, o ≤ x → x < o + 16 + r.size → m2 x =
      memcpy (store32 (store32 (store32 (store32 m o r.frames) (o + 4) r.subframes)
        (o + 8) r.type) (o + 12) r.size) (o + 16) r.data r.size x) :
    load32 m2 o = r.frames ∧ load32 m2 (o + 4) = r.subframes ∧ load32 m2 (o + 8) = r.type ∧
      load32 m2 (o + 12) = r.size ∧ bytesAt m2 (o + 16) r.size = r.data := by
  obtain ⟨h1, h2, h3, h4, h5⟩ := hwf
  refine ⟨?_, ?_, ?_, ?_, ?_⟩
  · rw [load32_congr m2 (store32 m o r.frames) o, load32_store32 _ _ _ h1]
    intro x hx1 hx2
    rw [hagree x (by omega) (by omega), memcpy_out _ _ _ _ _ (by omega),
      store32_out _ _ _ _ (by omega), store32_out _ _ _ _ (by omega),
      store32_out _ _ _ _ (by omega)]
  · rw [load32_congr m2 (store32 (store32 m o r.frames) (o + 4) r.subframes) (o + 4),
      load32_store32 _ _ _ h2]
    intro x hx1 hx2
    rw [hagree x (by omega) (by omega), memcpy_out _ _ _ _ _ (by omega),
      store32_out _ _ _ _ (by omega), store32_out _ _ _ _ (by omega)]
  · rw [load32_congr m2 (store32 (store32 (store32 m o r.frames) (o + 4) r.subframes)
        (o + 8) r.type) (o + 8), load32_store32 _ _ _ h3]
    intro x hx1 hx2
    rw [hagree x (by omega) (by omega), memcpy_out _ _ _ _ _ (by omega),
      store32_out _ _ _ _ (by omega)]
  · rw [load32_congr m2 (store32 (store32 (store32 (store32 m o r.frames) (o + 4) r.subframes)
        (o + 8) r.type) (o + 12) r.size) (o + 12), load32_store32 _ _ _ h4]
    intro x hx1 hx2
    rw [hagree x (by omega) (by omega), memcpy_out _ _ _ _ _ (by omega)]
  · rw [bytesAt_congr m2 _ (o + 16) r.size (fun x hx1 hx2 => hagree x (by omega) (by omega))]
    rw [← h5]
    exact bytesAt_memcpy _ _ _

theorem event_mem_read (m : Nat → Byte) (o : Nat) (r : Record) (hwf : r.wf) (m2 : Nat → Byte)
    (hagree : ∀ x, o ≤ x → x < o + 12 + r.size → m2 x =
      memcpy (store16 (store16 (store32 (store32 m o r.frames) (o + 4) r.subframes)
        (o + 8) r.type) (o + 10) r.size) (o + 12) r.data r.size x) :
    load32 m2 o = r.frames ∧ load32 m2 (o + 4) = r.subframes ∧
      load16 m2 (o + 8) = r.type % 65536 ∧ load16 m2 (o + 10) = r.size % 65536 ∧
      bytesAt m2 (o + 12) r.size = r.data := by
  obtain ⟨h1, h2, h3, h4, h5⟩ := hwf
  refine ⟨?_, ?_, ?_, ?_, ?_⟩
  · rw [load32_congr m2 (store32 m o r.frames) o, load32_store32 _ _ _ h1]
    intro x hx1 hx2
    rw [hagree x (by omega) (by omega), memcpy_out _ _ _ _ _ (by omega),
      store16_out _ _ _ _ (by omega), store16_out _ _ _ _ (by omega),
      store32_out _ _ _ _ (by omega)]
  · rw [load32_congr m2 (store32 (store32 m o r.frames) (o + 4) r.subframes) (o + 4),
      load32_store32 _ _ _ h2]
    intro x hx1 hx2
    rw [hagree x (by omega) (by omega), memcpy_out _ _ _ _ _ (by omega),
      store16_out _ _ _ _ (by omega), store16_out _ _ _ _ (by omega)]
  · rw [load16_congr m2 (store16 (store32 (store32 m o r.frames) (o + 4) r.subframes)
        (o + 8) r.type) (o + 8), load16_store16]
    intro x hx1 hx2
    rw [hagree x (by omega) (by omega), memcpy_out _ _ _ _ _ (by omega),
      store16_out _ _ _ _ (by omega)]
  · rw [load16_congr m2 (store16 (store16 (store32 (store32 m o r.frames) (o + 4) r.subframes)
        (o + 8) r.type) (o + 10) r.size) (o + 10), load16_store16]
    intro x hx1 hx2
    rw [hagree x (by omega) (by omega), memcpy_out _ _ _ _ _ (by omega)]
  · rw [bytesAt_congr m2 _ (o + 12) r.size (fun x hx1 hx2 => hagree x (by omega) (by omega))]
    rw [← h5]
    exact bytesAt_memcpy _ _ _

theorem write_atom_data (ev : LV2_Evbuf) (it : LV2_Evbuf_Iterator) (r : Record)
    (hty : ev.type = LV2_EVBUF_ATOM)
    (hok : (lv2_evbuf_write ev it r.frames r.subframes r.type r.size r.data).1 = true) :
    (lv2_evbuf_write ev it r.frames r.subframes r.type r.size r.data).2.1.data =
      memcpy (store32 (store32 (store32 (store32 ev.data it.offset r.frames)
        (it.offset + 4) r.subframes) (it.offset + 8) r.type) (it.offset + 12) r.size)
        (it.offset + 16) r.data r.size := by
  unfold lv2_evbuf_write at hok ⊢
  simp only [hty] at hok ⊢
  split at hok
  · simp at hok
  · rename_i hg
    simp only [hg, if_false]

theorem write_event_data (ev : LV2_Evbuf) (it : LV2_Evbuf_Iterator) (r : Record)
    (hty : ev.type = LV2_EVBUF_EVENT)
    (hok : (lv2_evbuf_write ev it r.frames r.subframes r.type r.size r.data).1 = true) :
    (lv2_evbuf_write ev it r.frames r.subframes r.type r.size r.data).2.1.data =
      memcpy (store16 (store16 (store32 (store32 ev.data it.offset r.frames)
        (it.offset + 4) r.subframes) (it.offset + 8) r.type) (it.offset + 10) r.size)
        (it.offset + 12) r.data r.size := by
  unfold lv2_evbuf_write at hok ⊢
  simp only [hty] at hok ⊢
  split at hok
  · simp at hok
  · rename_i hg
    simp only [hg, if_false]
    rfl

/-- Reading back a record: any buffer of the same variant whose bytes agree with
the written ones on the record, and in which the iterator is valid, yields the
record at the iterator (the legacy variant keeps type and size modulo `2^16`). -/
theorem write_read_back (ev : LV2_Evbuf) (it : LV2_Evbuf_Iterator) (r : Record)
    (hok : (lv2_evbuf_write ev it r.frames r.subframes r.type r.size r.data).1 = true)
    (hwf : r.wf)
    (h16 : ev.type = LV2_EVBUF_EVENT → r.type < 65536 ∧ r.size < 65536)
    (ev2 : LV2_Evbuf) (hty : ev2.type = ev.type)
    (hagree : ∀ x, it.offset ≤ x → x < it.offset + record_header ev.type + r.size →
      ev2.data x
        = (lv2_evbuf_write ev it r.frames r.subframes r.type r.size r.data).2.1.data x)
    (hvalid : it.offset < ev2.size) :
    read_record ev2 it = some r := by
  have hv : lv2_evbuf_is_valid ev2 it = true := by
    unfold lv2_evbuf_is_valid lv2_evbuf_get_size
    cases ev2.type <;> simp [hvalid]
  unfold read_record lv2_evbuf_get
  cases hte : ev.type
  · rw [hte] at hty
    rw [write_event_data ev it r hte hok] at hagree
    simp only [hte, record_header, sizeof_LV2_Event] at hagree
    obtain ⟨e1, e2, e3, e4, e5⟩ := event_mem_read ev.data it.offset r hwf ev2.data hagree
    obtain ⟨b1, b2⟩ := h16 hte
    rw [Nat.mod_eq_of_lt b1] at e3
    rw [Nat.mod_eq_of_lt b2] at e4
    simp only [hv, hty, sizeof_LV2_Event, e1, e2, e3, e4, e5]
    simp [e5]
  · rw [hte] at hty
    rw [write_atom_data ev it r hte hok] at hagree
    simp only [hte, record_header, sizeof_LV2_Atom_Event] at hagree
    obtain ⟨e1, e2, e3, e4, e5⟩ := atom_mem_read ev.data it.offset r hwf ev2.data hagree
    simp only [hv, hty, e1, e2, e3, e4, e5]
    simp [e5]

theorem pad_lt_imp (n : Nat) (h : pad n < 4294967296) : n + 7 < 4294967296 := by
  unfold pad at h
  omega

theorem record_header_pos (t : LV2_Evbuf_Type) : 12 ≤ record_header t := by
  cases t <;> simp [record_header, sizeof_LV2_Event, sizeof_LV2_Atom_Event]

theorem write_all_cons (ev : LV2_Evbuf) (it : LV2_Evbuf_Iterator) (r : Record)
    (rs : List Record) :
    write_all ev it (r :: rs) =
      ((lv2_evbuf_write ev it r.frames r.subframes r.type r.size r.data).1 ::
        (write_all (lv2_evbuf_write ev it r.frames r.subframes r.type r.size r.data).2.1
          (lv2_evbuf_write ev it r.frames r.subframes r.type r.size r.data).2.2 rs).1,
       (write_all (lv2_evbuf_write ev it r.frames r.subframes r.type r.size r.data).2.1
          (lv2_evbuf_write ev it r.frames r.subframes r.type r.size r.data).2.2 rs).2.1,
       (write_all (lv2_evbuf_write ev it r.frames r.subframes r.type r.size r.data).2.1
          (lv2_evbuf_write ev it r.frames r.subframes r.type r.size r.data).2.2 rs).2.2) := rfl

/-- Successful writes through one iterator that starts at the used-size, without
wrap of the used-size: the buffer afterwards holds every record at the offset
where it was written. -/
theorem write_all_spec (recs : List Record) :
    ∀ (ev : LV2_Evbuf) (it : LV2_Evbuf_Iterator), it.offset = ev.size →
      ev.size + stride_total ev.type recs < 4294967296 →
      (∀ r ∈ recs, r.wf) →
      (ev.type = LV2_EVBUF_EVENT → ∀ r ∈ recs, r.type < 65536 ∧ r.size < 65536) →
      (∀ b ∈ (write_all ev it recs).1, b = true) →
      (write_all ev it recs).2.1.type = ev.type ∧
      (write_all ev it recs).2.1.capacity = ev.capacity ∧
      (write_all ev it recs).2.1.size = ev.size + stride_total ev.type recs ∧
      (write_all ev it recs).2.2.offset = ev.size + stride_total ev.type recs ∧
      (∀ x, x < ev.size → (write_all ev it recs).2.1.data x = ev.data x) ∧
      (∀ i (hi : i < recs.length),
        read_record (write_all ev it recs).2.1
          { offset := ev.size + stride_total ev.type (recs.take i) } = some recs[i]) := by
  induction recs with
  | nil =>
    intro ev it hoff _ _ _ _
    simp [write_all, stride_total, hoff]
  | cons r rs ih =>
    intro ev it hoff htot hwf h16 hok
    rw [write_all_cons] at hok ⊢
    simp only [stride_total] at htot ⊢
    have hok1 : (lv2_evbuf_write ev it r.frames r.subframes r.type r.size r.data).1 = true :=
      hok _ (List.mem_cons_self _ _)
    have hpad : record_header ev.type + r.size + 7 < 4294967296 :=
      pad_lt_imp _ (by omega)
    obtain ⟨w1, w2, w3, w4, w5⟩ := write_ok_spec ev it r hok1 hpad
    have hb := pad_bounds (record_header ev.type + r.size)
    have hh := record_header_pos ev.type
    have e3 : (lv2_evbuf_write ev it r.frames r.subframes r.type r.size r.data).2.1.size
        = ev.size + pad (record_header ev.type + r.size) := by
      rw [w3]; unfold u32; exact Nat.mod_eq_of_lt (by omega)
    have e4 : (lv2_evbuf_write ev it r.frames r.subframes r.type r.size r.data).2.2.offset
        = ev.size + pad (record_header ev.type + r.size) := by
      rw [w4, hoff]; unfold u32; exact Nat.mod_eq_of_lt (by omega)
    obtain ⟨i1, i2, i3, i4, i5, i6⟩ :=
      ih (lv2_evbuf_write ev it r.frames r.subframes r.type r.size r.data).2.1
        (lv2_evbuf_write ev it r.frames r.subframes r.type r.size r.data).2.2
        (by rw [e3, e4]) (by rw [e3, w1]; omega)
        (fun r hr => hwf r (List.mem_cons_of_mem _ hr))
        (fun h r hr => h16 (by rw [← w1]; exact h) r (List.mem_cons_of_mem _ hr))
        (fun b hb => hok b (List.mem_cons_of_mem _ hb))
    rw [w1] at i1 i3 i4 i6
    rw [e3] at i3 i4 i5 i6
    refine ⟨i1, by rw [i2, w2], by rw [i3]; omega, by rw [i4]; omega, ?_, ?_⟩
    · intro x hx
      rw [i5 x (by omega), w5 x (by omega)]
    · intro i hi
      cases i with
      | zero =>
        simp only [List.take_zero, stride_total, Nat.add_zero, List.getElem_cons_zero]
        have := write_read_back ev it r hok1 (hwf r (List.mem_cons_self _ _))
          (fun h => h16 h r (List.mem_cons_self _ _)) _ i1
          (fun x hx1 hx2 => i5 x (by omega)) (by rw [i3]; omega)
        have eit : it = { offset := ev.size } := by
          cases it; simp only [LV2_Evbuf_Iterator.mk.injEq]; exact hoff
        rw [← eit]
        exact this
      | succ j =>
        simp only [List.take_succ_cons, stride_total, List.getElem_cons_succ]
        have := i6 j (by simpa using hi)
        rw [← Nat.add_assoc]
        exact this

theorem read_record_atom_size (ev : LV2_Evbuf) (it : LV2_Evbuf_Iterator) (r : Record)
    (hty : ev.type = LV2_EVBUF_ATOM) (h : read_record ev it = some r) :
    lv2_evbuf_is_valid ev it = true ∧ load32 ev.data (it.offset + 12) = r.size := by
  unfold read_record lv2_evbuf_get at h
  by_cases hv : lv2_evbuf_is_valid ev it = true
  · simp only [hv, hty] at h
    simp at h
    refine ⟨hv, ?_⟩
    rw [← h]
  · simp [hv] at h

theorem atom_next (ev : LV2_Evbuf) (it : LV2_Evbuf_Iterator) (r : Record)
    (hty : ev.type = LV2_EVBUF_ATOM) (h : read_record ev it = some r)
    (hb : it.offset + pad (16 + r.size) < 4294967296) :
    lv2_evbuf_next ev it = { offset := it.offset + pad (16 + r.size) } := by
  obtain ⟨hv, hs⟩ := read_record_atom_size ev it r hty h
  have hp := pad_bounds (16 + r.size)
  unfold lv2_evbuf_next
  simp only [hv, hty, hs, sizeof_LV2_Atom_Event]
  rw [pad_eq_pad _ (by omega)]
  unfold u32
  rw [Nat.mod_eq_of_lt hb]
  simp

theorem atom_visit (recs : List Record) :
    ∀ (ev : LV2_Evbuf) (start : Nat), ev.type = LV2_EVBUF_ATOM →
      ev.size = start + stride_total LV2_EVBUF_ATOM recs → ev.size < 4294967296 →
      (∀ i (hi : i < recs.length),
        read_record ev { offset := start + stride_total LV2_EVBUF_ATOM (recs.take i) }
          = some recs[i]) →
      ∀ fuel, recs.length < fuel →
        (visit ev fuel { offset := start }).map (read_record ev) = recs.map some := by
  induction recs with
  | nil =>
    intro ev start hty hsz _ _ fuel _
    cases fuel with
    | zero => simp [visit]
    | succ f =>
      have : lv2_evbuf_is_valid ev { offset := start } = false := by
        unfold lv2_evbuf_is_valid lv2_evbuf_get_size
        simp [hty, hsz, stride_total]
      simp [visit, this]
  | cons r rs ih =>
    intro ev start hty hsz hlt hst fuel hfuel
    cases fuel with
    | zero => simp at hfuel
    | succ f =>
      simp only [stride_total, record_header, sizeof_LV2_Atom_Event] at hsz
      have h0 := hst 0 (by simp)
      simp only [List.take_zero, stride_total, Nat.add_zero, List.getElem_cons_zero] at h0
      obtain ⟨hv, _⟩ := read_record_atom_size ev _ r hty h0
      have hn := atom_next ev _ r hty h0 (by simp only []; omega)
      simp only [visit, hv, if_true, List.map_cons, h0, hn]
      congr 1
      apply ih ev (start + pad (16 + r.size)) hty (by rw [hsz]; omega) hlt
      · intro i hi
        have := hst (i + 1) (by simpa using hi)
        simp only [List.take_succ_cons, stride_total, List.getElem_cons_succ, record_header,
          sizeof_LV2_Atom_Event] at this
        rw [Nat.add_assoc]
        exact this
      · simpa using hfuel

theorem new_fields (capacity : Nat) (t : LV2_Evbuf_Type) (raw : LV2_Evbuf) :
    (lv2_evbuf_new capacity t raw).type = t ∧ (lv2_evbuf_new capacity t raw).size = 0 ∧
      (lv2_evbuf_new capacity t raw).event_count = 0 ∧
      (lv2_evbuf_new capacity t raw).capacity = u32 capacity := by
  unfold lv2_evbuf_new lv2_evbuf_reset
  cases t <;> simp

/-! ## Stores within the memory of a buffer -/

/-- A write leaves the variant and the extent of the memory of the buffer. -/
theorem write_data_size (ev : LV2_Evbuf) (it : LV2_Evbuf_Iterator)
    (frames subframes type size : Nat) (data : List Byte) :
    (lv2_evbuf_write ev it frames subframes type size data).2.1.data_size = ev.data_size ∧
    (lv2_evbuf_write ev it frames subframes type size data).2.1.type = ev.type := by
  unfold lv2_evbuf_write
  cases hty : ev.type <;> dsimp only <;> split <;> simp [hty]

theorem visit_empty (ev : LV2_Evbuf) (h : ev.size = 0) (fuel : Nat) (it : LV2_Evbuf_Iterator) :
    visit ev fuel it = [] := by
  have hv : lv2_evbuf_is_valid ev it = false := by
    unfold lv2_evbuf_is_valid lv2_evbuf_get_size
    cases ev.type <;> simp [h]
  cases fuel <;> simp [visit, hv]

/-- C2 (failing input): the capacity check of `lv2_evbuf_write` compares the
unpadded record length with the free space but the used-size grows by the padded
length.  A fresh atom buffer of capacity 20 accepts a record of 1 byte
(16 + 1 ≤ 20) and its used-size becomes 24; a fresh legacy buffer of capacity 13
accepts a record of 1 byte (12 + 1 ≤ 13) and its used-size becomes 16. -/
theorem capacity_exceeded :
    (lv2_evbuf_write (lv2_evbuf_new 20 LV2_EVBUF_ATOM raw_zero)
      (lv2_evbuf_begin (lv2_evbuf_new 20 LV2_EVBUF_ATOM raw_zero)) 0 0 0 1 [0]).1 = true ∧
    lv2_evbuf_get_size (lv2_evbuf_write (lv2_evbuf_new 20 LV2_EVBUF_ATOM raw_zero)
      (lv2_evbuf_begin (lv2_evbuf_new 20 LV2_EVBUF_ATOM raw_zero)) 0 0 0 1 [0]).2.1 = 24 ∧
    (lv2_evbuf_write (lv2_evbuf_new 20 LV2_EVBUF_ATOM raw_zero)
      (lv2_evbuf_begin (lv2_evbuf_new 20 LV2_EVBUF_ATOM raw_zero)) 0 0 0 1 [0]).2.1.capacity
      = 20 ∧
    (lv2_evbuf_write (lv2_evbuf_new 13 LV2_EVBUF_EVENT raw_zero)
      (lv2_evbuf_begin (lv2_evbuf_new 13 LV2_EVBUF_EVENT raw_zero)) 0 0 0 1 [0]).1 = true ∧
    lv2_evbuf_get_size (lv2_evbuf_write (lv2_evbuf_new 13 LV2_EVBUF_EVENT raw_zero)
      (lv2_evbuf_begin (lv2_evbuf_new 13 LV2_EVBUF_EVENT raw_zero)) 0 0 0 1 [0]).2.1 = 16 ∧
    (lv2_evbuf_write (lv2_evbuf_new 13 LV2_EVBUF_EVENT raw_zero)
      (lv2_evbuf_begin (lv2_evbuf_new 13 LV2_EVBUF_EVENT raw_zero)) 0 0 0 1 [0]).2.1.capacity
      = 13 := by
  decide

/-! ## C3: a failed write changes nothing -/

/-- C3: whenever `lv2_evbuf_write` returns false, the buffer (used-size, event
count, stored bytes and every other field) and the iterator are the ones before
the call, in both variants. -/
theorem write_failed_unchanged (evbuf : LV2_Evbuf) (iter : LV2_Evbuf_Iterator)
    (frames subframes type size : Nat) (data : List Byte)
    (h : (lv2_evbuf_write evbuf iter frames subframes type size data).1 = false) :
    (lv2_evbuf_write evbuf iter frames subframes type size data).2.1 = evbuf ∧
    (lv2_evbuf_write evbuf iter frames subframes type size data).2.2 = iter := by
  unfold lv2_evbuf_write at h ⊢
  cases hty : evbuf.type
  · simp only [hty] at h ⊢
    split at h
    · rename_i hg
      simp [hg]
    · simp at h
  · simp only [hty] at h ⊢
    split at h
    · rename_i hg
      simp [hg]
    · simp at h

/-- Witness of `write_failed_unchanged`: a record of 4 bytes does not fit a
buffer of capacity 8, in either variant. -/
theorem write_failed_unchanged_witness :
    ((lv2_evbuf_write (lv2_evbuf_new 8 LV2_EVBUF_ATOM raw_zero) { offset := 0 }
        1 2 3 4 [1, 2, 3, 4]).1 = false ∧
      (lv2_evbuf_write (lv2_evbuf_new 8 LV2_EVBUF_ATOM raw_zero) { offset := 0 }
        1 2 3 4 [1, 2, 3, 4]).2.1 = lv2_evbuf_new 8 LV2_EVBUF_ATOM raw_zero ∧
      (lv2_evbuf_write (lv2_evbuf_new 8 LV2_EVBUF_ATOM raw_zero) { offset := 0 }
        1 2 3 4 [1, 2, 3, 4]).2.2 = { offset := 0 }) ∧
    ((lv2_evbuf_write (lv2_evbuf_new 8 LV2_EVBUF_EVENT raw_zero) { offset := 0 }
        1 2 3 4 [1, 2, 3, 4]).1 = false ∧
      (lv2_evbuf_write (lv2_evbuf_new 8 LV2_EVBUF_EVENT raw_zero) { offset := 0 }
        1 2 3 4 [1, 2, 3, 4]).2.1 = lv2_evbuf_new 8 LV2_EVBUF_EVENT raw_zero ∧
      (lv2_evbuf_write (lv2_evbuf_new 8 LV2_EVBUF_EVENT raw_zero) { offset := 0 }
        1 2 3 4 [1, 2, 3, 4]).2.2 = { offset := 0 }) :=
  ⟨⟨by decide, write_failed_unchanged _ _ 1 2 3 4 [1, 2, 3, 4] (by decide)⟩,
   ⟨by decide, write_failed_unchanged _ _ 1 2 3 4 [1, 2, 3, 4] (by decide)⟩⟩

/-! ## C4: legacy-variant round trip -/

/-- C5 (failing input): in the legacy variant `lv2_evbuf_next` advances by
`pad(sizeof(LV2_Atom_Event) + S)`, not by `pad(sizeof(LV2_Event) + S)`.  A record
of 4 bytes written at `lv2_evbuf_begin` of a fresh legacy buffer of capacity 64
advances the writing iterator by 16 = pad(12 + 4); `lv2_evbuf_next` from the same
position, which is valid and holds a record of declared size 4, returns
offset 24 = pad(16 + 4). -/
theorem legacy_next_stride :
    (lv2_evbuf_write (lv2_evbuf_new 64 LV2_EVBUF_EVENT raw_zero) { offset := 0 }
      1 2 3 4 [5, 6, 7, 8]).1 = true ∧
    (lv2_evbuf_write (lv2_evbuf_new 64 LV2_EVBUF_EVENT raw_zero) { offset := 0 }
      1 2 3 4 [5, 6, 7, 8]).2.2.offset = 16 ∧
    pad (record_header LV2_EVBUF_EVENT + 4) = 16 ∧
    lv2_evbuf_is_valid (lv2_evbuf_write (lv2_evbuf_new 64 LV2_EVBUF_EVENT raw_zero)
      { offset := 0 } 1 2 3 4 [5, 6, 7, 8]).2.1 { offset := 0 } = true ∧
    (lv2_evbuf_get (lv2_evbuf_write (lv2_evbuf_new 64 LV2_EVBUF_EVENT raw_zero)
      { offset := 0 } 1 2 3 4 [5, 6, 7, 8]).2.1 { offset := 0 }).size = 4 ∧
    (lv2_evbuf_next (lv2_evbuf_write (lv2_evbuf_new 64 LV2_EVBUF_EVENT raw_zero)
      { offset := 0 } 1 2 3 4 [5, 6, 7, 8]).2.1 { offset := 0 }).offset = 24 := by
  decide

/-! ## C6: event count -/

/-- C6 (failing input): the atom case of `lv2_evbuf_write` increments the event
count twice.  After two successful writes on a fresh atom buffer of capacity 64
`lv2_evbuf_get_event_count` returns 4; after the same two writes on a fresh
legacy buffer it returns 2. -/
theorem atom_event_count_doubled :
    (write_all (lv2_evbuf_new 64 LV2_EVBUF_ATOM raw_zero)
      (lv2_evbuf_begin (lv2_evbuf_new 64 LV2_EVBUF_ATOM raw_zero)) legacy_records).1
      = [true, true] ∧
    lv2_evbuf_get_event_count (write_all (lv2_evbuf_new 64 LV2_EVBUF_ATOM raw_zero)
      (lv2_evbuf_begin (lv2_evbuf_new 64 LV2_EVBUF_ATOM raw_zero)) legacy_records).2.1 = 4 ∧
    (write_all (lv2_evbuf_new 64 LV2_EVBUF_EVENT raw_zero)
      (lv2_evbuf_begin (lv2_evbuf_new 64 LV2_EVBUF_EVENT raw_zero)) legacy_records).1
      = [true, true] ∧
    lv2_evbuf_get_event_count (write_all (lv2_evbuf_new 64 LV2_EVBUF_EVENT raw_zero)
      (lv2_evbuf_begin (lv2_evbuf_new 64 LV2_EVBUF_EVENT raw_zero)) legacy_records).2.1 = 2 := by
  decide

/-! ## C7: append at end -/

/-- C7 (failing input): a fresh legacy buffer of capacity 64 holds one 4-byte
record (16 bytes of records).  `lv2_evbuf_end` is at offset 16 = pad(16) and is
not valid, and a second 4-byte record written through it is stored at offset 16.
The loop from `lv2_evbuf_begin` then visits offset 0 and, because
`lv2_evbuf_next` advances by `pad(sizeof(LV2_Atom_Event) + 4) = 24`, offset 24:
the second position yields bytes from the middle of the new record, not the new
record. -/
theorem legacy_append_not_visited :
    (write_all (lv2_evbuf_new 64 LV2_EVBUF_EVENT raw_zero) { offset := 0 }
      [{ frames := 1, subframes := 2, type := 3, size := 4, data := [5, 6, 7, 8] }]).1
      = [true] ∧
    lv2_evbuf_get_size (write_all (lv2_evbuf_new 64 LV2_EVBUF_EVENT raw_zero) { offset := 0 }
      [{ frames := 1, subframes := 2, type := 3, size := 4, data := [5, 6, 7, 8] }]).2.1
      = 16 ∧
    lv2_evbuf_end (write_all (lv2_evbuf_new 64 LV2_EVBUF_EVENT raw_zero) { offset := 0 }
      [{ frames := 1, subframes := 2, type := 3, size := 4, data := [5, 6, 7, 8] }]).2.1
      = { offset := 16 } ∧
    lv2_evbuf_is_valid (write_all (lv2_evbuf_new 64 LV2_EVBUF_EVENT raw_zero) { offset := 0 }
      [{ frames := 1, subframes := 2, type := 3, size := 4, data := [5, 6, 7, 8] }]).2.1
      { offset := 16 } = false ∧
    (lv2_evbuf_write (write_all (lv2_evbuf_new 64 LV2_EVBUF_EVENT raw_zero) { offset := 0 }
      [{ frames := 1, subframes := 2, type := 3, size := 4, data := [5, 6, 7, 8] }]).2.1
      { offset := 16 } 7 8 9 4 [4, 3, 2, 1]).1 = true ∧
    (visit (lv2_evbuf_write (write_all (lv2_evbuf_new 64 LV2_EVBUF_EVENT raw_zero)
      { offset := 0 }
      [{ frames := 1, subframes := 2, type := 3, size := 4, data := [5, 6, 7, 8] }]).2.1
      { offset := 16 } 7 8 9 4 [4, 3, 2, 1]).2.1 3 { offset := 0 })
      = [{ offset := 0 }, { offset := 24 }] ∧
    iterate (lv2_evbuf_write (write_all (lv2_evbuf_new 64 LV2_EVBUF_EVENT raw_zero)
      { offset := 0 }
      [{ frames := 1, subframes := 2, type := 3, size := 4, data := [5, 6, 7, 8] }]).2.1
      { offset := 16 } 7 8 9 4 [4, 3, 2, 1]).2.1 3
      = [some { frames := 1, subframes := 2, type := 3, size := 4, data := [5, 6, 7, 8] },
         some { frames := 262153, subframes := 16909060, type := 0, size := 0, data := [] }] ∧
    read_record (lv2_evbuf_write (write_all (lv2_evbuf_new 64 LV2_EVBUF_EVENT raw_zero)
      { offset := 0 }
      [{ frames := 1, subframes := 2, type := 3, size := 4, data := [5, 6, 7, 8] }]).2.1
      { offset := 16 } 7 8 9 4 [4, 3, 2, 1]).2.1 { offset := 16 }
      = some { frames := 7, subframes := 8, type := 9, size := 4, data := [4, 3, 2, 1] } := by
  decide

theorem write_all_append (a b : List Record) :
    ∀ (ev : LV2_Evbuf) (it : LV2_Evbuf_Iterator),
      write_all ev it (a ++ b) =
        ((write_all ev it a).1 ++ (write_all (write_all ev it a).2.1 (write_all ev it a).2.2 b).1,
         (write_all (write_all ev it a).2.1 (write_all ev it a).2.2 b).2.1,
         (write_all (write_all ev it a).2.1 (write_all ev it a).2.2 b).2.2) := by
  induction a with
  | nil => intro ev it; rfl
  | cons r rs ih =>
    intro ev it
    rw [List.cons_append, write_all_cons, write_all_cons, ih]
    rfl

theorem stride_total_append (t : LV2_Evbuf_Type) (a b : List Record) :
    stride_total t (a ++ b) = stride_total t a + stride_total t b := by
  induction a with
  | nil => simp [stride_total]
  | cons r rs ih => simp [stride_total, ih, Nat.add_assoc]

theorem stride_total_mod (t : LV2_Evbuf_Type) (a : List Record) : stride_total t a % 8 = 0 := by
  induction a with
  | nil => rfl
  | cons r rs ih =>
    have := (pad_bounds (record_header t + r.size)).2.2
    simp only [stride_total]
    omega

/-- Appending to an atom buffer.  For a fresh atom buffer that received the
records `recs` by successful writes through one iterator from `lv2_evbuf_begin`
(padded lengths, the new record included, totalling less than `2^32`):
`lv2_evbuf_end` is at the used-size, which is the padded used-size, and is not
valid; a successful write of `r` through it leaves a buffer whose iteration
yields the records of `recs` in order followed by `r`. -/
theorem atom_append_at_end (capacity : Nat) (raw : LV2_Evbuf) (recs : List Record) (r : Record)
    (hwf : ∀ x ∈ recs ++ [r], x.wf)
    (hok : ∀ b ∈ (write_all (lv2_evbuf_new capacity LV2_EVBUF_ATOM raw)
      (lv2_evbuf_begin (lv2_evbuf_new capacity LV2_EVBUF_ATOM raw)) recs).1, b = true)
    (htot : stride_total LV2_EVBUF_ATOM (recs ++ [r]) < 4294967296) :
    lv2_evbuf_end (write_all (lv2_evbuf_new capacity LV2_EVBUF_ATOM raw)
        (lv2_evbuf_begin (lv2_evbuf_new capacity LV2_EVBUF_ATOM raw)) recs).2.1
      = { offset := stride_total LV2_EVBUF_ATOM recs } ∧
    lv2_evbuf_get_size (write_all (lv2_evbuf_new capacity LV2_EVBUF_ATOM raw)
        (lv2_evbuf_begin (lv2_evbuf_new capacity LV2_EVBUF_ATOM raw)) recs).2.1
      = stride_total LV2_EVBUF_ATOM recs ∧
    lv2_evbuf_is_valid (write_all (lv2_evbuf_new capacity LV2_EVBUF_ATOM raw)
        (lv2_evbuf_begin (lv2_evbuf_new capacity LV2_EVBUF_ATOM raw)) recs).2.1
      (lv2_evbuf_end (write_all (lv2_evbuf_new capacity LV2_EVBUF_ATOM raw)
        (lv2_evbuf_begin (lv2_evbuf_new capacity LV2_EVBUF_ATOM raw)) recs).2.1) = false ∧
    ((lv2_evbuf_write (write_all (lv2_evbuf_new capacity LV2_EVBUF_ATOM raw)
        (lv2_evbuf_begin (lv2_evbuf_new capacity LV2_EVBUF_ATOM raw)) recs).2.1
      (lv2_evbuf_end (write_all (lv2_evbuf_new capacity LV2_EVBUF_ATOM raw)
        (lv2_evbuf_begin (lv2_evbuf_new capacity LV2_EVBUF_ATOM raw)) recs).2.1)
      r.frames r.subframes r.type r.size r.data).1 = true →
      ∀ fuel, recs.length + 1 < fuel →
        iterate (lv2_evbuf_write (write_all (lv2_evbuf_new capacity LV2_EVBUF_ATOM raw)
            (lv2_evbuf_begin (lv2_evbuf_new capacity LV2_EVBUF_ATOM raw)) recs).2.1
          (lv2_evbuf_end (write_all (lv2_evbuf_new capacity LV2_EVBUF_ATOM raw)
            (lv2_evbuf_begin (lv2_evbuf_new capacity LV2_EVBUF_ATOM raw)) recs).2.1)
          r.frames r.subframes r.type r.size r.data).2.1 fuel
          = (recs ++ [r]).map some) := by
  obtain ⟨n1, n2, _, _⟩ := new_fields capacity LV2_EVBUF_ATOM raw
  rw [stride_total_append] at htot
  obtain ⟨s1, _, s3, s4, _, _⟩ := write_all_spec recs
    (lv2_evbuf_new capacity LV2_EVBUF_ATOM raw)
    (lv2_evbuf_begin (lv2_evbuf_new capacity LV2_EVBUF_ATOM raw))
    (by rw [n2]; rfl) (by rw [n1, n2]; omega)
    (fun x hx => hwf x (List.mem_append_left _ hx)) (by rw [n1]; intro h; cases h) hok
  rw [n1] at s1 s3 s4
  rw [n2, Nat.zero_add] at s3 s4
  have hmod := stride_total_mod LV2_EVBUF_ATOM recs
  have hgs : lv2_evbuf_get_size (write_all (lv2_evbuf_new capacity LV2_EVBUF_ATOM raw)
        (lv2_evbuf_begin (lv2_evbuf_new capacity LV2_EVBUF_ATOM raw)) recs).2.1
      = stride_total LV2_EVBUF_ATOM recs := by
    unfold lv2_evbuf_get_size
    rw [s1]
    exact s3
  have hend : lv2_evbuf_end (write_all (lv2_evbuf_new capacity LV2_EVBUF_ATOM raw)
        (lv2_evbuf_begin (lv2_evbuf_new capacity LV2_EVBUF_ATOM raw)) recs).2.1
      = { offset := stride_total LV2_EVBUF_ATOM recs } := by
    unfold lv2_evbuf_end
    rw [hgs, atom_pad_eq_pad _ (by omega)]
    unfold pad
    congr 1
    omega
  have hit : (write_all (lv2_evbuf_new capacity LV2_EVBUF_ATOM raw)
        (lv2_evbuf_begin (lv2_evbuf_new capacity LV2_EVBUF_ATOM raw)) recs).2.2
      = lv2_evbuf_end (write_all (lv2_evbuf_new capacity LV2_EVBUF_ATOM raw)
        (lv2_evbuf_begin (lv2_evbuf_new capacity LV2_EVBUF_ATOM raw)) recs).2.1 := by
    rw [hend]
    cases h : (write_all (lv2_evbuf_new capacity LV2_EVBUF_ATOM raw)
        (lv2_evbuf_begin (lv2_evbuf_new capacity LV2_EVBUF_ATOM raw)) recs).2.2
    rw [h] at s4
    simp only [LV2_Evbuf_Iterator.mk.injEq]
    exact s4
  refine ⟨hend, hgs, ?_, ?_⟩
  · rw [hend]
    unfold lv2_evbuf_is_valid
    rw [hgs]
    simp
  · intro hw fuel hfuel
    have happ := write_all_append recs [r] (lv2_evbuf_new capacity LV2_EVBUF_ATOM raw)
      (lv2_evbuf_begin (lv2_evbuf_new capacity LV2_EVBUF_ATOM raw))
    rw [hit] at happ
    have hok2 : ∀ b ∈ (write_all (lv2_evbuf_new capacity LV2_EVBUF_ATOM raw)
        (lv2_evbuf_begin (lv2_evbuf_new capacity LV2_EVBUF_ATOM raw)) (recs ++ [r])).1,
        b = true := by
      intro b hb
      rw [happ] at hb
      simp only [List.mem_append] at hb
      rcases hb with hb | hb
      · exact hok b hb
      · simp only [write_all, List.mem_singleton] at hb
        rw [hb]
        exact hw
    obtain ⟨t1, _, t3, _, _, t6⟩ := write_all_spec (recs ++ [r])
      (lv2_evbuf_new capacity LV2_EVBUF_ATOM raw)
      (lv2_evbuf_begin (lv2_evbuf_new capacity LV2_EVBUF_ATOM raw))
      (by rw [n2]; rfl) (by rw [n1, n2, stride_total_append]; omega) hwf
      (by rw [n1]; intro h; cases h) hok2
    rw [n1] at t1 t3 t6
    rw [n2] at t3 t6
    have hrt : iterate (write_all (lv2_evbuf_new capacity LV2_EVBUF_ATOM raw)
        (lv2_evbuf_begin (lv2_evbuf_new capacity LV2_EVBUF_ATOM raw)) (recs ++ [r])).2.1 fuel
        = (recs ++ [r]).map some := by
      unfold iterate
      exact atom_visit (recs ++ [r]) _ 0 t1 t3
        (by rw [t3, stride_total_append]; omega) t6 fuel (by simpa using hfuel)
    rw [happ] at hrt
    exact hrt

/-! ## C8: get on an invalid iterator -/

/-- C8: for every buffer and every iterator with offset at or beyond the
used-size (an invalid iterator), `lv2_evbuf_get` returns false with frames,
subframes, type and size 0 and data `NULL`; for every valid iterator it returns
true. -/
theorem get_invalid_zero (evbuf : LV2_Evbuf) (iter : LV2_Evbuf_Iterator) :
    (lv2_evbuf_get_size evbuf ≤ iter.offset →
      lv2_evbuf_is_valid evbuf iter = false ∧
      lv2_evbuf_get evbuf iter =
        { ok := false, frames := 0, subframes := 0, type := 0, size := 0, data := none }) ∧
    (iter.offset < lv2_evbuf_get_size evbuf →
      lv2_evbuf_is_valid evbuf iter = true ∧ (lv2_evbuf_get evbuf iter).ok = true) := by
  constructor
  · intro h
    have hv : lv2_evbuf_is_valid evbuf iter = false := by
      unfold lv2_evbuf_is_valid
      simp only [decide_eq_false_iff_not]
      omega
    refine ⟨hv, ?_⟩
    unfold lv2_evbuf_get
    simp [hv]
  · intro h
    have hv : lv2_evbuf_is_valid evbuf iter = true := by
      unfold lv2_evbuf_is_valid
      simp only [decide_eq_true_eq]
      exact h
    refine ⟨hv, ?_⟩
    unfold lv2_evbuf_get
    cases hty : evbuf.type <;> simp [hv]

/-- Witness of `get_invalid_zero`: in an atom buffer holding two records in 48
bytes, the iterator at offset 48 is invalid and the one at offset 24 is valid. -/
theorem get_invalid_zero_witness :
    (lv2_evbuf_is_valid (write_all (lv2_evbuf_new 64 LV2_EVBUF_ATOM raw_zero) { offset := 0 }
        atom_records).2.1 { offset := 48 } = false ∧
      lv2_evbuf_get (write_all (lv2_evbuf_new 64 LV2_EVBUF_ATOM raw_zero) { offset := 0 }
        atom_records).2.1 { offset := 48 } =
        { ok := false, frames := 0, subframes := 0, type := 0, size := 0, data := none }) ∧
    (lv2_evbuf_is_valid (write_all (lv2_evbuf_new 64 LV2_EVBUF_ATOM raw_zero) { offset := 0 }
        atom_records).2.1 { offset := 24 } = true ∧
      (lv2_evbuf_get (write_all (lv2_evbuf_new 64 LV2_EVBUF_ATOM raw_zero) { offset := 0 }
        atom_records).2.1 { offset := 24 }).ok = true) :=
  ⟨(get_invalid_zero _ _).1 (by decide), (get_invalid_zero _ _).2 (by decide)⟩

/-! ## C9: reset -/

/-- C9 (counterexample): `lv2_evbuf_reset` has no for-writing parameter and never
stores the capacity in the used-size.  After the reset of an atom buffer of
capacity 64, as the process cycle requests for an event output port, the buffer
handed to the plugin has used-size 0, not 64. -/
theorem reset_announces_capacity_counterexample :
    (lv2_evbuf_get_buffer (lv2_evbuf_reset (lv2_evbuf_new 64 LV2_EVBUF_ATOM raw_zero))).capacity
      = 64 ∧
    (lv2_evbuf_get_buffer (lv2_evbuf_reset (lv2_evbuf_new 64 LV2_EVBUF_ATOM raw_zero))).size
      = 0 ∧
    (lv2_evbuf_get_buffer (lv2_evbuf_reset (lv2_evbuf_new 64 LV2_EVBUF_ATOM raw_zero))).size
      ≠ (lv2_evbuf_get_buffer
          (lv2_evbuf_reset (lv2_evbuf_new 64 LV2_EVBUF_ATOM raw_zero))).capacity := by
  decide

/-- C9 (amended): for every buffer state and both variants, after
`lv2_evbuf_reset` the event count and the used-size are 0 and the capacity, the
variant and the stored bytes are unchanged, so `lv2_evbuf_begin` is not valid,
`lv2_evbuf_get` there returns false and the loop from `lv2_evbuf_begin` visits
no position.  The reset has no for-writing parameter: the buffer handed to the
plugin always shows used-size 0 and keeps its capacity in the capacity field. -/
theorem reset_clears (evbuf : LV2_Evbuf) :
    lv2_evbuf_get_event_count (lv2_evbuf_reset evbuf) = 0 ∧
    lv2_evbuf_get_size (lv2_evbuf_reset evbuf) = 0 ∧
    (lv2_evbuf_reset evbuf).capacity = evbuf.capacity ∧
    (lv2_evbuf_reset evbuf).type = evbuf.type ∧
    (lv2_evbuf_reset evbuf).data = evbuf.data ∧
    lv2_evbuf_is_valid (lv2_evbuf_reset evbuf) (lv2_evbuf_begin (lv2_evbuf_reset evbuf))
      = false ∧
    (lv2_evbuf_get (lv2_evbuf_reset evbuf) (lv2_evbuf_begin (lv2_evbuf_reset evbuf))).ok
      = false ∧
    (∀ fuel, iterate (lv2_evbuf_reset evbuf) fuel = []) ∧
    (lv2_evbuf_get_buffer (lv2_evbuf_reset evbuf)).size = 0 ∧
    (lv2_evbuf_get_buffer (lv2_evbuf_reset evbuf)).capacity = evbuf.capacity := by
  have hs : (lv2_evbuf_reset evbuf).size = 0 := by
    unfold lv2_evbuf_reset
    cases evbuf.type <;> rfl
  have hv : ∀ it, lv2_evbuf_is_valid (lv2_evbuf_reset evbuf) it = false := by
    intro it
    unfold lv2_evbuf_is_valid lv2_evbuf_get_size
    cases (lv2_evbuf_reset evbuf).type <;> simp [hs]
  refine ⟨?_, ?_, ?_, ?_, ?_, hv _, ?_, ?_, ?_, ?_⟩
  · unfold lv2_evbuf_get_event_count lv2_evbuf_reset
    cases evbuf.type <;> rfl
  · unfold lv2_evbuf_get_size
    cases (lv2_evbuf_reset evbuf).type <;> exact hs
  · unfold lv2_evbuf_reset
    cases evbuf.type <;> rfl
  · unfold lv2_evbuf_reset
    cases h : evbuf.type <;> simp [h]
  · unfold lv2_evbuf_reset
    cases evbuf.type <;> rfl
  · unfold lv2_evbuf_get
    simp [hv]
  · intro fuel
    unfold iterate
    rw [visit_empty _ hs]
    rfl
  · unfold lv2_evbuf_get_buffer
    cases (lv2_evbuf_reset evbuf).type <;> exact hs
  · unfold lv2_evbuf_get_buffer lv2_evbuf_reset
    cases evbuf.type <;> rfl

/-! ## C10: play-state step -/

/-- C10: one execution of `jack_process_cb` started in `JALV_PAUSE_REQUESTED`
leaves the play state `JALV_PAUSED` and has posted the semaphore `paused`
exactly once; started in `JALV_PAUSED` it leaves `JALV_PAUSED`, posts nothing
and returns 0; started in `JALV_RUNNING` it leaves `JALV_RUNNING` and posts
nothing.  This holds for every input and however the cycle ends.  Hence the
play state after a cycle is never `JALV_PAUSE_REQUESTED`, it is `JALV_RUNNING`
only if it was before, and a cycle that follows the one that observed the pause
request posts nothing more. -/
theorem play_state_step (fl : FloatOps) (jalv : Jalv) (inp : CycleInput) (nframes fuel : Nat) :
    (jalv.play_state = JALV_PAUSE_REQUESTED →
      (jack_process_cb fl jalv inp nframes fuel).jalv.play_state = JALV_PAUSED ∧
      (jack_process_cb fl jalv inp nframes fuel).jalv.paused = jalv.paused + 1) ∧
    (jalv.play_state = JALV_PAUSED →
      (jack_process_cb fl jalv inp nframes fuel).jalv.play_state = JALV_PAUSED ∧
      (jack_process_cb fl jalv inp nframes fuel).jalv.paused = jalv.paused ∧
      (jack_process_cb fl jalv inp nframes fuel).outcome = Outcome.returned 0) ∧
    (jalv.play_state = JALV_RUNNING →
      (jack_process_cb fl jalv inp nframes fuel).jalv.play_state = JALV_RUNNING ∧
      (jack_process_cb fl jalv inp nframes fuel).jalv.paused = jalv.paused) ∧
    (jack_process_cb fl jalv inp nframes fuel).jalv.play_state ≠ JALV_PAUSE_REQUESTED ∧
    ((jack_process_cb fl jalv inp nframes fuel).jalv.play_state = JALV_RUNNING →
      jalv.play_state = JALV_RUNNING) ∧
    (jalv.play_state = JALV_PAUSE_REQUESTED →
      ∀ (inp2 : CycleInput) (nframes2 fuel2 : Nat),
        (jack_process_cb fl (jack_process_cb fl jalv inp nframes fuel).jalv
          inp2 nframes2 fuel2).jalv.play_state = JALV_PAUSED ∧
        (jack_process_cb fl (jack_process_cb fl jalv inp nframes fuel).jalv
          inp2 nframes2 fuel2).jalv.paused = jalv.paused + 1) := by
  have key : ∀ (j : Jalv) (i : CycleInput) (n f : Nat),
      (j.play_state = JALV_PAUSE_REQUESTED →
        (jack_process_cb fl j i n f).jalv.play_state = JALV_PAUSED ∧
        (jack_process_cb fl j i n f).jalv.paused = j.paused + 1) ∧
      (j.play_state = JALV_PAUSED →
        (jack_process_cb fl j i n f).jalv.play_state = JALV_PAUSED ∧
        (jack_process_cb fl j i n f).jalv.paused = j.paused ∧
        (jack_process_cb fl j i n f).outcome = Outcome.returned 0) ∧
      (j.play_state = JALV_RUNNING →
        (jack_process_cb fl j i n f).jalv.play_state = JALV_RUNNING ∧
        (jack_process_cb fl j i n f).jalv.paused = j.paused) := by
    intro j i n f
    refine ⟨?_, ?_, ?_⟩ <;> intro h <;> simp [jack_process_cb, h]
  obtain ⟨k1, k2, k3⟩ := key jalv inp nframes fuel
  refine ⟨k1, k2, k3, ?_, ?_, ?_⟩
  · cases h : jalv.play_state
    · rw [(k3 h).1]; decide
    · rw [(k1 h).1]; decide
    · rw [(k2 h).1]; decide
  · intro hr
    cases h : jalv.play_state
    · rfl
    · rw [(k1 h).1] at hr; cases hr
    · rw [(k2 h).1] at hr; cases hr
  · intro h inp2 nframes2 fuel2
    obtain ⟨a1, a2⟩ := k1 h
    obtain ⟨b1, b2, _⟩ := (key (jack_process_cb fl jalv inp nframes fuel).jalv
      inp2 nframes2 fuel2).2.1 a1
    exact ⟨b1, by rw [b2, a2]⟩

/-- Witness of `play_state_step`: the three play states on a host with an audio
output, a control input and an event input; each of the three cycles returns 0. -/
theorem play_state_step_witness :
    ((jack_process_cb float_ops_example (jalv_example JALV_PAUSE_REQUESTED) input_example
        64 8).jalv.play_state = JALV_PAUSED ∧
      (jack_process_cb float_ops_example (jalv_example JALV_PAUSE_REQUESTED) input_example
        64 8).jalv.paused = (jalv_example JALV_PAUSE_REQUESTED).paused + 1) ∧
    ((jack_process_cb float_ops_example (jalv_example JALV_PAUSED) input_example
        64 8).jalv.play_state = JALV_PAUSED ∧
      (jack_process_cb float_ops_example (jalv_example JALV_PAUSED) input_example
        64 8).jalv.paused = (jalv_example JALV_PAUSED).paused ∧
      (jack_process_cb float_ops_example (jalv_example JALV_PAUSED) input_example
        64 8).outcome = Outcome.returned 0) ∧
    ((jack_process_cb float_ops_example (jalv_example JALV_RUNNING) input_example
        64 8).jalv.play_state = JALV_RUNNING ∧
      (jack_process_cb float_ops_example (jalv_example JALV_RUNNING) input_example
        64 8).jalv.paused = (jalv_example JALV_RUNNING).paused) ∧
    (jack_process_cb float_ops_example (jalv_example JALV_PAUSE_REQUESTED) input_example
      64 8).outcome = Outcome.returned 0 ∧
    (jack_process_cb float_ops_example (jalv_example JALV_RUNNING) input_example
      64 8).outcome = Outcome.returned 0 :=
  ⟨(play_state_step float_ops_example (jalv_example JALV_PAUSE_REQUESTED) input_example
      64 8).1 rfl,
   (play_state_step float_ops_example (jalv_example JALV_PAUSED) input_example 64 8).2.1 rfl,
   (play_state_step float_ops_example (jalv_example JALV_RUNNING) input_example
      64 8).2.2.1 rfl,
   by decide, by decide⟩

/-! ## The cycle by phases -/

/-- The cycle from "Prepare port buffers" on is the part up to the call of
`lilv_instance_run` followed, unless the cycle has ended there, by the part from
that call on. -/
theorem run_cycle_eq (fl : FloatOps) (jalv : Jalv) (inp : CycleInput) (nframes : Nat)
    (xport : Bool) (fuel : Nat) (c0 : Cycle) :
    run_cycle fl jalv inp nframes xport fuel c0 =
      match (before_run jalv inp nframes xport c0).outcome with
      | some _ => before_run jalv inp nframes xport c0
      | none => after_run fl jalv inp nframes fuel (before_run jalv inp nframes xport c0) := by
  unfold run_cycle before_run prepare_ports
  cases h1 : (for_ports (prepare_port jalv inp xport) (List.range c0.ports.length) c0).outcome with
  | some o => simp [h1]
  | none =>
    simp only [h1]
    rfl

/-- A cycle started in `JALV_RUNNING`, by phases. -/
theorem running_cycle_eq (fl : FloatOps) (jalv : Jalv) (inp : CycleInput) (nframes fuel : Nat)
    (h : jalv.play_state = JALV_RUNNING) :
    jack_process_cb fl jalv inp nframes fuel =
      cycle_result (transport_updated fl jalv inp nframes)
        (run_cycle fl (transport_updated fl jalv inp nframes) inp nframes
          (xport_changed fl jalv inp) fuel (cycle_start fl jalv inp)) := by
  simp [jack_process_cb, h, transport_updated, dump_calls, xport_changed, cycle_result,
    cycle_start]

/-- Of the host state, only the identifiers decide whether the writes to an
event input buffer stay within its memory. -/
theorem fan_in_in_memory_congr (j j' : Jalv) (hu : j.urids = j'.urids)
    (hm : j.midi_event_id = j'.midi_event_id) (inp : CycleInput) (x : Bool) :
    fan_in_in_memory j inp x = fan_in_in_memory j' inp x := by
  funext s port ev
  unfold fan_in_in_memory
  rw [hu, hm]

/-- "Prepare port buffers" uses of the host state only the identifiers. -/
theorem prepare_port_congr (j j' : Jalv) (hu : j.urids = j'.urids)
    (hm : j.midi_event_id = j'.midi_event_id) (inp : CycleInput) (x : Bool) :
    prepare_port j inp x = prepare_port j' inp x := by
  funext p c
  unfold prepare_port
  rw [hu, hm, fan_in_in_memory_congr j j' hu hm]

/-- The UI ring loop uses of the host state only the identifier of
event-transfer. -/
theorem drain_ui_congr (j j' : Jalv) (hu : j.urids = j'.urids) (nframes space : Nat) :
    ∀ (fuel i : Nat) (ev : List Byte) (c : Cycle),
      drain_ui j nframes space fuel i ev c = drain_ui j' nframes space fuel i ev c := by
  intro fuel
  induction fuel with
  | zero => intro i ev c; rfl
  | succ n ih =>
    intro i ev c
    unfold drain_ui
    simp only [ih, hu]

/-- The loop over the records of an output buffer uses of the host state only
the identifiers and the presence of a UI. -/
theorem deliver_events_congr (j j' : Jalv) (hu : j.urids = j'.urids)
    (hm : j.midi_event_id = j'.midi_event_id) (hui : j.has_ui = j'.has_ui)
    (p : Nat) (old_api : Bool) (buf : Option Nat) (evbuf : LV2_Evbuf) :
    ∀ (fuel : Nat) (i : LV2_Evbuf_Iterator) (rb : Ringbuffer) (calls : List Call),
      deliver_events j p old_api buf evbuf fuel i rb calls
        = deliver_events j' p old_api buf evbuf fuel i rb calls := by
  intro fuel
  induction fuel with
  | zero => intro i rb calls; rfl
  | succ n ih =>
    intro i rb calls
    unfold deliver_events
    simp only [ih, hu, hm, hui]

/-- The body of "Deliver MIDI output and UI events" uses of the host state only
the identifiers and the presence of a UI. -/
theorem deliver_port_congr (fl : FloatOps) (j j' : Jalv) (hu : j.urids = j'.urids)
    (hm : j.midi_event_id = j'.midi_event_id) (hui : j.has_ui = j'.has_ui)
    (s : Bool) (fuel : Nat) :
    deliver_port fl j s fuel = deliver_port fl j' s fuel := by
  funext p c
  unfold deliver_port
  have h := deliver_events_congr j j' hu hm hui
  simp only [h]

/-- The cycle from "Prepare port buffers" on does not depend on the play state,
the semaphore or the transport snapshot of the host state. -/
theorem run_cycle_congr (fl : FloatOps) (j j' : Jalv) (hu : j.urids = j'.urids)
    (hm : j.midi_event_id = j'.midi_event_id) (hui : j.has_ui = j'.has_ui)
    (hw : j.worker_end_run = j'.worker_end_run) (hs : j.sample_rate = j'.sample_rate)
    (hz : j.ui_update_hz = j'.ui_update_hz)
    (inp : CycleInput) (nframes : Nat) (x : Bool) (fuel : Nat) (c0 : Cycle) :
    run_cycle fl j inp nframes x fuel c0 = run_cycle fl j' inp nframes x fuel c0 := by
  unfold run_cycle
  have h1 := prepare_port_congr j j' hu hm inp x
  have h2 := drain_ui_congr j j' hu
  have h3 := deliver_port_congr fl j j' hu hm hui
  simp only [h1, h2, h3, hui, hw, hs, hz]

/-- Without a changed transport, the cycle from "Prepare port buffers" on does
not use the position object. -/
theorem run_cycle_no_position (fl : FloatOps) (j : Jalv) (inp : CycleInput) (a : Atom)
    (nframes : Nat) (fuel : Nat) (c0 : Cycle) :
    run_cycle fl j { inp with lv2_pos := a } nframes false fuel c0
      = run_cycle fl j inp nframes false fuel c0 := by
  have h1 : prepare_port j { inp with lv2_pos := a } false = prepare_port j inp false := by
    funext p c
    unfold prepare_port fan_in_in_memory
    simp
  have h2 : run_plugin { inp with lv2_pos := a } = run_plugin inp := by
    funext n ports
    rfl
  unfold run_cycle
  simp only [h1, h2]

/-- Writing a MIDI record to the audio server keeps the calls made. -/
theorem midi_calls_subset (buf : Option Nat) (calls : List Call) (cond : Prop)
    [Decidable cond] (e : Nat → Call) :
    calls ⊆ (match buf with
      | some jport => if cond then calls ++ [e jport] else calls
      | none => calls) := by
  cases buf with
  | none => exact List.Subset.refl _
  | some jp =>
    by_cases h : cond
    · simp only [h, if_true]; exact List.subset_append_left _ _
    · simp only [h, if_false]; exact List.Subset.refl _

/-- The loop over the records of an output buffer keeps the calls made. -/
theorem deliver_events_calls (j : Jalv) (p : Nat) (old_api : Bool) (buf : Option Nat)
    (evbuf : LV2_Evbuf) :
    ∀ (fuel : Nat) (i : LV2_Evbuf_Iterator) (rb : Ringbuffer) (calls : List Call),
      calls ⊆ (deliver_events j p old_api buf evbuf fuel i rb calls).2.1 := by
  intro fuel
  induction fuel with
  | zero => intro i rb calls; exact List.Subset.refl _
  | succ n ih =>
    intro i rb calls
    unfold deliver_events
    dsimp only
    split
    · split
      · split
        · exact (midi_calls_subset _ _ _ _).trans (List.subset_append_left _ _)
        · exact (midi_calls_subset _ _ _ _).trans (ih _ _ _)
      · exact (midi_calls_subset _ _ _ _).trans (ih _ _ _)
    · exact List.Subset.refl _

/-- The body of "Deliver MIDI output and UI events" keeps the calls made. -/
theorem deliver_port_calls (fl : FloatOps) (j : Jalv) (s : Bool) (fuel : Nat) (p : Nat)
    (c : Cycle) : c.calls ⊆ (deliver_port fl j s fuel p c).calls := by
  unfold deliver_port
  dsimp only
  repeat' split
  all_goals first
    | exact List.Subset.refl _
    | exact List.subset_append_left _ _
    | exact (List.subset_append_left _ _).trans (List.subset_append_left _ _)
    | exact deliver_events_calls _ _ _ _ _ _ _ _ _
    | exact (List.subset_append_left _ _).trans (deliver_events_calls _ _ _ _ _ _ _ _ _)
    | exact ((List.subset_append_left _ _).trans (List.subset_append_left _ _)).trans
        (deliver_events_calls _ _ _ _ _ _ _ _ _)

/-- A loop over the ports whose body keeps the calls made keeps them. -/
theorem for_ports_calls (body : Nat → Cycle → Cycle)
    (hb : ∀ p c, c.calls ⊆ (body p c).calls) :
    ∀ (l : List Nat) (c : Cycle), c.calls ⊆ (for_ports body l c).calls := by
  intro l
  induction l with
  | nil => intro c; exact List.Subset.refl _
  | cons p ps ih =>
    intro c
    unfold for_ports
    simp only []
    split
    · exact hb p c
    · exact (hb p c).trans (ih _)

/-- From the call of `lilv_instance_run` on, the cycle keeps the calls made and
calls `lilv_instance_run` with the block length. -/
theorem after_run_calls (fl : FloatOps) (j : Jalv) (inp : CycleInput) (nframes fuel : Nat)
    (c2 : Cycle) :
    c2.calls ⊆ (after_run fl j inp nframes fuel c2).calls ∧
    Call.lilv_instance_run nframes ∈ (after_run fl j inp nframes fuel c2).calls := by
  unfold after_run
  simp only []
  have h := for_ports_calls _ (deliver_port_calls fl j
    (j.has_ui && decide (u32 (c2.event_delta_t + nframes)
      > fl.div_u32_f32 j.sample_rate j.ui_update_hz)) fuel)
    (List.range (run_plugin inp nframes c2.ports).length)
    { c2 with
      ports := run_plugin inp nframes c2.ports
      calls := c2.calls ++ [Call.lilv_instance_run nframes, Call.jalv_worker_emit_responses]
        ++ (if j.worker_end_run then [Call.end_run] else [])
      event_delta_t := if (j.has_ui && decide (u32 (c2.event_delta_t + nframes)
          > fl.div_u32_f32 j.sample_rate j.ui_update_hz)) = true then 0
        else u32 (c2.event_delta_t + nframes) }
  have h0 : c2.calls ⊆ c2.calls ++ [Call.lilv_instance_run nframes,
      Call.jalv_worker_emit_responses] ++ (if j.worker_end_run then [Call.end_run] else []) := by
    intro x hx; simp [hx]
  have hr : Call.lilv_instance_run nframes ∈ c2.calls ++ [Call.lilv_instance_run nframes,
      Call.jalv_worker_emit_responses] ++ (if j.worker_end_run then [Call.end_run] else []) := by
    simp
  split
  · exact ⟨h0.trans h, h hr⟩
  · exact ⟨h0.trans h, h hr⟩

/-- A property of the cycle state that the loop body keeps holds after a loop
over the ports. -/
theorem for_ports_inv (P : Cycle → Prop) (body : Nat → Cycle → Cycle)
    (hb : ∀ p c, P c → P (body p c)) :
    ∀ (l : List Nat) (c : Cycle), P c → P (for_ports body l c) := by
  intro l
  induction l with
  | nil => intro c hc; exact hc
  | cons p ps ih =>
    intro c hc
    unfold for_ports
    dsimp only
    split
    · exact hb p c hc
    · exact ih _ (hb p c hc)

/-- Before the call of `lilv_instance_run` the cycle does not return. -/
theorem before_run_not_returned (jalv : Jalv) (inp : CycleInput) (nframes : Nat) (x : Bool)
    (c0 : Cycle) (h0 : c0.outcome = none) (v : Int) :
    (before_run jalv inp nframes x c0).outcome ≠ some (Outcome.returned v) := by
  have hprep : ∀ p c, c.outcome ≠ some (Outcome.returned v) →
      (prepare_port jalv inp x p c).outcome ≠ some (Outcome.returned v) := by
    intro p c hc
    unfold prepare_port
    repeat' split
    all_goals first
      | exact hc
      | simp
  have hdrain : ∀ (space fuel i : Nat) (ev : List Byte) (c : Cycle),
      c.outcome ≠ some (Outcome.returned v) →
      (drain_ui jalv nframes space fuel i ev c).outcome ≠ some (Outcome.returned v) := by
    intro space fuel
    induction fuel with
    | zero => intro i ev c hc; exact hc
    | succ n ih =>
      intro i ev c hc
      unfold drain_ui
      dsimp only
      repeat' split
      all_goals first
        | exact hc
        | exact ih _ _ _ hc
        | simp
  have h1 := for_ports_inv (fun c => c.outcome ≠ some (Outcome.returned v)) _ hprep
    (List.range c0.ports.length) c0 (by simp [h0])
  unfold before_run prepare_ports
  dsimp only
  split
  · exact h1
  · split
    · exact hdrain _ _ _ _ _ h1
    · exact h1

/-! ## C11: paused cycle -/

/-- A cycle started in `JALV_PAUSED` is the transport update followed by the
silencing loop. -/
theorem paused_cycle_eq (fl : FloatOps) (jalv : Jalv) (inp : CycleInput) (nframes fuel : Nat)
    (h : jalv.play_state = JALV_PAUSED) :
    jack_process_cb fl jalv inp nframes fuel =
      { jalv := transport_updated fl jalv inp nframes
        calls := dump_calls fl jalv inp ++ silence_outputs nframes jalv.ports
        outcome := Outcome.returned 0 } := by
  simp [jack_process_cb, h, transport_updated, dump_calls, xport_changed]

/-- The silencing loop zeroes or clears the buffer of every output port
registered with the audio server. -/
theorem silence_outputs_mem (nframes : Nat) (ports : List Port) (port : Port)
    (hp : port ∈ ports) (j : Nat) (hj : port.jack_port = some j)
    (hf : port.flow = FLOW_OUTPUT) :
    (if port.type = TYPE_EVENT then Call.jack_midi_clear_buffer j
      else Call.memset_zero j (nframes * 4)) ∈ silence_outputs nframes ports := by
  induction ports with
  | nil => cases hp
  | cons q rest ih =>
    rcases List.mem_cons.mp hp with rfl | hin
    · simp [silence_outputs, hj, hf]
    · have := ih hin
      unfold silence_outputs
      split
      · split
        · exact List.mem_cons_of_mem _ this
        · exact this
      · exact this

/-- The silencing loop makes no other call than `jack_midi_clear_buffer` and
`memset`. -/
theorem silence_outputs_only (nframes : Nat) (ports : List Port) (c : Call)
    (hc : c ∈ silence_outputs nframes ports) :
    (∃ j, c = Call.jack_midi_clear_buffer j) ∨ (∃ j, c = Call.memset_zero j (nframes * 4)) := by
  induction ports with
  | nil => cases hc
  | cons q rest ih =>
    unfold silence_outputs at hc
    split at hc
    · split at hc
      · rcases List.mem_cons.mp hc with rfl | hin
        · split
          · exact Or.inl ⟨_, rfl⟩
          · exact Or.inr ⟨_, rfl⟩
        · exact ih hin
      · exact ih hc
    · exact ih hc

/-- C11 (paused cycle): for every block length and port table, an execution of
`jack_process_cb` started in `JALV_PAUSED` does not call the plugin's run,
zeroes `nframes` samples (`nframes * sizeof(float)` bytes) of the audio-server
buffer of every audio output port and clears the audio-server MIDI buffer of
every event output port that has one, makes no further call besides the dump of
a changed transport position, leaves the ports (control values and event
buffers) and both rings as they were, and returns 0. -/
theorem paused_cycle (fl : FloatOps) (jalv : Jalv) (inp : CycleInput) (nframes fuel : Nat)
    (h : jalv.play_state = JALV_PAUSED) :
    (∀ n, Call.lilv_instance_run n ∉ (jack_process_cb fl jalv inp nframes fuel).calls) ∧
    (∀ port ∈ jalv.ports, ∀ j, port.jack_port = some j → port.flow = FLOW_OUTPUT →
      port.type = TYPE_AUDIO →
      Call.memset_zero j (nframes * 4) ∈ (jack_process_cb fl jalv inp nframes fuel).calls) ∧
    (∀ port ∈ jalv.ports, ∀ j, port.jack_port = some j → port.flow = FLOW_OUTPUT →
      port.type = TYPE_EVENT →
      Call.jack_midi_clear_buffer j ∈ (jack_process_cb fl jalv inp nframes fuel).calls) ∧
    (jack_process_cb fl jalv inp nframes fuel).calls
      = dump_calls fl jalv inp ++ silence_outputs nframes jalv.ports ∧
    (jack_process_cb fl jalv inp nframes fuel).jalv.ports = jalv.ports ∧
    (jack_process_cb fl jalv inp nframes fuel).jalv.ui_events = jalv.ui_events ∧
    (jack_process_cb fl jalv inp nframes fuel).jalv.plugin_events = jalv.plugin_events ∧
    (jack_process_cb fl jalv inp nframes fuel).outcome = Outcome.returned 0 := by
  rw [paused_cycle_eq fl jalv inp nframes fuel h]
  refine ⟨?_, ?_, ?_, rfl, rfl, rfl, rfl, rfl⟩
  · intro n hn
    rcases List.mem_append.mp hn with hd | hs
    · unfold dump_calls at hd
      split at hd
      · simp at hd
      · cases hd
    · rcases silence_outputs_only nframes jalv.ports _ hs with ⟨j, hj⟩ | ⟨j, hj⟩ <;> cases hj
  · intro port hp j hj hf ht
    have := silence_outputs_mem nframes jalv.ports port hp j hj hf
    rw [if_neg (by rw [ht]; decide)] at this
    exact List.mem_append_right _ this
  · intro port hp j hj hf ht
    have := silence_outputs_mem nframes jalv.ports port hp j hj hf
    rw [if_pos ht] at this
    exact List.mem_append_right _ this

/-- C11 at a paused host with an audio output on the audio-server port 1. -/
theorem paused_cycle_witness :
    (jalv_example JALV_PAUSED).play_state = JALV_PAUSED ∧
    Call.memset_zero 1 (64 * 4)
      ∈ (jack_process_cb float_ops_example (jalv_example JALV_PAUSED) input_example 64 8).calls ∧
    (jack_process_cb float_ops_example (jalv_example JALV_PAUSED) input_example 64 8).outcome
      = Outcome.returned 0 :=
  ⟨rfl,
   (paused_cycle float_ops_example (jalv_example JALV_PAUSED) input_example 64 8 rfl).2.1
     _ (List.mem_cons_self _ _) 1 rfl rfl rfl,
   (paused_cycle float_ops_example (jalv_example JALV_PAUSED) input_example 64 8
     rfl).2.2.2.2.2.2.2⟩

/-! ## C12: the cycle that finds a pause requested -/

/-- A cycle started in `JALV_PAUSE_REQUESTED`, by phases. -/
theorem pause_requested_cycle_eq (fl : FloatOps) (jalv : Jalv) (inp : CycleInput)
    (nframes fuel : Nat) (h : jalv.play_state = JALV_PAUSE_REQUESTED) :
    jack_process_cb fl jalv inp nframes fuel =
      cycle_result
        { transport_updated fl jalv inp nframes with
          play_state := JALV_PAUSED
          paused := jalv.paused + 1 }
        (run_cycle fl (transport_updated fl jalv inp nframes) inp nframes
          (xport_changed fl jalv inp) fuel (cycle_start fl jalv inp)) := by
  have hc := run_cycle_congr fl
    { transport_updated fl jalv inp nframes with
      play_state := JALV_PAUSED
      paused := jalv.paused + 1 }
    (transport_updated fl jalv inp nframes) rfl rfl rfl rfl rfl rfl inp nframes
    (xport_changed fl jalv inp) fuel (cycle_start fl jalv inp)
  rw [← hc]
  simp [jack_process_cb, h, transport_updated, dump_calls, xport_changed, cycle_result,
    cycle_start]

/-- A cycle that returns has called `lilv_instance_run` with the block length. -/
theorem run_cycle_run_called (fl : FloatOps) (j : Jalv) (inp : CycleInput) (nframes : Nat)
    (x : Bool) (fuel : Nat) (c0 : Cycle) (h0 : c0.outcome = none) (v : Int)
    (hr : (run_cycle fl j inp nframes x fuel c0).outcome.getD (Outcome.returned 0)
      = Outcome.returned v) :
    Call.lilv_instance_run nframes ∈ (run_cycle fl j inp nframes x fuel c0).calls := by
  rw [run_cycle_eq] at hr ⊢
  cases hb : (before_run j inp nframes x c0).outcome with
  | some o =>
    simp only [hb, Option.getD_some] at hr
    exact absurd (hr ▸ hb) (before_run_not_returned j inp nframes x c0 h0 v)
  | none =>
    simp only [hb]
    exact (after_run_calls fl j inp nframes fuel _).2

/-- C12, as the claim states it, fails: the cycle that finds the pause
requested posts the semaphore, but it calls `lilv_instance_run` and zeroes no
audio output. -/
theorem pause_requested_counterexample :
    (jalv_example JALV_PAUSE_REQUESTED).play_state = JALV_PAUSE_REQUESTED ∧
    (jack_process_cb float_ops_example (jalv_example JALV_PAUSE_REQUESTED) input_example 64
      8).jalv.paused = 1 ∧
    (jack_process_cb float_ops_example (jalv_example JALV_PAUSE_REQUESTED) input_example 64
      8).calls = [Call.lilv_instance_connect_port 0 1, Call.lilv_instance_run 64,
        Call.jalv_worker_emit_responses] := by
  decide

/-- C12 (amended): the execution of `jack_process_cb` that finds the play state
pause-requested posts the paused semaphore and sets the state to paused, and
otherwise proceeds as a cycle in the running state does: it makes the same
calls, leaves the same ports and ends the same way, so that it calls the
plugin's run whenever it returns; it is the execution after it that zeroes the
audio outputs and clears the MIDI outputs without running the plugin, leaving
the ports as they are. -/
theorem pause_requested_cycle (fl : FloatOps) (jalv : Jalv) (inp : CycleInput)
    (nframes fuel : Nat) (h : jalv.play_state = JALV_PAUSE_REQUESTED) :
    (jack_process_cb fl jalv inp nframes fuel).jalv.paused = jalv.paused + 1 ∧
    (jack_process_cb fl jalv inp nframes fuel).jalv.play_state = JALV_PAUSED ∧
    (jack_process_cb fl jalv inp nframes fuel).calls
      = (jack_process_cb fl { jalv with play_state := JALV_RUNNING } inp nframes fuel).calls ∧
    (jack_process_cb fl jalv inp nframes fuel).outcome
      = (jack_process_cb fl { jalv with play_state := JALV_RUNNING } inp nframes fuel).outcome ∧
    (jack_process_cb fl jalv inp nframes fuel).jalv.ports
      = (jack_process_cb fl { jalv with play_state := JALV_RUNNING } inp nframes
          fuel).jalv.ports ∧
    (∀ v, (jack_process_cb fl jalv inp nframes fuel).outcome = Outcome.returned v →
      Call.lilv_instance_run nframes ∈ (jack_process_cb fl jalv inp nframes fuel).calls) ∧
    (∀ (inp2 : CycleInput) (n2 f2 : Nat),
      (jack_process_cb fl (jack_process_cb fl jalv inp nframes fuel).jalv inp2 n2 f2).calls
        = dump_calls fl (jack_process_cb fl jalv inp nframes fuel).jalv inp2
          ++ silence_outputs n2 (jack_process_cb fl jalv inp nframes fuel).jalv.ports ∧
      (jack_process_cb fl (jack_process_cb fl jalv inp nframes fuel).jalv inp2 n2 f2).jalv.ports
        = (jack_process_cb fl jalv inp nframes fuel).jalv.ports) := by
  have hrun := running_cycle_eq fl { jalv with play_state := JALV_RUNNING } inp nframes fuel rfl
  have hc := run_cycle_congr fl
    (transport_updated fl { jalv with play_state := JALV_RUNNING } inp nframes)
    (transport_updated fl jalv inp nframes) rfl rfl rfl rfl rfl rfl inp nframes
    (xport_changed fl jalv inp) fuel (cycle_start fl jalv inp)
  have hx : xport_changed fl { jalv with play_state := JALV_RUNNING } inp
      = xport_changed fl jalv inp := rfl
  have hs : cycle_start fl { jalv with play_state := JALV_RUNNING } inp
      = cycle_start fl jalv inp := rfl
  rw [hx, hs, hc] at hrun
  have hreq := pause_requested_cycle_eq fl jalv inp nframes fuel h
  have hp : (jack_process_cb fl jalv inp nframes fuel).jalv.play_state = JALV_PAUSED := by
    rw [hreq]; rfl
  refine ⟨by rw [hreq]; rfl, hp, by rw [hreq, hrun]; rfl, by rw [hreq, hrun]; rfl,
    by rw [hreq, hrun]; rfl, ?_, ?_⟩
  · intro v hv
    rw [hreq] at hv ⊢
    exact run_cycle_run_called fl _ inp nframes _ fuel _ rfl v hv
  · intro inp2 n2 f2
    rw [paused_cycle_eq fl _ inp2 n2 f2 hp]
    exact ⟨rfl, rfl⟩

/-- C12 (amended) at a host with a pause requested. -/
theorem pause_requested_cycle_witness :
    (jalv_example JALV_PAUSE_REQUESTED).play_state = JALV_PAUSE_REQUESTED ∧
    (jack_process_cb float_ops_example (jalv_example JALV_PAUSE_REQUESTED) input_example 64
      8).jalv.play_state = JALV_PAUSED :=
  ⟨rfl, (pause_requested_cycle float_ops_example (jalv_example JALV_PAUSE_REQUESTED)
    input_example 64 8 rfl).2.1⟩

/-! ## C18: records pushed to the UI -/

/-- C18: a scalar control update is split.  The ring to the UI has 5 free
bytes; the cycle pushes the 16-byte record of the control output port 1
(`jack_ringbuffer_write` without a look at the free space), and the ring holds
the first 5 bytes of the record afterwards. -/
theorem scalar_update_split :
    jack_ringbuffer_write_space (jalv_control_out 5).plugin_events = 5 ∧
    (jalv_control_out 5).plugin_events.content = [] ∧
    (jack_process_cb float_ops_example (jalv_control_out 5) input_example 64
      8).jalv.plugin_events.content = [1, 0, 0, 0, 0] ∧
    (jack_process_cb float_ops_example (jalv_control_out 5) input_example 64
      8).outcome = Outcome.returned 0 := by
  decide

/-! ## C19: overflow of the ring from the UI -/

/-- C19: `jalv_ui_write` splits a record.  The ring from the UI has 4 free
bytes; `jalv_ui_write` of a scalar record of 16 bytes for port 1 stores the
first 4 bytes of the record. -/
theorem ui_write_split :
    jack_ringbuffer_write_space jalv_ui_ring_used.ui_events = 4 ∧
    (jalv_ui_write jalv_ui_ring_used 1 4 0 (le32 9)).1.ui_events.content
      = jalv_ui_ring_used.ui_events.content ++ [1, 0, 0, 0] ∧
    (jalv_ui_write jalv_ui_ring_used 1 4 0 (le32 9)).1.ui_events.content
      ≠ jalv_ui_ring_used.ui_events.content := by
  decide

/-! ## C20: MIDI output and the ring to the UI -/

/-- C20: the MIDI output depends on the free space of the ring to the UI.  The
plugin leaves two MIDI records in the buffer of an event output port bound to
the audio-server MIDI port 3.  With room in the ring both are written to the
audio server; with a full ring the loop over the records ends at the overflow
and the second record is not written. -/
theorem midi_out_stops_at_overflow :
    (jack_process_cb float_ops_example (jalv_midi_out 64) input_midi_out 64 8).calls
      = [Call.lilv_instance_run 64, Call.jalv_worker_emit_responses,
         Call.jack_midi_clear_buffer 3,
         Call.jack_midi_event_write 3 1 [144, 60, 127] 3,
         Call.jack_midi_event_write 3 2 [128, 60, 0] 3] ∧
    (jack_process_cb float_ops_example (jalv_midi_out 0) input_midi_out 64 8).calls
      = [Call.lilv_instance_run 64, Call.jalv_worker_emit_responses,
         Call.jack_midi_clear_buffer 3,
         Call.jack_midi_event_write 3 1 [144, 60, 127] 3,
         Call.fprintf_stderr LogMsg.plugin_ui_overflow] ∧
    (jack_process_cb float_ops_example (jalv_midi_out 0) input_midi_out 64 8).outcome
      = Outcome.returned 0 := by
  decide

/-! ## The UI ring loop on whole records -/

/-- The four bytes of a `uint32_t` read back as the value. -/
theorem load32_list_le32 (a b c : Nat) (t : List Byte) (ha : a < 4294967296)
    (hb : b < 4294967296) (hc : c < 4294967296) :
    load32_list (le32 a ++ le32 b ++ le32 c ++ t) 0 = a ∧
    load32_list (le32 a ++ le32 b ++ le32 c ++ t) 4 = b ∧
    load32_list (le32 a ++ le32 b ++ le32 c ++ t) 8 = c := by
  simp only [load32_list, load32, le32, toByte, List.cons_append, List.nil_append,
    List.getD_cons_zero, List.getD_cons_succ]
  refine ⟨?_, ?_, ?_⟩ <;> omega

/-- The header of a record in the ring has 12 bytes. -/
theorem header_length (a b c : Nat) : (le32 a ++ le32 b ++ le32 c).length = 12 := rfl

/-- The UI ring loop on a ring that holds whole records does what
`apply_control_changes` tells record by record. -/
theorem drain_ui_whole (jalv : Jalv) (nframes space : Nat) :
    ∀ (recs : List ControlChange) (fuel i : Nat) (ev : List Byte) (c : Cycle),
      (∀ r ∈ recs, r.whole) → c.ui_events.content = ring_bytes recs →
      recs.length ≤ fuel → i + (ring_bytes recs).length = space → ev.length ≤ 12 →
      drain_ui jalv nframes space fuel i ev c = apply_control_changes jalv nframes recs c := by
  intro recs
  induction recs with
  | nil =>
    intro fuel i ev c _ _ _ hi _
    simp only [ring_bytes, List.length_nil, Nat.add_zero] at hi
    cases fuel with
    | zero => rfl
    | succ n =>
      unfold drain_ui
      simp [hi, apply_control_changes]
  | cons r rs ih =>
    intro fuel i ev c hw hc hf hi hev
    obtain ⟨hwi, hwp, hws, hwb⟩ := hw r (List.mem_cons_self _ _)
    cases fuel with
    | zero => simp at hf
    | succ n =>
      have hlen : (ring_bytes (r :: rs)).length = 12 + r.size + (ring_bytes rs).length := by
        simp only [ring_bytes, ControlChange.bytes, List.length_append, hwb]
        rfl
      have hlt : i < space := by omega
      have hcont : c.ui_events.content
          = (le32 r.index ++ le32 r.protocol ++ le32 r.size) ++ (r.body ++ ring_bytes rs) := by
        rw [hc]; simp [ring_bytes, ControlChange.bytes]
      have htake : c.ui_events.content.take 12 = le32 r.index ++ le32 r.protocol ++ le32 r.size := by
        rw [hcont]; exact List.take_left' (header_length _ _ _)
      have hdrop : c.ui_events.content.drop 12 = r.body ++ ring_bytes rs := by
        rw [hcont]; exact List.drop_left' (header_length _ _ _)
      have hevd : ev.drop 12 = [] := List.drop_eq_nil_of_le hev
      have hl := load32_list_le32 r.index r.protocol r.size [] hwi hwp hws
      simp only [List.append_nil] at hl
      unfold drain_ui
      simp only [hlt, if_true, jack_ringbuffer_read, htake, header_length, hevd, List.append_nil,
        hl.1, hl.2.1, hl.2.2, hdrop, List.take_left' hwb, List.drop_left' hwb, hwb]
      have hdrop2 : c.ui_events.content.drop (12 + r.size) = ring_bytes rs := by
        have h2 : c.ui_events.content
            = (le32 r.index ++ le32 r.protocol ++ le32 r.size ++ r.body) ++ ring_bytes rs := by
          rw [hcont]; simp
        rw [h2]
        exact List.drop_left' (by rw [List.length_append, header_length, hwb])
      have hih : ∀ c' : Cycle, c'.ui_events.content = ring_bytes rs →
          drain_ui jalv nframes space n (i + 12 + r.size)
            (le32 r.index ++ le32 r.protocol ++ le32 r.size) c'
            = apply_control_changes jalv nframes rs c' := fun c' hc' =>
        ih n _ _ c' (fun x hx => hw x (List.mem_cons_of_mem _ hx)) hc'
          (by simpa using hf) (by omega) (by rw [header_length])
      simp only [ne_eq, not_true_eq_false, if_false]
      rw [apply_control_changes]
      simp only [hdrop2]
      cases hp : c.ports[r.index]? with
      | none =>
        have hge : ¬ r.index < c.ports.length := by
          intro hlt2
          rw [List.getElem?_eq_getElem hlt2] at hp
          cases hp
        simp only [hge, not_false_eq_true, if_true]
      | some port =>
        have hlt2 : r.index < c.ports.length := by
          by_contra hge
          rw [List.getElem?_eq_none (Nat.le_of_not_lt hge)] at hp
          cases hp
        simp only [hlt2, not_true_eq_false, if_false]
        repeat' split
        all_goals first
          | rfl
          | exact hih _ rfl

/-! ## Writes at the end of a buffer -/

/-- The fields a reset keeps. -/
theorem reset_fields (ev : LV2_Evbuf) :
    (lv2_evbuf_reset ev).type = ev.type ∧ (lv2_evbuf_reset ev).capacity = ev.capacity ∧
      (lv2_evbuf_reset ev).size = 0 ∧ (lv2_evbuf_reset ev).data = ev.data := by
  unfold lv2_evbuf_reset
  cases h : ev.type <;> simp [h]

/-- A record fits when the buffer has room for its padded length. -/
theorem write_ok_of_room (ev : LV2_Evbuf) (it : LV2_Evbuf_Iterator)
    (frames subframes type size : Nat) (data : List Byte)
    (hroom : ev.size + pad (record_header ev.type + size) ≤ ev.capacity)
    (hcap : ev.capacity < 4294967296) :
    (lv2_evbuf_write ev it frames subframes type size data).1 = true := by
  have hb := (pad_bounds (record_header ev.type + size)).1
  unfold lv2_evbuf_write
  cases hty : ev.type
  · simp only [hty, record_header] at hb hroom
    have : ¬ (u32 (ev.capacity + 4294967296 - ev.size) < sizeof_LV2_Event + size) := by
      unfold u32; omega
    simp only [this, if_false]
  · simp only [hty, record_header] at hb hroom
    have : ¬ (u32 (ev.capacity + 4294967296 - ev.size) < sizeof_LV2_Atom_Event + size) := by
      unfold u32; omega
    simp only [this, if_false]

/-- What `lv2_evbuf_get` yields at the iterator of a successful write, in any
buffer that has the bytes of the record and in which the iterator is valid: the
frames and subframes written, the type and the size as the record header of the
variant holds them, and the payload. -/
theorem write_get_back (ev : LV2_Evbuf) (it : LV2_Evbuf_Iterator) (r : Record)
    (hok : (lv2_evbuf_write ev it r.frames r.subframes r.type r.size r.data).1 = true)
    (hwf : r.wf)
    (ev2 : LV2_Evbuf) (hty : ev2.type = ev.type)
    (hagree : ∀ x, it.offset ≤ x → x < it.offset + record_header ev.type + r.size →
      ev2.data x
        = (lv2_evbuf_write ev it r.frames r.subframes r.type r.size r.data).2.1.data x)
    (hvalid : it.offset < ev2.size) :
    lv2_evbuf_get ev2 it =
      { ok := true, frames := r.frames, subframes := r.subframes
        type := if ev.type = LV2_EVBUF_EVENT then r.type % 65536 else r.type
        size := if ev.type = LV2_EVBUF_EVENT then r.size % 65536 else r.size
        data := some (it.offset + record_header ev.type) } ∧
    bytesAt ev2.data (it.offset + record_header ev.type) r.size = r.data := by
  have hv : lv2_evbuf_is_valid ev2 it = true := by
    unfold lv2_evbuf_is_valid lv2_evbuf_get_size
    cases ev2.type <;> simp [hvalid]
  unfold lv2_evbuf_get
  cases hte : ev.type
  · rw [hte] at hty
    rw [write_event_data ev it r hte hok] at hagree
    simp only [hte, record_header, sizeof_LV2_Event] at hagree
    obtain ⟨e1, e2, e3, e4, e5⟩ := event_mem_read ev.data it.offset r hwf ev2.data hagree
    simp only [hv, hty, sizeof_LV2_Event, e1, e2, e3, e4, e5, record_header]
    simp
  · rw [hte] at hty
    rw [write_atom_data ev it r hte hok] at hagree
    simp only [hte, record_header, sizeof_LV2_Atom_Event] at hagree
    obtain ⟨e1, e2, e3, e4, e5⟩ := atom_mem_read ev.data it.offset r hwf ev2.data hagree
    simp only [hv, hty, e1, e2, e3, e4, e5, record_header, sizeof_LV2_Atom_Event]
    simp

/-- A write that returns false leaves buffer and iterator as they are. -/
theorem write_failed_same (ev : LV2_Evbuf) (it : LV2_Evbuf_Iterator)
    (frames subframes type size : Nat) (data : List Byte)
    (h : (lv2_evbuf_write ev it frames subframes type size data).1 = false) :
    (lv2_evbuf_write ev it frames subframes type size data).2.1 = ev ∧
    (lv2_evbuf_write ev it frames subframes type size data).2.2 = it := by
  unfold lv2_evbuf_write at h ⊢
  cases hty : ev.type
  · simp only [hty] at h ⊢
    split
    · exact ⟨rfl, rfl⟩
    · rename_i hg; simp [hg] at h
  · simp only [hty] at h ⊢
    split
    · exact ⟨rfl, rfl⟩
    · rename_i hg; simp [hg] at h

/-- Consecutive writes through an iterator at the used-size, failed writes
included, without wrap of the used-size: the bytes below the used-size stay and
the used-size does not shrink. -/
theorem write_all_frame (recs : List Record) :
    ∀ (ev : LV2_Evbuf) (it : LV2_Evbuf_Iterator), it.offset = ev.size →
      ev.size + stride_total ev.type recs < 4294967296 →
      (∀ x, x < ev.size → (write_all ev it recs).2.1.data x = ev.data x) ∧
      ev.size ≤ (write_all ev it recs).2.1.size := by
  induction recs with
  | nil => intro ev it _ _; exact ⟨fun _ _ => rfl, Nat.le_refl _⟩
  | cons r rs ih =>
    intro ev it e hno
    rw [write_all_cons]
    simp only [stride_total] at hno
    cases hok : (lv2_evbuf_write ev it r.frames r.subframes r.type r.size r.data).1
    · have hun := write_failed_same ev it r.frames r.subframes r.type r.size r.data hok
      rw [hun.1, hun.2]
      exact ih ev it e (by omega)
    · have hpad : record_header ev.type + r.size + 7 < 4294967296 :=
        pad_lt_imp _ (by omega)
      obtain ⟨w1, w2, w3, w4, w5⟩ := write_ok_spec ev it r hok hpad
      have hs : (lv2_evbuf_write ev it r.frames r.subframes r.type r.size r.data).2.1.size
          = ev.size + pad (record_header ev.type + r.size) := by
        rw [w3]; unfold u32; omega
      have ho : (lv2_evbuf_write ev it r.frames r.subframes r.type r.size r.data).2.2.offset
          = (lv2_evbuf_write ev it r.frames r.subframes r.type r.size r.data).2.1.size := by
        rw [w4, w3, e]
      obtain ⟨i1, i2⟩ := ih _ _ ho (by rw [hs, w1]; omega)
      refine ⟨?_, ?_⟩
      · intro x hx
        rw [i1 x (by omega), w5 x (Or.inl (by omega))]
      · rw [hs] at i2
        exact le_trans (Nat.le_add_right _ _) i2

/-! ## The loop "Prepare port buffers" -/

/-- Setting an element of a list to itself leaves the list. -/
theorem set_same {α : Type} (l : List α) (p : Nat) (a : α) (h : l[p]? = some a) :
    l.set p a = l := by
  induction l generalizing p with
  | nil => rfl
  | cons b t ih =>
    cases p with
    | zero => simp at h; simp [h]
    | succ n => simp at h; simp [ih n h]

/-- The MIDI input loop is a sequence of writes through one iterator. -/
theorem write_midi_input_eq (id : Nat) (evs : List JackMidiEvent) :
    ∀ (ev : LV2_Evbuf) (it : LV2_Evbuf_Iterator),
      write_midi_input id evs ev it =
        ((write_all ev it (evs.map (fun e =>
            { frames := u32 e.time, subframes := 0, type := id, size := u32 e.size,
              data := e.buffer }))).2.1,
         (write_all ev it (evs.map (fun e =>
            { frames := u32 e.time, subframes := 0, type := id, size := u32 e.size,
              data := e.buffer }))).2.2) := by
  induction evs with
  | nil => intro ev it; rfl
  | cons e es ih =>
    intro ev it
    unfold write_midi_input
    simp only [List.map_cons, write_all_cons]
    rw [ih]

/-- The stores of the MIDI input loop are those of a sequence of writes through
one iterator. -/
theorem midi_input_in_memory_eq (id : Nat) (evs : List JackMidiEvent) :
    ∀ (ev : LV2_Evbuf) (it : LV2_Evbuf_Iterator),
      midi_input_in_memory id evs ev it =
        write_all_in_memory ev it (evs.map (fun e =>
          { frames := u32 e.time, subframes := 0, type := id, size := u32 e.size,
            data := e.buffer })) := by
  induction evs with
  | nil => intro ev it; rfl
  | cons e es ih =>
    intro ev it
    unfold midi_input_in_memory
    simp only [List.map_cons, write_all_in_memory]
    rw [ih]

/-- The stores of two sequences of writes in a row. -/
theorem write_all_in_memory_append (a b : List Record) :
    ∀ (ev : LV2_Evbuf) (it : LV2_Evbuf_Iterator),
      write_all_in_memory ev it (a ++ b) =
        (write_all_in_memory ev it a
          && write_all_in_memory (write_all ev it a).2.1 (write_all ev it a).2.2 b) := by
  induction a with
  | nil => intro ev it; simp [write_all_in_memory, write_all]
  | cons r rs ih =>
    intro ev it
    show (write_in_memory ev it r.size && write_all_in_memory _ _ (rs ++ b)) = _
    rw [ih, write_all_cons]
    simp only [write_all_in_memory, Bool.and_assoc]

/-- The stores of the writes "Prepare port buffers" makes for an event input
port are those of the records of `fan_in_records`, written through one iterator
from the begin of the reset buffer. -/
theorem fan_in_in_memory_eq (jalv : Jalv) (inp : CycleInput) (x s : Bool) (port : Port)
    (ev : LV2_Evbuf) :
    fan_in_in_memory jalv inp x s port ev =
      write_all_in_memory (lv2_evbuf_reset ev) (lv2_evbuf_begin (lv2_evbuf_reset ev))
        (fan_in_records jalv inp x s port) := by
  unfold fan_in_in_memory fan_in_records
  cases x <;> cases s <;> cases port.jack_port <;>
    simp [write_all_in_memory, write_all_in_memory_append, write_all, lv2_evbuf_begin,
      midi_input_in_memory_eq, Bool.and_assoc]

/-- The body of "Prepare port buffers" for a port, when it does not end the
cycle: an event port has a buffer, and the stores of the writes to the buffer of
an event input port lie within its memory. -/
theorem prepare_port_spec (jalv : Jalv) (inp : CycleInput) (x : Bool) (p : Nat) (c : Cycle)
    (port : Port) (hp : c.ports[p]? = some port)
    (hout : (prepare_port jalv inp x p c).outcome = none) :
    (prepare_port jalv inp x p c).ports
      = c.ports.set p (prepared_port jalv inp x c.state_changed port) ∧
    (prepare_port jalv inp x p c).state_changed
      = (c.state_changed && !decide (port.type = TYPE_EVENT ∧ port.flow = FLOW_INPUT)) ∧
    (prepare_port jalv inp x p c).outcome = c.outcome ∧
    (prepare_port jalv inp x p c).ui_events = c.ui_events ∧
    (prepare_port jalv inp x p c).plugin_events = c.plugin_events ∧
    (prepare_port jalv inp x p c).event_delta_t = c.event_delta_t ∧
    (prepare_port jalv inp x p c).plugin_latency = c.plugin_latency ∧
    (port.type = TYPE_EVENT → ∃ ev, port.evbuf = some ev ∧
      (port.flow = FLOW_INPUT →
        write_all_in_memory (lv2_evbuf_reset ev) (lv2_evbuf_begin (lv2_evbuf_reset ev))
          (fan_in_records jalv inp x c.state_changed port) = true)) := by
  unfold prepare_port at hout ⊢
  simp only [hp] at hout ⊢
  by_cases hte : port.type = TYPE_EVENT
  · have hna : ¬ (port.type = TYPE_AUDIO ∧ port.jack_port.isSome = true) := by
      rw [hte]; simp
    cases hev : port.evbuf with
    | none =>
      by_cases hfl : port.flow = FLOW_INPUT
      · simp [hna, hte, hfl, hev] at hout
      · simp [hna, hte, hfl, hev] at hout
    | some ev =>
      by_cases hfl : port.flow = FLOW_INPUT
      · simp only [hna, if_false, hte, hfl, and_self, if_true, hev, write_midi_input_eq] at hout ⊢
        cases hm : fan_in_in_memory jalv inp x c.state_changed port ev with
        | false => simp [hm] at hout
        | true =>
          simp only [if_true]
          refine ⟨?_, by cases c.state_changed <;> simp, rfl, rfl, rfl, rfl, rfl,
            fun _ => ⟨ev, rfl, fun _ => by rw [← fan_in_in_memory_eq]; exact hm⟩⟩
          unfold prepared_port
          simp only [hte, if_true, hev, Option.map_some', hfl, fan_in_records]
          cases x <;> cases c.state_changed <;> cases port.jack_port <;>
            simp [write_all, write_all_append, lv2_evbuf_begin]
      · simp only [hna, if_false, hte, hfl, and_false, if_true, hev]
        refine ⟨?_, by simp [hfl], rfl, rfl, rfl, rfl, rfl,
          fun _ => ⟨ev, rfl, fun h => h.elim⟩⟩
        unfold prepared_port
        simp [hte, hev, hfl]
  · have hpp : prepared_port jalv inp x c.state_changed port = port := by
      unfold prepared_port; simp [hte]
    rw [hpp, set_same _ _ _ hp]
    simp only [hte, false_and, if_false]
    refine ⟨?_, ?_, ?_, ?_, ?_, ?_, ?_, fun h => h.elim⟩
    all_goals (split <;> try split) <;> simp [hte]

/-- A loop over the ports with one more port at the end. -/
theorem for_ports_snoc (body : Nat → Cycle → Cycle) (p : Nat) :
    ∀ (l : List Nat) (c : Cycle), c.outcome = none →
      for_ports body (l ++ [p]) c =
        match (for_ports body l c).outcome with
        | some _ => for_ports body l c
        | none => body p (for_ports body l c) := by
  intro l
  induction l with
  | nil =>
    intro c hc
    simp only [List.nil_append, for_ports, hc]
    split <;> rfl
  | cons q qs ih =>
    intro c _
    simp only [List.cons_append, for_ports]
    cases hq : (body q c).outcome with
    | some o => simp only [hq]
    | none =>
      simp only [hq]
      exact ih _ hq

/-- The ports after the first `k` rounds of "Prepare port buffers", when these
rounds do not end the cycle: the ports before `k` are prepared, the others are
as they were; every event port before `k` has a buffer, and the stores of the
writes to the buffers of the event input ports before `k` lie within their
memory. -/
theorem prepare_rounds (jalv : Jalv) (inp : CycleInput) (x : Bool) (c0 : Cycle)
    (h0 : c0.outcome = none) :
    ∀ k, k ≤ c0.ports.length →
      (for_ports (prepare_port jalv inp x) (List.range k) c0).outcome = none →
      (for_ports (prepare_port jalv inp x) (List.range k) c0).state_changed
        = state_changed_at c0.ports c0.state_changed k ∧
      (∀ q, (for_ports (prepare_port jalv inp x) (List.range k) c0).ports[q]? =
        if q < k then
          (c0.ports[q]?).map
            (prepared_port jalv inp x (state_changed_at c0.ports c0.state_changed q))
        else c0.ports[q]?) ∧
      (for_ports (prepare_port jalv inp x) (List.range k) c0).ports.length = c0.ports.length ∧
      (for_ports (prepare_port jalv inp x) (List.range k) c0).ui_events = c0.ui_events ∧
      (for_ports (prepare_port jalv inp x) (List.range k) c0).plugin_events
        = c0.plugin_events ∧
      (for_ports (prepare_port jalv inp x) (List.range k) c0).event_delta_t
        = c0.event_delta_t ∧
      (for_ports (prepare_port jalv inp x) (List.range k) c0).plugin_latency
        = c0.plugin_latency ∧
      (∀ (q : Nat) (port : Port), q < k → c0.ports[q]? = some port →
        port.type = TYPE_EVENT → ∃ ev, port.evbuf = some ev ∧
          (port.flow = FLOW_INPUT →
            write_all_in_memory (lv2_evbuf_reset ev) (lv2_evbuf_begin (lv2_evbuf_reset ev))
              (fan_in_records jalv inp x (state_changed_at c0.ports c0.state_changed q) port)
              = true)) := by
  intro k
  induction k with
  | zero =>
    intro _ _
    refine ⟨by simp [for_ports, state_changed_at], ?_, rfl, rfl, rfl, rfl, rfl, ?_⟩
    · intro q
      simp [for_ports]
    · intro q port hq
      omega
  | succ k ih =>
    intro hk hout
    rw [List.range_succ, for_ports_snoc _ _ _ _ h0] at hout
    have hprev : (for_ports (prepare_port jalv inp x) (List.range k) c0).outcome = none := by
      cases ho : (for_ports (prepare_port jalv inp x) (List.range k) c0).outcome with
      | none => rfl
      | some o =>
        simp only [ho] at hout
        cases hout
    simp only [hprev] at hout
    obtain ⟨i2, i3, i4, i5, i6, i7, i8, i9⟩ := ih (by omega) hprev
    have hlt : k < c0.ports.length := by omega
    have hpk : (for_ports (prepare_port jalv inp x) (List.range k) c0).ports[k]?
        = some c0.ports[k] := by
      rw [i3 k]; simp [hlt]
    obtain ⟨s1, s2, _, s4, s5, s6, s7, s8⟩ := prepare_port_spec jalv inp x k _ _ hpk hout
    rw [List.range_succ, for_ports_snoc _ _ _ _ h0]
    simp only [hprev]
    refine ⟨?_, ?_, by rw [s1, List.length_set, i4], by rw [s4, i5],
      by rw [s5, i6], by rw [s6, i7], by rw [s7, i8], ?_⟩
    · rw [s2, i2]
      unfold state_changed_at
      rw [List.take_succ, List.all_append, List.getElem?_eq_getElem hlt]
      simp [Bool.and_assoc]
    · intro q
      rw [s1, List.getElem?_set]
      by_cases hq : k = q
      · subst hq
        simp only [if_true, i4, hlt, i2, Nat.lt_succ_self, List.getElem?_eq_getElem hlt,
          Option.map_some']
      · have hq2 : (q < k + 1) = (q < k) := by
          apply propext; constructor <;> intro h <;> omega
        simp only [hq, if_false, i3 q, hq2]
    · intro q port hq hpq hty
      by_cases hqk : q = k
      · subst hqk
        rw [List.getElem?_eq_getElem hlt] at hpq
        cases hpq
        rw [i2] at s8
        exact s8 hty
      · exact i9 q port (by omega) hpq hty

/-- The loop "Prepare port buffers", when it does not end the cycle: every port
is prepared, with the value of `state_changed` at its turn, the rings are left
as they are, every event port has a buffer, and the stores of the writes to the
buffers of the event input ports lie within their memory. -/
theorem prepare_ports_spec (jalv : Jalv) (inp : CycleInput) (x : Bool) (c0 : Cycle)
    (h0 : c0.outcome = none) (hout : (prepare_ports jalv inp x c0).outcome = none) :
    (∀ q, (prepare_ports jalv inp x c0).ports[q]? =
      (c0.ports[q]?).map
        (prepared_port jalv inp x (state_changed_at c0.ports c0.state_changed q))) ∧
    (prepare_ports jalv inp x c0).ports.length = c0.ports.length ∧
    (prepare_ports jalv inp x c0).ui_events = c0.ui_events ∧
    (prepare_ports jalv inp x c0).plugin_events = c0.plugin_events ∧
    (prepare_ports jalv inp x c0).state_changed
      = state_changed_at c0.ports c0.state_changed c0.ports.length ∧
    (∀ (q : Nat) (port : Port), c0.ports[q]? = some port →
      port.type = TYPE_EVENT → ∃ ev, port.evbuf = some ev ∧
        (port.flow = FLOW_INPUT →
          write_all_in_memory (lv2_evbuf_reset ev) (lv2_evbuf_begin (lv2_evbuf_reset ev))
            (fan_in_records jalv inp x (state_changed_at c0.ports c0.state_changed q) port)
            = true)) := by
  unfold prepare_ports at hout ⊢
  obtain ⟨i2, i3, i4, i5, i6, _, _, i9⟩ :=
    prepare_rounds jalv inp x c0 h0 c0.ports.length (Nat.le_refl _) hout
  refine ⟨?_, i4, i5, i6, i2, ?_⟩
  · intro q
    rw [i3 q]
    by_cases hq : q < c0.ports.length
    · simp only [hq, if_true]
    · simp only [hq, if_false, List.getElem?_eq_none (Nat.le_of_not_lt hq), Option.map_none']
  · intro q port hpq
    have hq : q < c0.ports.length := by
      by_contra hge
      rw [List.getElem?_eq_none (Nat.le_of_not_lt hge)] at hpq
      cases hpq
    exact i9 q port hq hpq

/-- The first of consecutive writes through an iterator at the used-size, when
the buffer has room for all of them: `lv2_evbuf_get` at the iterator yields the
record after all the writes. -/
theorem write_all_first (ev : LV2_Evbuf) (it : LV2_Evbuf_Iterator) (r : Record)
    (rest : List Record) (he : it.offset = ev.size)
    (hroom : ev.size + stride_total ev.type (r :: rest) ≤ ev.capacity)
    (hcap : ev.capacity < 4294967296) (hwf : r.wf) :
    lv2_evbuf_get (write_all ev it (r :: rest)).2.1 it =
      { ok := true, frames := r.frames, subframes := r.subframes
        type := if ev.type = LV2_EVBUF_EVENT then r.type % 65536 else r.type
        size := if ev.type = LV2_EVBUF_EVENT then r.size % 65536 else r.size
        data := some (it.offset + record_header ev.type) } ∧
    bytesAt (write_all ev it (r :: rest)).2.1.data (it.offset + record_header ev.type) r.size
      = r.data ∧
    (∀ x, x < ev.size → (write_all ev it (r :: rest)).2.1.data x = ev.data x) ∧
    ev.size + pad (record_header ev.type + r.size) ≤ (write_all ev it (r :: rest)).2.1.size ∧
    (write_all ev it (r :: rest)).1.head? = some true := by
  simp only [stride_total] at hroom
  have hok := write_ok_of_room ev it r.frames r.subframes r.type r.size r.data (by omega) hcap
  have hpad : record_header ev.type + r.size + 7 < 4294967296 := pad_lt_imp _ (by omega)
  obtain ⟨w1, w2, w3, w4, w5⟩ := write_ok_spec ev it r hok hpad
  have hs : (lv2_evbuf_write ev it r.frames r.subframes r.type r.size r.data).2.1.size
      = ev.size + pad (record_header ev.type + r.size) := by
    rw [w3]; unfold u32; omega
  have ho : (lv2_evbuf_write ev it r.frames r.subframes r.type r.size r.data).2.2.offset
      = (lv2_evbuf_write ev it r.frames r.subframes r.type r.size r.data).2.1.size := by
    rw [w4, w3, he]
  obtain ⟨f1, f2⟩ := write_all_frame rest _ _ ho (by rw [hs, w1]; omega)
  have hb := pad_bounds (record_header ev.type + r.size)
  have hh := record_header_pos ev.type
  have hty : (write_all ev it (r :: rest)).2.1.type = ev.type := by
    rw [write_all_cons]
    have : ∀ (e : LV2_Evbuf) (i : LV2_Evbuf_Iterator) (l : List Record),
        (write_all e i l).2.1.type = e.type := by
      intro e i l
      induction l generalizing e i with
      | nil => rfl
      | cons r2 rs ih =>
        rw [write_all_cons]
        show (write_all _ _ rs).2.1.type = e.type
        rw [ih]
        unfold lv2_evbuf_write
        cases hte : e.type <;> simp only [] <;> split <;> simp [hte]
    show (write_all _ _ rest).2.1.type = ev.type
    rw [this, w1]
  have hg := write_get_back ev it r hok hwf (write_all ev it (r :: rest)).2.1 hty
    (by
      intro x h1 h2
      rw [write_all_cons]
      exact f1 x (by rw [hs]; omega))
    (by
      rw [write_all_cons]
      show it.offset < (write_all _ _ rest).2.1.size
      rw [hs] at f2
      omega)
  refine ⟨hg.1, hg.2, ?_, ?_, ?_⟩
  · intro x hx
    rw [write_all_cons]
    show (write_all _ _ rest).2.1.data x = ev.data x
    rw [f1 x (by rw [hs]; omega), w5 x (Or.inl (by omega))]
  · rw [write_all_cons]
    show _ ≤ (write_all _ _ rest).2.1.size
    rw [hs] at f2
    exact f2
  · rw [write_all_cons]
    simp [hok]

/-! ## C13: control echo -/

/-- The body of "Prepare port buffers" leaves the control values and the ring
from the UI as they are. -/
theorem prepare_port_controls (jalv : Jalv) (inp : CycleInput) (x : Bool) (p : Nat)
    (c : Cycle) :
    (prepare_port jalv inp x p c).ports.map Port.control = c.ports.map Port.control ∧
    (prepare_port jalv inp x p c).ui_events = c.ui_events := by
  unfold prepare_port
  cases hp : c.ports[p]? with
  | none => exact ⟨rfl, rfl⟩
  | some port =>
    have hs : ∀ e : Option LV2_Evbuf,
        (c.ports.set p { port with evbuf := e }).map Port.control = c.ports.map Port.control := by
      intro e
      rw [List.map_set]
      exact set_same _ _ _ (by rw [List.getElem?_map, hp]; rfl)
    dsimp only
    repeat' split
    all_goals first
      | exact ⟨rfl, rfl⟩
      | exact ⟨hs _, rfl⟩

/-- The loop "Prepare port buffers" leaves the control values and the ring from
the UI as they are. -/
theorem prepare_ports_controls (jalv : Jalv) (inp : CycleInput) (x : Bool) (c0 : Cycle) :
    (prepare_ports jalv inp x c0).ports.map Port.control = c0.ports.map Port.control ∧
    (prepare_ports jalv inp x c0).ui_events = c0.ui_events := by
  unfold prepare_ports
  exact for_ports_inv
    (fun c => c.ports.map Port.control = c0.ports.map Port.control ∧ c.ui_events = c0.ui_events)
    _ (fun p c hc => ⟨(prepare_port_controls jalv inp x p c).1.trans hc.1,
      (prepare_port_controls jalv inp x p c).2.trans hc.2⟩) _ c0 ⟨rfl, rfl⟩

/-- The control values after the records of the ring, when the loop does not
end the cycle. -/
theorem apply_controls (jalv : Jalv) (nframes : Nat) :
    ∀ (recs : List ControlChange) (c : Cycle),
      (apply_control_changes jalv nframes recs c).outcome = none →
      ∀ i, ((apply_control_changes jalv nframes recs c).ports[i]?).map Port.control
        = (c.ports[i]?).map (fun port => control_after i recs port.control) := by
  intro recs
  induction recs with
  | nil => intro c _ i; simp [apply_control_changes, control_after]
  | cons r rs ih =>
    intro c hout i
    rw [apply_control_changes] at hout ⊢
    cases hp : c.ports[r.index]? with
    | none => simp [hp] at hout
    | some port =>
      have hlt : r.index < c.ports.length := by
        by_contra hge
        rw [List.getElem?_eq_none (Nat.le_of_not_lt hge)] at hp
        cases hp
      simp only [hp] at hout ⊢
      by_cases h0 : r.protocol = 0
      · simp only [h0, if_true] at hout ⊢
        by_cases h4 : r.size = 4
        · simp only [h4, ne_eq, not_true_eq_false, if_false] at hout ⊢
          rw [ih _ hout i]
          simp only [List.getElem?_set, hlt, if_true, control_after, h0, and_true]
          by_cases hi : r.index = i
          · subst hi; simp [hp]
          · simp [hi]
        · simp [h4] at hout
      · simp only [h0, if_false] at hout ⊢
        by_cases he : r.protocol = jalv.urids.atom_eventTransfer
        · simp only [he, if_true] at hout ⊢
          cases hev : port.evbuf with
          | none => simp [hev] at hout
          | some evbuf =>
            simp only [hev] at hout ⊢
            cases hm : write_in_memory evbuf (lv2_evbuf_end evbuf) (load32_list r.body 0) with
            | false => simp [hm] at hout
            | true =>
              simp only [hm, if_true] at hout ⊢
              rw [ih _ hout i]
              have h0' : ¬ (jalv.urids.atom_eventTransfer = 0) := by rw [← he]; exact h0
              simp only [List.getElem?_set, hlt, if_true, control_after, he, h0', and_false,
                if_false]
              by_cases hi : r.index = i
              · subst hi; simp [hp]
              · simp [hi]
        · simp only [he, if_false] at hout ⊢
          rw [ih _ hout i]
          simp [control_after, h0]

/-- A ring of whole records holds at least as many bytes as records. -/
theorem ring_bytes_length (recs : List ControlChange) : recs.length ≤ (ring_bytes recs).length := by
  induction recs with
  | nil => simp [ring_bytes]
  | cons r rs ih =>
    simp only [ring_bytes, ControlChange.bytes, List.length_append, List.length_cons]
    have : (le32 r.index).length = 4 := rfl
    omega

/-- The state in which the plugin is run, when the ring from the UI holds whole
records and the host has a UI: the loop "Prepare port buffers" followed by the
records of the ring, applied in order. -/
theorem before_run_whole (jalv : Jalv) (inp : CycleInput) (nframes : Nat) (x : Bool)
    (c0 : Cycle) (recs : List ControlChange) (hui : jalv.has_ui = true)
    (hring : c0.ui_events.content = ring_bytes recs) (hw : ∀ r ∈ recs, r.whole)
    (hprep : (prepare_ports jalv inp x c0).outcome = none) :
    before_run jalv inp nframes x c0
      = apply_control_changes jalv nframes recs (prepare_ports jalv inp x c0) := by
  have hu := (prepare_ports_controls jalv inp x c0).2
  unfold before_run
  simp only [hprep, hui, if_true]
  exact drain_ui_whole jalv nframes _ recs _ 0 _ _ hw (by rw [hu, hring])
    (by
      unfold jack_ringbuffer_read_space
      rw [hu, hring]
      exact ring_bytes_length recs)
    (by unfold jack_ringbuffer_read_space; rw [hu, hring]; simp)
    (by simp [List.length_take])

/-- The body of "Deliver MIDI output and UI events" leaves the ports as they
are. -/
theorem deliver_port_ports (fl : FloatOps) (j : Jalv) (s : Bool) (fuel : Nat) (p : Nat)
    (c : Cycle) : (deliver_port fl j s fuel p c).ports = c.ports := by
  unfold deliver_port
  dsimp only
  repeat' split
  all_goals rfl

/-- The ports at the end of the cycle are those `lilv_instance_run` leaves. -/
theorem after_run_ports (fl : FloatOps) (j : Jalv) (inp : CycleInput) (nframes fuel : Nat)
    (c2 : Cycle) : (after_run fl j inp nframes fuel c2).ports = run_plugin inp nframes c2.ports := by
  unfold after_run
  dsimp only
  have h := for_ports_inv (fun c => c.ports = run_plugin inp nframes c2.ports)
    (deliver_port fl j
      (j.has_ui && decide (u32 (c2.event_delta_t + nframes)
        > fl.div_u32_f32 j.sample_rate j.ui_update_hz)) fuel)
    (fun p c hc => (deliver_port_ports fl j _ fuel p c).trans hc)
    (List.range (run_plugin inp nframes c2.ports).length)
    { c2 with
      ports := run_plugin inp nframes c2.ports
      calls := c2.calls ++ [Call.lilv_instance_run nframes, Call.jalv_worker_emit_responses]
        ++ (if j.worker_end_run then [Call.end_run] else [])
      event_delta_t := if (j.has_ui && decide (u32 (c2.event_delta_t + nframes)
          > fl.div_u32_f32 j.sample_rate j.ui_update_hz)) = true then 0
        else u32 (c2.event_delta_t + nframes) } rfl
  split
  · exact h
  · exact h

/-- A cycle started in `JALV_RUNNING` that comes to the call of
`lilv_instance_run` runs the plugin on the ports of `running_before_run`. -/
theorem running_cycle_ports (fl : FloatOps) (jalv : Jalv) (inp : CycleInput)
    (nframes fuel : Nat) (h : jalv.play_state = JALV_RUNNING)
    (hrun : (running_before_run fl jalv inp nframes).outcome = none) :
    (jack_process_cb fl jalv inp nframes fuel).jalv.ports
      = run_plugin inp nframes (running_before_run fl jalv inp nframes).ports ∧
    Call.lilv_instance_run nframes ∈ (jack_process_cb fl jalv inp nframes fuel).calls := by
  rw [running_cycle_eq fl jalv inp nframes fuel h, run_cycle_eq]
  unfold running_before_run at hrun ⊢
  simp only [hrun]
  exact ⟨after_run_ports _ _ _ _ _ _, (after_run_calls _ _ _ _ _ _).2⟩

/-- Records that do not address port `i` with protocol 0 leave its control
value. -/
theorem control_after_none (i : Nat) (recs : List ControlChange) (v : Nat)
    (h : ∀ r ∈ recs, ¬ (r.index = i ∧ r.protocol = 0)) : control_after i recs v = v := by
  induction recs generalizing v with
  | nil => rfl
  | cons r rs ih =>
    unfold control_after
    rw [if_neg (h r (List.mem_cons_self _ _))]
    exact ih v (fun x hx => h x (List.mem_cons_of_mem _ hx))

/-- The last scalar record for port `i` gives its control value. -/
theorem control_after_last (i v : Nat) (pre post : List ControlChange) (v0 : Nat)
    (hv : v < 4294967296)
    (h : ∀ r ∈ post, ¬ (r.index = i ∧ r.protocol = 0)) :
    control_after i (pre ++ control_change i v :: post) v0 = v := by
  induction pre generalizing v0 with
  | nil =>
    simp only [List.nil_append, control_after, control_change, and_self, if_true]
    rw [control_after_none i post _ h]
    have := (load32_list_le32 v 0 0 [] hv (by decide) (by decide)).1
    simp only [load32_list, load32, le32, toByte, List.cons_append, List.nil_append,
      List.getD_cons_zero, List.getD_cons_succ, List.getD_nil] at this ⊢
    omega
  | cons r rs ih =>
    simp only [List.cons_append, control_after]
    exact ih _

/-- C13 (control echo): in a cycle started in the running state with a UI
present, whose ring from the UI holds whole records, and which comes to the
call of the plugin's run: the plugin is run on ports in which the control value
of every port `i` is the value it had before the cycle, replaced in ring order
by the value of every record of protocol 0 addressed to `i`.  So the value of
the last scalar record for `i` is the control value of `i` when the plugin is
run, and the control value of a port that no record of protocol 0 addresses is
unchanged. -/
theorem control_echo (fl : FloatOps) (jalv : Jalv) (inp : CycleInput) (nframes fuel : Nat)
    (recs : List ControlChange) (h : jalv.play_state = JALV_RUNNING)
    (hui : jalv.has_ui = true) (hring : jalv.ui_events.content = ring_bytes recs)
    (hw : ∀ r ∈ recs, r.whole)
    (hrun : (running_before_run fl jalv inp nframes).outcome = none) :
    (jack_process_cb fl jalv inp nframes fuel).jalv.ports
      = run_plugin inp nframes (running_before_run fl jalv inp nframes).ports ∧
    Call.lilv_instance_run nframes ∈ (jack_process_cb fl jalv inp nframes fuel).calls ∧
    (∀ i port, jalv.ports[i]? = some port →
      ((running_before_run fl jalv inp nframes).ports[i]?).map Port.control
        = some (control_after i recs port.control)) ∧
    (∀ i port v pre post, jalv.ports[i]? = some port → v < 4294967296 →
      recs = pre ++ control_change i v :: post →
      (∀ r ∈ post, ¬ (r.index = i ∧ r.protocol = 0)) →
      ((running_before_run fl jalv inp nframes).ports[i]?).map Port.control = some v) ∧
    (∀ i port, jalv.ports[i]? = some port →
      (∀ r ∈ recs, ¬ (r.index = i ∧ r.protocol = 0)) →
      ((running_before_run fl jalv inp nframes).ports[i]?).map Port.control
        = some port.control) := by
  obtain ⟨e1, e2⟩ := running_cycle_ports fl jalv inp nframes fuel h hrun
  have hprep : (prepare_ports (transport_updated fl jalv inp nframes) inp
      (xport_changed fl jalv inp) (cycle_start fl jalv inp)).outcome = none := by
    cases hc : (prepare_ports (transport_updated fl jalv inp nframes) inp
      (xport_changed fl jalv inp) (cycle_start fl jalv inp)).outcome with
    | none => rfl
    | some o =>
      unfold running_before_run before_run at hrun
      simp only [hc] at hrun
      cases hrun
  have hbr := before_run_whole (transport_updated fl jalv inp nframes) inp nframes
    (xport_changed fl jalv inp) (cycle_start fl jalv inp) recs hui hring hw hprep
  have hctl := (prepare_ports_controls (transport_updated fl jalv inp nframes) inp
    (xport_changed fl jalv inp) (cycle_start fl jalv inp)).1
  have key : ∀ i port, jalv.ports[i]? = some port →
      ((running_before_run fl jalv inp nframes).ports[i]?).map Port.control
        = some (control_after i recs port.control) := by
    intro i port hp
    have hrun2 := hrun
    unfold running_before_run at hrun2 ⊢
    rw [hbr] at hrun2 ⊢
    rw [apply_controls _ _ _ _ hrun2 i]
    have h1 : ((prepare_ports (transport_updated fl jalv inp nframes) inp
        (xport_changed fl jalv inp) (cycle_start fl jalv inp)).ports[i]?).map Port.control
        = some port.control := by
      rw [← List.getElem?_map, hctl, List.getElem?_map]
      show Option.map Port.control jalv.ports[i]? = _
      rw [hp]; rfl
    cases hq : (prepare_ports (transport_updated fl jalv inp nframes) inp
        (xport_changed fl jalv inp) (cycle_start fl jalv inp)).ports[i]? with
    | none => rw [hq] at h1; cases h1
    | some q =>
      rw [hq] at h1
      simp only [Option.map_some', Option.some.injEq] at h1 ⊢
      rw [h1]
  refine ⟨e1, e2, key, ?_, ?_⟩
  · intro i port v pre post hp hv hrecs hpost
    rw [key i port hp, hrecs, control_after_last i v pre post _ hv hpost]
  · intro i port hp hnone
    rw [key i port hp, control_after_none i recs _ hnone]

/-- C13 at a host whose ring from the UI holds two scalar records for port 1:
the plugin is run with the value of the second. -/
theorem control_echo_witness :
    (jalv_with_ui (ring_bytes [control_change 1 9, control_change 1 8])).play_state
      = JALV_RUNNING ∧
    ((running_before_run float_ops_example
        (jalv_with_ui (ring_bytes [control_change 1 9, control_change 1 8])) input_example
        64).ports[1]?).map Port.control = some 8 :=
  ⟨rfl,
   (control_echo float_ops_example
      (jalv_with_ui (ring_bytes [control_change 1 9, control_change 1 8])) input_example 64 8
      [control_change 1 9, control_change 1 8] rfl rfl rfl (by decide) (by decide)).2.2.2.1
      1 _ 8 [control_change 1 9] [] rfl (by decide) rfl (by simp)⟩

/-! ## C15: records the UI ring loop does not know -/

/-- A cycle that comes to the call of `lilv_instance_run` has got through
"Prepare port buffers". -/
theorem prepared_of_run (jalv : Jalv) (inp : CycleInput) (nframes : Nat) (x : Bool)
    (c0 : Cycle) (hrun : (before_run jalv inp nframes x c0).outcome = none) :
    (prepare_ports jalv inp x c0).outcome = none := by
  cases hc : (prepare_ports jalv inp x c0).outcome with
  | none => rfl
  | some o =>
    unfold before_run at hrun
    simp only [hc] at hrun
    cases hrun

/-- Records of a protocol the loop does not know, addressed to ports in range,
change nothing but the calls. -/
theorem apply_unknown (jalv : Jalv) (nframes : Nat) :
    ∀ (recs : List ControlChange) (c : Cycle),
      (∀ r ∈ recs, r.index < c.ports.length ∧ r.protocol ≠ 0 ∧
        r.protocol ≠ jalv.urids.atom_eventTransfer) →
      (apply_control_changes jalv nframes recs c).ports = c.ports ∧
      (apply_control_changes jalv nframes recs c).outcome = c.outcome ∧
      (apply_control_changes jalv nframes recs c).calls
        = c.calls ++ recs.map (fun r => Call.fprintf_stderr (LogMsg.unknown_protocol r.protocol)) := by
  intro recs
  induction recs with
  | nil => intro c _; simp [apply_control_changes]
  | cons r rs ih =>
    intro c hbad
    obtain ⟨hi, h0, he⟩ := hbad r (List.mem_cons_self _ _)
    rw [apply_control_changes]
    simp only [List.getElem?_eq_getElem hi, h0, he, if_false]
    obtain ⟨a1, a2, a3⟩ := ih
      { c with
        ui_events := { c.ui_events with content := c.ui_events.content.drop (12 + r.size) }
        calls := c.calls ++ [Call.fprintf_stderr (LogMsg.unknown_protocol r.protocol)] }
      (fun x hx => hbad x (List.mem_cons_of_mem _ hx))
    exact ⟨a1, a2, by rw [a3]; simp⟩

/-- C15, as the claim states it, fails: a ring from the UI that holds a whole
record of protocol 0 with a body of 8 bytes makes the assertion on the size
fail; the cycle ends there and the plugin is not run. -/
theorem malformed_record_counterexample :
    wide_control_change.whole ∧ wide_control_change.protocol = 0 ∧
    wide_control_change.size ≠ 4 ∧
    (jack_process_cb float_ops_example (jalv_with_ui wide_control_change.bytes) input_example
      64 8).outcome = Outcome.assert_failed ∧
    (jack_process_cb float_ops_example (jalv_with_ui wide_control_change.bytes) input_example
      64 8).calls = [Call.lilv_instance_connect_port 0 1] := by
  decide

/-- C15 (amended): for every whole record read from the ring from the UI whose
protocol is neither 0 nor event-transfer and whose port index is in range, the
round of the loop that reads it leaves the ports (control values and event
buffers) as they are, prints the message and goes on with the next round.  A
cycle in the running state that has got through "Prepare port buffers" and
whose ring holds only such records goes on to run the plugin, on the ports as
"Prepare port buffers" left them. -/
theorem unknown_protocol_skipped (fl : FloatOps) (jalv : Jalv) (inp : CycleInput)
    (nframes fuel : Nat) :
    (∀ (space n i : Nat) (ev : List Byte) (c : Cycle) (r : ControlChange) (rest : List Byte),
      r.whole → r.protocol ≠ 0 → r.protocol ≠ jalv.urids.atom_eventTransfer →
      r.index < c.ports.length → c.ui_events.content = r.bytes ++ rest → i < space →
      ev.length ≤ 12 →
      drain_ui jalv nframes space (n + 1) i ev c =
        drain_ui jalv nframes space n (i + 12 + r.size)
          (le32 r.index ++ le32 r.protocol ++ le32 r.size)
          { c with
            ui_events := { c.ui_events with content := rest }
            calls := c.calls ++ [Call.fprintf_stderr (LogMsg.unknown_protocol r.protocol)] }) ∧
    (∀ recs : List ControlChange, jalv.play_state = JALV_RUNNING → jalv.has_ui = true →
      jalv.ui_events.content = ring_bytes recs → (∀ r ∈ recs, r.whole) →
      (∀ r ∈ recs, r.index < jalv.ports.length ∧ r.protocol ≠ 0 ∧
        r.protocol ≠ jalv.urids.atom_eventTransfer) →
      (prepare_ports (transport_updated fl jalv inp nframes) inp (xport_changed fl jalv inp)
        (cycle_start fl jalv inp)).outcome = none →
      (running_before_run fl jalv inp nframes).outcome = none ∧
      (running_before_run fl jalv inp nframes).ports
        = (prepare_ports (transport_updated fl jalv inp nframes) inp
            (xport_changed fl jalv inp) (cycle_start fl jalv inp)).ports ∧
      (jack_process_cb fl jalv inp nframes fuel).jalv.ports
        = run_plugin inp nframes
            (prepare_ports (transport_updated fl jalv inp nframes) inp
              (xport_changed fl jalv inp) (cycle_start fl jalv inp)).ports ∧
      Call.lilv_instance_run nframes ∈ (jack_process_cb fl jalv inp nframes fuel).calls) := by
  constructor
  · intro space n i ev c r rest hw h0 he hi hc hlt hev
    obtain ⟨hwi, hwp, hws, hwb⟩ := hw
    have hcont : c.ui_events.content
        = (le32 r.index ++ le32 r.protocol ++ le32 r.size) ++ (r.body ++ rest) := by
      rw [hc]; simp [ControlChange.bytes]
    have htake : c.ui_events.content.take 12
        = le32 r.index ++ le32 r.protocol ++ le32 r.size := by
      rw [hcont]; exact List.take_left' (header_length _ _ _)
    have hdrop : c.ui_events.content.drop 12 = r.body ++ rest := by
      rw [hcont]; exact List.drop_left' (header_length _ _ _)
    have hevd : ev.drop 12 = [] := List.drop_eq_nil_of_le hev
    have hl := load32_list_le32 r.index r.protocol r.size [] hwi hwp hws
    simp only [List.append_nil] at hl
    conv => lhs; unfold drain_ui
    simp only [hlt, if_true, jack_ringbuffer_read, htake, header_length, hevd, List.append_nil,
      hl.1, hl.2.1, hl.2.2, hdrop, List.take_left' hwb, List.drop_left' hwb, hwb,
      ne_eq, not_true_eq_false, if_false, hi, List.getElem?_eq_getElem hi, h0, he]
  · intro recs h hui hring hw hbad hprep
    have hbr := before_run_whole (transport_updated fl jalv inp nframes) inp nframes
      (xport_changed fl jalv inp) (cycle_start fl jalv inp) recs hui hring hw hprep
    have hlen : (prepare_ports (transport_updated fl jalv inp nframes) inp
        (xport_changed fl jalv inp) (cycle_start fl jalv inp)).ports.length
        = jalv.ports.length := by
      have := congrArg List.length (prepare_ports_controls (transport_updated fl jalv inp nframes)
        inp (xport_changed fl jalv inp) (cycle_start fl jalv inp)).1
      simpa using this
    obtain ⟨a1, a2, _⟩ := apply_unknown (transport_updated fl jalv inp nframes) nframes recs
      (prepare_ports (transport_updated fl jalv inp nframes) inp (xport_changed fl jalv inp)
        (cycle_start fl jalv inp))
      (fun r hr => by rw [hlen]; exact hbad r hr)
    have hrun : (running_before_run fl jalv inp nframes).outcome = none := by
      unfold running_before_run
      rw [hbr, a2, hprep]
    have hports : (running_before_run fl jalv inp nframes).ports
        = (prepare_ports (transport_updated fl jalv inp nframes) inp
            (xport_changed fl jalv inp) (cycle_start fl jalv inp)).ports := by
      unfold running_before_run
      rw [hbr, a1]
    obtain ⟨e1, e2⟩ := running_cycle_ports fl jalv inp nframes fuel h hrun
    exact ⟨hrun, hports, by rw [e1, hports], e2⟩

/-- C15 (amended) at a host whose ring from the UI holds one record of the
unknown protocol 99: the plugin is run. -/
theorem unknown_protocol_skipped_witness :
    unknown_control_change.protocol ≠ 0 ∧
    Call.lilv_instance_run 64 ∈
      (jack_process_cb float_ops_example (jalv_with_ui (ring_bytes [unknown_control_change]))
        input_example 64 8).calls :=
  ⟨by decide,
   ((unknown_protocol_skipped float_ops_example
      (jalv_with_ui (ring_bytes [unknown_control_change])) input_example 64 8).2
      [unknown_control_change] rfl rfl rfl (by decide) (by decide) (by decide)).2.2.2⟩

/-! ## C17: unchanged transport -/

/-- Without a changed transport, the cycle up to the call of
`lilv_instance_run` does not use the position object. -/
theorem before_run_no_position (j : Jalv) (inp : CycleInput) (a : Atom) (nframes : Nat)
    (c0 : Cycle) :
    before_run j { inp with lv2_pos := a } nframes false c0
      = before_run j inp nframes false c0 := by
  have h1 : prepare_port j { inp with lv2_pos := a } false = prepare_port j inp false := by
    funext p c
    unfold prepare_port fan_in_in_memory
    simp
  unfold before_run prepare_ports
  simp only [h1]

/-- The transport snapshot and the play state after a cycle started in
`JALV_RUNNING`. -/
theorem running_cycle_snapshot (fl : FloatOps) (jalv : Jalv) (inp : CycleInput)
    (nframes fuel : Nat) (h : jalv.play_state = JALV_RUNNING) :
    (jack_process_cb fl jalv inp nframes fuel).jalv.play_state = JALV_RUNNING ∧
    (jack_process_cb fl jalv inp nframes fuel).jalv.rolling = inp.rolling ∧
    (jack_process_cb fl jalv inp nframes fuel).jalv.position
      = (if inp.rolling then u32 (inp.pos_frame + nframes) else inp.pos_frame) ∧
    (jack_process_cb fl jalv inp nframes fuel).jalv.bpm
      = fl.f64_to_f32 inp.pos_beats_per_minute := by
  rw [running_cycle_eq fl jalv inp nframes fuel h]
  exact ⟨h, rfl, rfl, rfl⟩

/-- C17, as the claim states it, fails: two consecutive cycles in the running
state for which the audio server reports the same rolling transport at frame 0
with the same bpm.  The first cycle stores the frame it expects next, 64; the
second finds the transport changed and writes the position object as the first
record of the event input port 2. -/
theorem unchanged_transport_counterexample :
    (jack_process_cb float_ops_example (jalv_example JALV_RUNNING) input_rolling 64
      8).jalv.play_state = JALV_RUNNING ∧
    (jack_process_cb float_ops_example (jalv_example JALV_RUNNING) input_rolling 64
      8).jalv.position = 64 ∧
    xport_changed float_ops_example
      (jack_process_cb float_ops_example (jalv_example JALV_RUNNING) input_rolling 64 8).jalv
      input_rolling = true ∧
    (jack_process_cb float_ops_example
      (jack_process_cb float_ops_example (jalv_example JALV_RUNNING) input_rolling 64 8).jalv
      input_rolling 64 8).jalv.ports.map
        (fun port => port.evbuf.map (fun ev => read_record ev (lv2_evbuf_begin ev)))
      = [none, none, some (some (position_record input_rolling))] := by
  decide

/-- C17 (amended): for every pair of consecutive cycles in the running state
for which the audio server reports a stopped transport at the same frame with
the same bpm, a bpm that compares equal to the float it is stored as: the
second cycle finds the transport unchanged and writes no position object; what
it does, up to the call of the plugin's run and as a whole, does not depend on
the position object. -/
theorem unchanged_transport_no_event (fl : FloatOps) (jalv : Jalv) (inp1 inp2 : CycleInput)
    (n1 n2 f1 f2 : Nat) (h : jalv.play_state = JALV_RUNNING)
    (hr1 : inp1.rolling = false) (hr2 : inp2.rolling = false)
    (hframe : inp2.pos_frame = inp1.pos_frame)
    (hbpm : inp2.pos_beats_per_minute = inp1.pos_beats_per_minute)
    (hfloat : fl.f64_ne_f32 inp1.pos_beats_per_minute
      (fl.f64_to_f32 inp1.pos_beats_per_minute) = false) :
    (jack_process_cb fl jalv inp1 n1 f1).jalv.play_state = JALV_RUNNING ∧
    xport_changed fl (jack_process_cb fl jalv inp1 n1 f1).jalv inp2 = false ∧
    dump_calls fl (jack_process_cb fl jalv inp1 n1 f1).jalv inp2 = [] ∧
    (∀ a : Atom,
      running_before_run fl (jack_process_cb fl jalv inp1 n1 f1).jalv
          { inp2 with lv2_pos := a } n2
        = running_before_run fl (jack_process_cb fl jalv inp1 n1 f1).jalv inp2 n2) ∧
    (∀ a : Atom,
      jack_process_cb fl (jack_process_cb fl jalv inp1 n1 f1).jalv { inp2 with lv2_pos := a }
          n2 f2
        = jack_process_cb fl (jack_process_cb fl jalv inp1 n1 f1).jalv inp2 n2 f2) := by
  obtain ⟨s1, s2, s3, s4⟩ := running_cycle_snapshot fl jalv inp1 n1 f1 h
  have hx : xport_changed fl (jack_process_cb fl jalv inp1 n1 f1).jalv inp2 = false := by
    unfold xport_changed
    rw [s2, s3, s4, hr1, hr2, hframe, hbpm, hfloat]
    simp
  have hx2 : ∀ a : Atom,
      xport_changed fl (jack_process_cb fl jalv inp1 n1 f1).jalv { inp2 with lv2_pos := a }
        = false := fun a => hx
  refine ⟨s1, hx, by unfold dump_calls; simp [hx], ?_, ?_⟩
  · intro a
    unfold running_before_run
    rw [hx2 a, hx]
    exact before_run_no_position _ _ _ _ _
  · intro a
    rw [running_cycle_eq fl _ _ n2 f2 s1, running_cycle_eq fl _ _ n2 f2 s1, hx2 a, hx]
    exact congrArg _ (run_cycle_no_position fl _ inp2 a n2 f2 _)

/-- C17 (amended) at the host of `jalv_example` with a stopped transport. -/
theorem unchanged_transport_no_event_witness :
    (jalv_example JALV_RUNNING).play_state = JALV_RUNNING ∧
    input_example.rolling = false ∧
    xport_changed float_ops_example
      (jack_process_cb float_ops_example (jalv_example JALV_RUNNING) input_example 64 8).jalv
      input_example = false :=
  ⟨rfl, rfl,
   (unchanged_transport_no_event float_ops_example (jalv_example JALV_RUNNING) input_example
      input_example 64 64 8 8 rfl rfl rfl rfl rfl rfl).2.1⟩

/-! ## C14: events from the UI -/

/-- A buffer `lv2_evbuf_new` returns has no memory for records: the stores of an
`lv2_evbuf_write` call that passes the capacity check lie outside the memory of
the buffer, also after a reset. -/
theorem new_buffer_no_memory (capacity : Nat) (t : LV2_Evbuf_Type) (raw : LV2_Evbuf)
    (iter : LV2_Evbuf_Iterator) (frames subframes type size : Nat) (data : List Byte) :
    (lv2_evbuf_new capacity t raw).data_size = 0 ∧
    (lv2_evbuf_reset (lv2_evbuf_new capacity t raw)).data_size = 0 ∧
    ((lv2_evbuf_write (lv2_evbuf_new capacity t raw) iter frames subframes type size data).1
        = true →
      write_in_memory (lv2_evbuf_new capacity t raw) iter size = false) := by
  have h1 : (lv2_evbuf_new capacity t raw).data_size = 0 := by
    unfold lv2_evbuf_new lv2_evbuf_reset
    cases t <;> rfl
  have h2 : (lv2_evbuf_reset (lv2_evbuf_new capacity t raw)).data_size = 0 := by
    unfold lv2_evbuf_reset
    split <;> exact h1
  refine ⟨h1, h2, ?_⟩
  intro hw
  unfold lv2_evbuf_write at hw
  unfold write_in_memory
  rw [h1]
  cases hte : (lv2_evbuf_new capacity t raw).type <;> simp only [hte] at hw ⊢
  · split
    · rename_i hlt
      simp [hlt] at hw
    · simp [sizeof_LV2_Event]
  · split
    · rename_i hlt
      simp [hlt] at hw
    · simp [sizeof_LV2_Atom_Event]

/-- C16 fails in the program.  `jalv_allocate_port_buffers` gives the atom event
input port 2 of `jalv_allocated` the buffer `lv2_evbuf_new` returns, of capacity
4096, whose pointer `data` refers to no memory.  In a cycle in the running
state in which the transport starts rolling, the `lv2_evbuf_write` call for the
position object passes the capacity check and stores the record outside the
memory of the buffer: the cycle ends there (undefined behaviour in C), before
`lilv_instance_run`, and the buffer of the port holds no record. -/
theorem position_event_not_stored :
    jalv_allocated.ports.map
        (fun port => port.evbuf.map (fun ev => (ev.type, ev.capacity, ev.data_size)))
      = [none, none, some (LV2_EVBUF_ATOM, 4096, 0)] ∧
    xport_changed float_ops_example jalv_allocated input_rolling = true ∧
    (lv2_evbuf_write (lv2_evbuf_reset (lv2_evbuf_new 4096 LV2_EVBUF_ATOM raw_zero))
      (lv2_evbuf_begin (lv2_evbuf_reset (lv2_evbuf_new 4096 LV2_EVBUF_ATOM raw_zero)))
      0 0 input_rolling.lv2_pos.type input_rolling.lv2_pos.size input_rolling.lv2_pos.body).1
      = true ∧
    write_in_memory (lv2_evbuf_reset (lv2_evbuf_new 4096 LV2_EVBUF_ATOM raw_zero))
      (lv2_evbuf_begin (lv2_evbuf_reset (lv2_evbuf_new 4096 LV2_EVBUF_ATOM raw_zero)))
      input_rolling.lv2_pos.size = false ∧
    (jack_process_cb float_ops_example jalv_allocated input_rolling 64 8).outcome
      = Outcome.invalid_store ∧
    Call.lilv_instance_run 64 ∉
      (jack_process_cb float_ops_example jalv_allocated input_rolling 64 8).calls ∧
    (jack_process_cb float_ops_example jalv_allocated input_rolling 64 8).jalv.ports.map
        (fun port => port.evbuf.map lv2_evbuf_get_size)
      = [none, none, some 0] := by
  decide

/-- What the claim C16 describes, for buffers with memory.  In a cycle in the
running state in which the transport the audio server reports differs from the
snapshot in rolling, frame or bpm (`xport_changed`) and whose loop "Prepare
port buffers" does not end the cycle (every event port has a buffer, and the
stores of the writes lie within the memory of the buffers), for every event
input port the loop resets the buffer and writes the position object once, as
the first record: the records written are the position object followed by the
records written without a transport change (patch-get request and MIDI input),
and their stores lie within the memory of the buffer.  When the buffer is
large enough for these records, `lv2_evbuf_get` at the begin of the buffer
yields frames 0 and subframes 0 with the type and size of the position object
(modulo `2^16` in a legacy buffer) and its body as payload.  Without a UI the
cycle runs the plugin on the ports so prepared.  The position object is a
well-formed atom. -/
theorem position_event_first (fl : FloatOps) (jalv : Jalv) (inp : CycleInput)
    (nframes fuel : Nat) (p : Nat) (port : Port) (ev : LV2_Evbuf)
    (h : jalv.play_state = JALV_RUNNING)
    (hx : xport_changed fl jalv inp = true)
    (hprep0 : (prepare_ports (transport_updated fl jalv inp nframes) inp
      (xport_changed fl jalv inp) (cycle_start fl jalv inp)).outcome = none)
    (hpos : inp.lv2_pos.type < 4294967296 ∧ inp.lv2_pos.size < 4294967296 ∧
      inp.lv2_pos.body.length = inp.lv2_pos.size)
    (hp : jalv.ports[p]? = some port) (hty : port.type = TYPE_EVENT)
    (hfl : port.flow = FLOW_INPUT) (hev : port.evbuf = some ev)
    (hlarge : stride_total ev.type
      (fan_in_records jalv inp true (state_changed_at jalv.ports jalv.state_changed p) port)
        ≤ ev.capacity)
    (hcap : ev.capacity < 4294967296) :
    ∃ ev' : LV2_Evbuf,
      (prepare_ports (transport_updated fl jalv inp nframes) inp (xport_changed fl jalv inp)
        (cycle_start fl jalv inp)).ports[p]? = some { port with evbuf := some ev' } ∧
      (jalv.has_ui = false →
        (running_before_run fl jalv inp nframes).ports[p]?
          = some { port with evbuf := some ev' } ∧
        (jack_process_cb fl jalv inp nframes fuel).jalv.ports
          = run_plugin inp nframes (running_before_run fl jalv inp nframes).ports ∧
        Call.lilv_instance_run nframes ∈ (jack_process_cb fl jalv inp nframes fuel).calls) ∧
      ev' = (write_all (lv2_evbuf_reset ev) (lv2_evbuf_begin (lv2_evbuf_reset ev))
        (position_record inp ::
          fan_in_records jalv inp false (state_changed_at jalv.ports jalv.state_changed p)
            port)).2.1 ∧
      write_all_in_memory (lv2_evbuf_reset ev) (lv2_evbuf_begin (lv2_evbuf_reset ev))
        (position_record inp ::
          fan_in_records jalv inp false (state_changed_at jalv.ports jalv.state_changed p)
            port) = true ∧
      lv2_evbuf_get ev' (lv2_evbuf_begin ev') =
        { ok := true, frames := 0, subframes := 0
          type := if ev.type = LV2_EVBUF_EVENT then inp.lv2_pos.type % 65536
            else inp.lv2_pos.type
          size := if ev.type = LV2_EVBUF_EVENT then inp.lv2_pos.size % 65536
            else inp.lv2_pos.size
          data := some (record_header ev.type) } ∧
      bytesAt ev'.data (record_header ev.type) inp.lv2_pos.size = inp.lv2_pos.body := by
  have q1 := hprep0
  obtain ⟨q2, _, _, _, _, q6⟩ := prepare_ports_spec (transport_updated fl jalv inp nframes) inp
    (xport_changed fl jalv inp) (cycle_start fl jalv inp) rfl hprep0
  have hfan : fan_in_records jalv inp true (state_changed_at jalv.ports jalv.state_changed p) port
      = position_record inp ::
        fan_in_records jalv inp false (state_changed_at jalv.ports jalv.state_changed p)
          port := by
    simp [fan_in_records, position_record]
  have hprep : (prepare_ports (transport_updated fl jalv inp nframes) inp
      (xport_changed fl jalv inp) (cycle_start fl jalv inp)).ports[p]?
      = some { port with
          evbuf := some (write_all (lv2_evbuf_reset ev) (lv2_evbuf_begin (lv2_evbuf_reset ev))
            (fan_in_records jalv inp true
              (state_changed_at jalv.ports jalv.state_changed p) port)).2.1 } := by
    rw [q2 p, hx]
    show Option.map _ jalv.ports[p]? = _
    rw [hp]
    simp only [Option.map_some', prepared_port, hty, if_true, hev, hfl]
    rfl
  have hmem : write_all_in_memory (lv2_evbuf_reset ev) (lv2_evbuf_begin (lv2_evbuf_reset ev))
      (fan_in_records jalv inp true (state_changed_at jalv.ports jalv.state_changed p) port)
      = true := by
    obtain ⟨ev2, he2, hm2⟩ := q6 p port hp hty
    rw [hev] at he2
    cases he2
    have := hm2 hfl
    rw [hx] at this
    exact this
  obtain ⟨r1, r2, r3⟩ := reset_fields ev
  have hwf : (position_record inp).wf :=
    ⟨by show 0 < 4294967296; decide, by show 0 < 4294967296; decide, hpos.1, hpos.2.1,
      hpos.2.2⟩
  rw [hfan] at hlarge hprep hmem
  obtain ⟨g1, g2, _, _, _⟩ := write_all_first (lv2_evbuf_reset ev)
    (lv2_evbuf_begin (lv2_evbuf_reset ev)) _
    (fan_in_records jalv inp false (state_changed_at jalv.ports jalv.state_changed p) port)
    (by rw [r3.1]; rfl) (by rw [r3.1, r1, r2]; omega) (by rw [r2]; exact hcap) hwf
  refine ⟨_, hprep, ?_, rfl, hmem, ?_, ?_⟩
  · intro hui
    have hbr : running_before_run fl jalv inp nframes
        = prepare_ports (transport_updated fl jalv inp nframes) inp
            (xport_changed fl jalv inp) (cycle_start fl jalv inp) := by
      unfold running_before_run before_run
      simp only [q1]
      have : (transport_updated fl jalv inp nframes).has_ui = false := hui
      simp [this]
    have hrun : (running_before_run fl jalv inp nframes).outcome = none := by
      rw [hbr]; exact q1
    obtain ⟨e1, e2⟩ := running_cycle_ports fl jalv inp nframes fuel h hrun
    refine ⟨?_, e1, e2⟩
    rw [hbr]
    exact hprep
  · rw [r1] at g1
    simpa [lv2_evbuf_begin] using g1
  · rw [r1] at g2
    simpa [lv2_evbuf_begin] using g2

/-- The host of `jalv_example`, whose event input port 2 has a buffer with
memory, when the transport starts rolling: the cycle returns and the buffer of
port 2 begins with the position object. -/
theorem position_event_first_example :
    xport_changed float_ops_example (jalv_example JALV_RUNNING) input_rolling = true ∧
    (jack_process_cb float_ops_example (jalv_example JALV_RUNNING) input_rolling 64 8).outcome
      = Outcome.returned 0 ∧
    ∃ ev' : LV2_Evbuf,
      lv2_evbuf_get ev' (lv2_evbuf_begin ev') =
        { ok := true, frames := 0, subframes := 0, type := 10, size := 4, data := some 16 } ∧
      bytesAt ev'.data 16 4 = [1, 2, 3, 4] :=
  ⟨by decide, by decide,
   (position_event_first float_ops_example (jalv_example JALV_RUNNING) input_rolling 64 8 2
      _ (evbuf_with_memory 64 LV2_EVBUF_ATOM) rfl (by decide) (by decide)
      (by decide) rfl rfl rfl rfl (by decide) (by decide)).imp
     (fun _ h => ⟨h.2.2.2.2.1, h.2.2.2.2.2⟩)⟩

/-! ## C28: the capacity invariant for capacities that are multiples of 8 -/

/-- One write keeps the invariant: with a capacity that is a multiple of 8, a
used-size that is a multiple of 8 and at most the capacity stays so, and an
iterator at the used-size stays at the used-size. -/
theorem write_capacity_inv (ev : LV2_Evbuf) (it : LV2_Evbuf_Iterator)
    (frames subframes type size : Nat) (data : List Byte)
    (hcap8 : ev.capacity % 8 = 0) (hcap : ev.capacity < 4294967296)
    (h8 : ev.size % 8 = 0) (hle : ev.size ≤ ev.capacity) (ho : it.offset = ev.size) :
    (lv2_evbuf_write ev it frames subframes type size data).2.1.capacity = ev.capacity ∧
    (lv2_evbuf_write ev it frames subframes type size data).2.1.size % 8 = 0 ∧
    (lv2_evbuf_write ev it frames subframes type size data).2.1.size ≤ ev.capacity ∧
    (lv2_evbuf_write ev it frames subframes type size data).2.2.offset
      = (lv2_evbuf_write ev it frames subframes type size data).2.1.size := by
  unfold lv2_evbuf_write
  cases hty : ev.type
  · dsimp only
    split
    · exact ⟨rfl, h8, hle, ho⟩
    · rename_i hg
      have hu : u32 (ev.capacity + 4294967296 - ev.size) = ev.capacity - ev.size := by
        unfold u32; omega
      rw [hu] at hg
      have hb := pad_bounds (sizeof_LV2_Event + size)
      have hp : lv2_evbuf_pad_size (sizeof_LV2_Event + size) = pad (sizeof_LV2_Event + size) :=
        pad_eq_pad _ (by omega)
      dsimp only
      rw [hp, ho]
      refine ⟨rfl, ?_, ?_, rfl⟩
      · unfold u32; omega
      · unfold u32; omega
  · dsimp only
    split
    · exact ⟨rfl, h8, hle, ho⟩
    · rename_i hg
      have hu : u32 (ev.capacity + 4294967296 - ev.size) = ev.capacity - ev.size := by
        unfold u32; omega
      rw [hu] at hg
      have hb := pad_bounds (sizeof_LV2_Atom_Event + size)
      have hp : lv2_atom_pad_size (sizeof_LV2_Atom_Event + size)
          = pad (sizeof_LV2_Atom_Event + size) := atom_pad_eq_pad _ (by omega)
      dsimp only
      rw [hp, ho]
      refine ⟨rfl, ?_, ?_, rfl⟩
      · unfold u32; omega
      · unfold u32; omega

/-- Consecutive writes keep the invariant. -/
theorem write_all_capacity_inv (recs : List Record) :
    ∀ (ev : LV2_Evbuf) (it : LV2_Evbuf_Iterator), ev.capacity % 8 = 0 →
      ev.capacity < 4294967296 → ev.size % 8 = 0 → ev.size ≤ ev.capacity →
      it.offset = ev.size →
      (write_all ev it recs).2.1.capacity = ev.capacity ∧
      (write_all ev it recs).2.1.size % 8 = 0 ∧
      (write_all ev it recs).2.1.size ≤ ev.capacity ∧
      (write_all ev it recs).2.2.offset = (write_all ev it recs).2.1.size := by
  induction recs with
  | nil => intro ev it _ _ h8 hle ho; exact ⟨rfl, h8, hle, ho⟩
  | cons r rs ih =>
    intro ev it hcap8 hcap h8 hle ho
    rw [write_all_cons]
    obtain ⟨a1, a2, a3, a4⟩ := write_capacity_inv ev it r.frames r.subframes r.type r.size
      r.data hcap8 hcap h8 hle ho
    obtain ⟨b1, b2, b3, b4⟩ := ih _ _ (by rw [a1]; exact hcap8) (by rw [a1]; exact hcap) a2
      (by rw [a1]; exact a3) a4
    exact ⟨b1.trans a1, b2, by rw [a1] at b3; exact b3, b4⟩

/-- With a capacity that is a multiple of 8 and memory for `capacity` bytes
behind the pointer `data`, the stores of consecutive writes through an iterator
at the used-size lie within the memory of the buffer. -/
theorem write_all_in_memory_of_capacity (recs : List Record) :
    ∀ (ev : LV2_Evbuf) (it : LV2_Evbuf_Iterator), ev.capacity % 8 = 0 →
      ev.capacity < 4294967296 → ev.size % 8 = 0 → ev.size ≤ ev.capacity →
      it.offset = ev.size → ev.capacity ≤ ev.data_size →
      write_all_in_memory ev it recs = true := by
  induction recs with
  | nil => intro ev it _ _ _ _ _ _; rfl
  | cons r rs ih =>
    intro ev it hcap8 hcap h8 hle ho hmem
    obtain ⟨a1, a2, a3, a4⟩ := write_capacity_inv ev it r.frames r.subframes r.type r.size
      r.data hcap8 hcap h8 hle ho
    have hd := (write_data_size ev it r.frames r.subframes r.type r.size r.data).1
    have hrest := ih _ _ (by rw [a1]; exact hcap8) (by rw [a1]; exact hcap) a2
      (by rw [a1]; exact a3) a4 (by rw [a1, hd]; exact hmem)
    have hfirst : write_in_memory ev it r.size = true := by
      have hu : u32 (ev.capacity + 4294967296 - ev.size) = ev.capacity - ev.size := by
        unfold u32; omega
      unfold write_in_memory
      rw [hu, ho]
      cases hty : ev.type <;> dsimp only <;> split <;> simp <;> omega
    show (write_in_memory ev it r.size && write_all_in_memory _ _ rs) = true
    rw [hfirst, hrest]
    rfl

/-- C28 fails in the program: no call is followed by the state the claim
describes.  A freshly reset legacy buffer of capacity 16 and a freshly reset
atom buffer of capacity 24, both as `lv2_evbuf_new` returns them, have
capacities that are multiples of 8 and no memory behind the pointer `data`.
The first `lv2_evbuf_write` call, with a payload of 4 bytes, passes the
capacity check in either and stores the record outside the memory of the
buffer (undefined behaviour in C). -/
theorem first_write_outside_memory :
    (lv2_evbuf_reset (lv2_evbuf_new 16 LV2_EVBUF_EVENT raw_zero)).capacity % 8 = 0 ∧
    (lv2_evbuf_reset (lv2_evbuf_new 16 LV2_EVBUF_EVENT raw_zero)).data_size = 0 ∧
    (lv2_evbuf_write (lv2_evbuf_reset (lv2_evbuf_new 16 LV2_EVBUF_EVENT raw_zero))
      (lv2_evbuf_begin (lv2_evbuf_reset (lv2_evbuf_new 16 LV2_EVBUF_EVENT raw_zero)))
      1 2 3 4 [5, 6, 7, 8]).1 = true ∧
    write_in_memory (lv2_evbuf_reset (lv2_evbuf_new 16 LV2_EVBUF_EVENT raw_zero))
      (lv2_evbuf_begin (lv2_evbuf_reset (lv2_evbuf_new 16 LV2_EVBUF_EVENT raw_zero))) 4
      = false ∧
    (lv2_evbuf_reset (lv2_evbuf_new 24 LV2_EVBUF_ATOM raw_zero)).capacity % 8 = 0 ∧
    (lv2_evbuf_reset (lv2_evbuf_new 24 LV2_EVBUF_ATOM raw_zero)).data_size = 0 ∧
    (lv2_evbuf_write (lv2_evbuf_reset (lv2_evbuf_new 24 LV2_EVBUF_ATOM raw_zero))
      (lv2_evbuf_begin (lv2_evbuf_reset (lv2_evbuf_new 24 LV2_EVBUF_ATOM raw_zero)))
      1 2 3 4 [5, 6, 7, 8]).1 = true ∧
    write_in_memory (lv2_evbuf_reset (lv2_evbuf_new 24 LV2_EVBUF_ATOM raw_zero))
      (lv2_evbuf_begin (lv2_evbuf_reset (lv2_evbuf_new 24 LV2_EVBUF_ATOM raw_zero))) 4
      = false := by
  decide

/-- What the claim C28 describes, for a buffer with memory.  For both variants,
when the capacity (a `uint32_t`) is a multiple of 8 and the pointer `data`
refers to at least `capacity` bytes of memory, a freshly reset buffer written
through one iterator from `lv2_evbuf_begin` has, after each of the calls (the
first `k` calls of any sequence, failed calls included), a used-size that is a
multiple of 8, is at most the capacity, and equals the offset of the iterator;
the stores of the calls lie within the memory of the buffer. -/
theorem capacity_invariant (evbuf : LV2_Evbuf) (recs : List Record) (k : Nat)
    (hcap8 : evbuf.capacity % 8 = 0) (hcap : evbuf.capacity < 4294967296)
    (hmem : evbuf.capacity ≤ evbuf.data_size) :
    write_all_in_memory (lv2_evbuf_reset evbuf) (lv2_evbuf_begin (lv2_evbuf_reset evbuf))
      (recs.take k) = true ∧
    lv2_evbuf_get_size
      (write_all (lv2_evbuf_reset evbuf) (lv2_evbuf_begin (lv2_evbuf_reset evbuf))
        (recs.take k)).2.1 % 8 = 0 ∧
    lv2_evbuf_get_size
      (write_all (lv2_evbuf_reset evbuf) (lv2_evbuf_begin (lv2_evbuf_reset evbuf))
        (recs.take k)).2.1 ≤ evbuf.capacity ∧
    (write_all (lv2_evbuf_reset evbuf) (lv2_evbuf_begin (lv2_evbuf_reset evbuf))
        (recs.take k)).2.2.offset =
      lv2_evbuf_get_size
        (write_all (lv2_evbuf_reset evbuf) (lv2_evbuf_begin (lv2_evbuf_reset evbuf))
          (recs.take k)).2.1 := by
  obtain ⟨r1, r2, r3, _⟩ := reset_fields evbuf
  have hds : (lv2_evbuf_reset evbuf).data_size = evbuf.data_size := by
    unfold lv2_evbuf_reset
    split <;> rfl
  have hs : ∀ e : LV2_Evbuf, lv2_evbuf_get_size e = e.size := by
    intro e; unfold lv2_evbuf_get_size; cases e.type <;> rfl
  obtain ⟨_, b2, b3, b4⟩ := write_all_capacity_inv (recs.take k) (lv2_evbuf_reset evbuf)
    (lv2_evbuf_begin (lv2_evbuf_reset evbuf)) (by rw [r2]; exact hcap8) (by rw [r2]; exact hcap)
    (by rw [r3]) (by rw [r3]; exact Nat.zero_le _) (by rw [r3]; rfl)
  have hm := write_all_in_memory_of_capacity (recs.take k) (lv2_evbuf_reset evbuf)
    (lv2_evbuf_begin (lv2_evbuf_reset evbuf)) (by rw [r2]; exact hcap8) (by rw [r2]; exact hcap)
    (by rw [r3]) (by rw [r3]; exact Nat.zero_le _) (by rw [r3]; rfl)
    (by rw [r2, hds]; exact hmem)
  rw [hs]
  rw [r2] at b3
  exact ⟨hm, b2, b3, b4⟩

/-- The invariant at a legacy buffer of capacity 16 with 16 bytes of memory and
two records of which the second does not fit: the stores lie within the memory
and the used-size after both calls is at most 16. -/
theorem capacity_invariant_example :
    (evbuf_with_memory 16 LV2_EVBUF_EVENT).capacity % 8 = 0 ∧
    write_all_in_memory (lv2_evbuf_reset (evbuf_with_memory 16 LV2_EVBUF_EVENT))
      (lv2_evbuf_begin (lv2_evbuf_reset (evbuf_with_memory 16 LV2_EVBUF_EVENT)))
      (legacy_records.take 2) = true ∧
    lv2_evbuf_get_size
      (write_all (lv2_evbuf_reset (evbuf_with_memory 16 LV2_EVBUF_EVENT))
        (lv2_evbuf_begin (lv2_evbuf_reset (evbuf_with_memory 16 LV2_EVBUF_EVENT)))
        (legacy_records.take 2)).2.1 ≤ (evbuf_with_memory 16 LV2_EVBUF_EVENT).capacity :=
  ⟨by decide,
   (capacity_invariant (evbuf_with_memory 16 LV2_EVBUF_EVENT) legacy_records 2
      (by decide) (by decide) (by decide)).1,
   (capacity_invariant (evbuf_with_memory 16 LV2_EVBUF_EVENT) legacy_records 2
      (by decide) (by decide) (by decide)).2.2.1⟩

/-! ## C27: the loop over an event output buffer -/

/-- C26, counterexample: a port that declares the minimum size `2^28` has
`m > b / 16` for the UI-buffer size 4096, and `create_port` leaves the
UI-buffer size 0, which is neither `16 * m` nor at least the size before; a
port that declares the minimum size `-1` has `m ≤ b / 16`, and `create_port`
leaves the UI-buffer size `2^32 - 16` instead of 4096. -/
theorem ui_buffer_size_counterexample :
    (268435456 : Int) > ((4096 / 16 : Nat) : Int) ∧
    (create_port setup_example port_zero (port_data_sized 268435456) 0 0 false).map
      (fun r => r.1.buffer_size) = some 0 ∧
    ¬ ((-1 : Int) > ((4096 / 16 : Nat) : Int)) ∧
    (create_port setup_example port_zero (port_data_sized (-1)) 0 0 false).map
      (fun r => r.1.buffer_size) = some 4294967280 := by
  refine ⟨by decide, by decide, by decide, by decide⟩

/-- The host fields and the port `create_port` leaves when it returns and the
port declares the minimum size `m`. -/
theorem create_port_sized (setup : PortSetup) (raw : Port) (data : PortData)
    (port_index default_value : Nat) (default_is_nan : Bool) (m : Int)
    (hm : data.minimum_size = some m) (r : PortSetup × Port)
    (hr : create_port setup raw data port_index default_value default_is_nan = some r) :
    r.1.buffer_size =
      u32 (if setup.buffer_size > usize (int_to_usize m * N_BUFFER_CYCLES)
           then setup.buffer_size else usize (int_to_usize m * N_BUFFER_CYCLES)) ∧
    r.2.buf_size = int_to_usize m := by
  unfold create_port at hr
  simp only [hm] at hr
  split at hr
  · exact absurd hr (by simp)
  · split at hr
    · exact absurd hr (by simp)
    · simp only [Option.some.injEq] at hr
      subst hr
      exact ⟨rfl, rfl⟩

/-- C26, amended: for a UI-buffer size `b` below `2^32` and a port that
declares an integer minimum buffer size `m` with `0 ≤ m` and `16 * m < 2^32`,
the UI-buffer size after `create_port` is `16 * m` if `m > b / 16` and `b`
otherwise; it is at least `b` and at least `16 * m`, and the port records `m`
as its buffer size. -/
theorem ui_buffer_size (setup : PortSetup) (raw : Port) (data : PortData)
    (port_index default_value : Nat) (default_is_nan : Bool) (m : Nat)
    (hm : data.minimum_size = some (m : Int)) (hfit : 16 * m < 4294967296)
    (hb : setup.buffer_size < 4294967296) (r : PortSetup × Port)
    (hr : create_port setup raw data port_index default_value default_is_nan = some r) :
    r.1.buffer_size = (if m > setup.buffer_size / 16 then m * 16 else setup.buffer_size) ∧
    setup.buffer_size ≤ r.1.buffer_size ∧ 16 * m ≤ r.1.buffer_size ∧ r.2.buf_size = m := by
  obtain ⟨h1, h2⟩ := create_port_sized setup raw data port_index default_value default_is_nan
    (m : Int) hm r hr
  have hu : int_to_usize (m : Int) = m := by
    unfold int_to_usize
    have : ((m : Int) % 18446744073709551616) = ((m % 18446744073709551616 : Nat) : Int) := by
      norm_cast
    rw [this, Int.toNat_ofNat]
    exact Nat.mod_eq_of_lt (by omega)
  rw [hu] at h1 h2
  have hw : usize (m * N_BUFFER_CYCLES) = m * 16 := by
    unfold usize N_BUFFER_CYCLES
    exact Nat.mod_eq_of_lt (by omega)
  rw [hw] at h1
  have hmod : ∀ x, x < 4294967296 → u32 x = x := fun x hx => Nat.mod_eq_of_lt hx
  refine ⟨?_, ?_, ?_, h2⟩
  · rw [h1]
    split <;> split <;> first | (rw [hmod _ (by omega)]; omega) | rw [hmod _ (by omega)]
  · rw [h1]
    split <;> first | (rw [hmod _ (by omega)]; omega) | rw [hmod _ (by omega)]
  · rw [h1]
    split <;> (rw [hmod _ (by omega)]; omega)

/-- C26, witness: a UI-buffer size of 4096 and a port that declares the
minimum size 1024. -/
theorem ui_buffer_size_witness :
    create_port setup_example port_zero (port_data_sized 1024) 0 0 false =
      some ({ buffer_size := 16384, longest_sym := 2 },
        { port_zero with type := TYPE_EVENT, flow := FLOW_INPUT, buf_size := 1024 }) ∧
    (16384 = (if 1024 > setup_example.buffer_size / 16 then 1024 * 16
      else setup_example.buffer_size) ∧
     setup_example.buffer_size ≤ 16384 ∧ 16 * 1024 ≤ 16384 ∧ 1024 = 1024) :=
  ⟨rfl,
   ui_buffer_size setup_example port_zero (port_data_sized 1024) 0 0 false 1024 rfl
     (by decide) (by decide)
     ({ buffer_size := 16384, longest_sym := 2 },
      { port_zero with type := TYPE_EVENT, flow := FLOW_INPUT, buf_size := 1024 }) rfl⟩

/-! ## C24: port classification -/

/-- Replacing a port by one of the same kind, flow and index leaves the kinds,
flows and indices of the array. -/
theorem set_identity (ports : List Port) (p : Nat) (port port' : Port)
    (hp : ports[p]? = some port) (h : port_identity port' = port_identity port) :
    (ports.set p port').map port_identity = ports.map port_identity := by
  rw [List.map_set]
  exact set_same _ _ _ (by rw [List.getElem?_map, hp, h]; rfl)

/-- The body of "Prepare port buffers" leaves kind, flow and index of every
port. -/
theorem prepare_port_identity (jalv : Jalv) (inp : CycleInput) (x : Bool) (p : Nat)
    (c : Cycle) :
    (prepare_port jalv inp x p c).ports.map port_identity = c.ports.map port_identity := by
  unfold prepare_port
  cases hp : c.ports[p]? with
  | none => rfl
  | some port =>
    dsimp only
    repeat' split
    all_goals first
      | rfl
      | exact set_identity _ _ _ _ hp rfl

/-- The UI ring loop leaves kind, flow and index of every port. -/
theorem drain_ui_identity (jalv : Jalv) (nframes space : Nat) :
    ∀ (fuel i : Nat) (ev : List Byte) (c : Cycle),
      (drain_ui jalv nframes space fuel i ev c).ports.map port_identity
        = c.ports.map port_identity := by
  intro fuel
  induction fuel with
  | zero => intro i ev c; rfl
  | succ n ih =>
    intro i ev c
    unfold drain_ui
    dsimp only
    repeat' split
    all_goals first
      | rfl
      | (rw [ih]; done)
      | (rw [ih]; show List.map port_identity (List.set c.ports _ _) = _; apply set_identity; assumption; rfl)

/-- A map over the numbered ports that keeps kind, flow and index of each. -/
theorem enum_map_identity (f : Nat × Port → Port)
    (hf : ∀ ip, port_identity (f ip) = port_identity ip.2) (l : List Port) :
    (l.enum.map f).map port_identity = l.map port_identity := by
  rw [List.map_map]
  have : port_identity ∘ f = port_identity ∘ Prod.snd := funext hf
  rw [this, ← List.map_map, List.enum_map_snd]

/-- The call of `lilv_instance_run` leaves kind, flow and index of every port. -/
theorem run_plugin_identity (inp : CycleInput) (nframes : Nat) (ports : List Port) :
    (run_plugin inp nframes ports).map port_identity = ports.map port_identity := by
  unfold run_plugin
  apply enum_map_identity
  intro ip
  dsimp only
  repeat' split
  all_goals rfl

/-- The cycle from "Prepare port buffers" on leaves kind, flow and index of
every port. -/
theorem run_cycle_identity (fl : FloatOps) (jalv : Jalv) (inp : CycleInput) (nframes : Nat)
    (x : Bool) (fuel : Nat) (c0 : Cycle) :
    (run_cycle fl jalv inp nframes x fuel c0).ports.map port_identity
      = c0.ports.map port_identity := by
  have hprep : (prepare_ports jalv inp x c0).ports.map port_identity
      = c0.ports.map port_identity := by
    unfold prepare_ports
    exact for_ports_inv (fun c => c.ports.map port_identity = c0.ports.map port_identity) _
      (fun p c hc => (prepare_port_identity jalv inp x p c).trans hc) _ c0 rfl
  have hbefore : (before_run jalv inp nframes x c0).ports.map port_identity
      = c0.ports.map port_identity := by
    unfold before_run
    dsimp only
    repeat' split
    all_goals first
      | exact hprep
      | (rw [drain_ui_identity]; exact hprep)
  rw [run_cycle_eq]
  split
  · exact hbefore
  · rw [after_run_ports, run_plugin_identity]
    exact hbefore

/-- One execution of `jack_process_cb` leaves kind, flow and index of every
port. -/
theorem process_identity (fl : FloatOps) (jalv : Jalv) (inp : CycleInput) (nframes fuel : Nat) :
    (jack_process_cb fl jalv inp nframes fuel).jalv.ports.map port_identity
      = jalv.ports.map port_identity := by
  cases h : jalv.play_state with
  | JALV_RUNNING =>
    rw [running_cycle_eq fl jalv inp nframes fuel h]
    exact run_cycle_identity _ _ _ _ _ _ _
  | JALV_PAUSE_REQUESTED =>
    rw [pause_requested_cycle_eq fl jalv inp nframes fuel h]
    exact run_cycle_identity _ _ _ _ _ _ _
  | JALV_PAUSED =>
    rw [paused_cycle_eq fl jalv inp nframes fuel h]
    rfl

/-- When `create_port` ends the program. -/
theorem create_port_dies (setup : PortSetup) (raw : Port) (data : PortData)
    (port_index default_value : Nat) (default_is_nan : Bool) :
    create_port setup raw data port_index default_value default_is_nan = none ↔
      (data.connection_optional = false ∧
        ((data.is_input = false ∧ data.is_output = false) ∨
         (data.is_control = false ∧ data.is_audio = false ∧ data.is_event = false ∧
          data.is_atom = false))) := by
  unfold create_port
  cases data.connection_optional <;> cases data.is_input <;> cases data.is_output <;>
    cases data.is_control <;> cases data.is_audio <;> cases data.is_event <;>
    cases data.is_atom <;> simp

/-- The port `create_port` leaves for a port that is not connection-optional. -/
theorem create_port_known (setup : PortSetup) (raw : Port) (data : PortData)
    (port_index default_value : Nat) (default_is_nan : Bool) (r : PortSetup × Port)
    (hr : create_port setup raw data port_index default_value default_is_nan = some r)
    (hopt : data.connection_optional = false) :
    (r.2.flow = FLOW_INPUT ∨ r.2.flow = FLOW_OUTPUT) ∧
    (r.2.type = TYPE_CONTROL ∨ r.2.type = TYPE_AUDIO ∨ r.2.type = TYPE_EVENT) ∧
    r.2.index = port_index := by
  obtain ⟨o, i1, i2, k1, k2, k3, k4, ms, sl, sm⟩ := data
  simp only at hopt
  subst hopt
  unfold create_port at hr
  revert hr
  cases i1 <;> cases i2 <;> cases k1 <;> cases k2 <;> cases k3 <;> cases k4 <;> cases ms <;>
    simp <;> intro hr <;> subst hr <;> simp

/-- C24: `create_port` ends the program exactly if the port is not
connection-optional and either it is neither an input nor an output or it is of
none of the kinds control, audio, event and atom; a port that is not
connection-optional and for which `create_port` returns has the flow input or
output, one of the kinds control, audio and event, and the index given.
`activate_port` on a port whose flow or kind is unknown connects the port to
`NULL`, makes no other call and leaves the port as it is, so no audio-server
port is registered for it.  One execution of `jack_process_cb` leaves the kind,
the flow and the index of every port. -/
theorem port_classification (setup : PortSetup) (raw : Port) (data : PortData)
    (port_index default_value : Nat) (default_is_nan : Bool) (port : Port)
    (registered : Option Nat) (have_jack_metadata : Bool)
    (fl : FloatOps) (jalv : Jalv) (inp : CycleInput) (nframes fuel : Nat) :
    (data.connection_optional = false →
      ((data.is_input = false ∧ data.is_output = false) ∨
       (data.is_control = false ∧ data.is_audio = false ∧ data.is_event = false ∧
        data.is_atom = false)) →
      create_port setup raw data port_index default_value default_is_nan = none) ∧
    (create_port setup raw data port_index default_value default_is_nan = none →
      data.connection_optional = false ∧
      ((data.is_input = false ∧ data.is_output = false) ∨
       (data.is_control = false ∧ data.is_audio = false ∧ data.is_event = false ∧
        data.is_atom = false))) ∧
    (∀ r, create_port setup raw data port_index default_value default_is_nan = some r →
      data.connection_optional = false →
      (r.2.flow = FLOW_INPUT ∨ r.2.flow = FLOW_OUTPUT) ∧
      (r.2.type = TYPE_CONTROL ∨ r.2.type = TYPE_AUDIO ∨ r.2.type = TYPE_EVENT) ∧
      r.2.index = port_index) ∧
    (port.flow = FLOW_UNKNOWN ∨ port.type = TYPE_UNKNOWN →
      activate_port port data port_index registered have_jack_metadata =
        (port, [SetupCall.lilv_instance_connect_port_null port_index])) ∧
    (jack_process_cb fl jalv inp nframes fuel).jalv.ports.map port_identity
      = jalv.ports.map port_identity ∧
    (jack_process_cb fl jalv inp nframes fuel).jalv.ports.length = jalv.ports.length := by
  refine ⟨fun h1 h2 => (create_port_dies _ _ _ _ _ _).mpr ⟨h1, h2⟩,
    fun h => (create_port_dies _ _ _ _ _ _).mp h,
    fun r hr hopt => create_port_known _ _ _ _ _ _ r hr hopt, ?_,
    process_identity _ _ _ _ _, ?_⟩
  · intro h
    unfold activate_port
    rw [if_pos h]
  · have := congrArg List.length (process_identity fl jalv inp nframes fuel)
    simpa using this

/-- C24, witness: a mandatory port of no recognised kind ends the program, a
mandatory atom input port becomes an event input port, and `activate_port` on
an array entry of unknown flow and kind connects it to `NULL`. -/
theorem port_classification_witness :
    create_port setup_example port_zero (port_data_unknown false) 3 0 false = none ∧
    (create_port setup_example port_zero (port_data_sized 1024) 3 0 false).map
      (fun r => (r.2.flow, r.2.type, r.2.index)) = some (FLOW_INPUT, TYPE_EVENT, 3) ∧
    activate_port port_zero (port_data_unknown true) 3 (some 5) true =
      (port_zero, [SetupCall.lilv_instance_connect_port_null 3]) :=
  ⟨(port_classification setup_example port_zero (port_data_unknown false) 3 0 false port_zero
      (some 5) true float_ops_example (jalv_example JALV_RUNNING) input_example 64 8).1 rfl
      (Or.inr ⟨rfl, rfl, rfl, rfl⟩),
   by decide,
   (port_classification setup_example port_zero (port_data_unknown true) 3 0 false port_zero
      (some 5) true float_ops_example (jalv_example JALV_RUNNING) input_example 64 8).2.2.2.1
      (Or.inl rfl)⟩

/-! ## C25: symbol map round trip -/

/-- The string of the ID `symap_map` returns, in the map it leaves. -/
theorem symap_round_trip (map : Symap) (uri : String) :
    symap_unmap (symap_map map uri).2 (symap_map map uri).1 = some uri := by
  unfold symap_map symap_unmap
  split
  · rename_i h
    simp only [Nat.add_one_ne_zero, if_false, Nat.add_sub_cancel]
    rw [List.getElem?_eq_getElem (List.indexOf_lt_length.mpr h)]
    simp
  · simp

/-- C25: when the lock of the symbol map is free, `map_uri` returns an ID for
every string, and `unmap_uri` called next with that ID returns the string; both
calls leave the lock free. -/
theorem symbol_round_trip (jalv : JalvSymap) (s : String) (hfree : 0 < jalv.symap_lock) :
    ∃ (id : Nat) (jalv1 jalv2 : JalvSymap),
      map_uri jalv s = some (id, jalv1) ∧
      unmap_uri jalv1 id = some (some s, jalv2) ∧
      1 ≤ id ∧ jalv1.symap_lock = jalv.symap_lock ∧ jalv2.symap_lock = jalv.symap_lock ∧
      jalv2.symap = jalv1.symap := by
  have hw : zix_sem_wait jalv.symap_lock = some (jalv.symap_lock - 1) := by
    unfold zix_sem_wait
    rw [if_neg (by omega)]
  have hp : zix_sem_post (jalv.symap_lock - 1) = jalv.symap_lock := by
    unfold zix_sem_post
    omega
  refine ⟨(symap_map jalv.symap s).1,
    { symap := (symap_map jalv.symap s).2, symap_lock := jalv.symap_lock },
    { symap := (symap_map jalv.symap s).2, symap_lock := jalv.symap_lock }, ?_, ?_, ?_, rfl, rfl, rfl⟩
  · unfold map_uri
    rw [hw]
    simp only [hp]
  · unfold unmap_uri
    simp only [hw, hp, symap_round_trip]
  · unfold symap_map
    split <;> simp

/-- C25, witness: a string the map does not hold yet gets the ID 3 and is
returned for it. -/
theorem symbol_round_trip_witness :
    0 < symap_example.symap_lock ∧
    ∃ (id : Nat) (jalv1 jalv2 : JalvSymap),
      map_uri symap_example "urn:x" = some (id, jalv1) ∧
      unmap_uri jalv1 id = some (some "urn:x", jalv2) ∧
      1 ≤ id ∧ jalv1.symap_lock = symap_example.symap_lock ∧
      jalv2.symap_lock = symap_example.symap_lock ∧ jalv2.symap = jalv1.symap :=
  ⟨by decide, symbol_round_trip symap_example "urn:x" (by decide)⟩

/-! ## C29: what `jalv_ui_write` puts into the ring -/

/-- A call of `jalv_ui_write` with a protocol that is neither 0 nor
event-transfer, or with a port index that is not below `num_ports`, leaves the
host state as it is. -/
theorem ui_write_rejected (jalv : Jalv) (port_index buffer_size protocol : Nat)
    (buffer : List Byte)
    (h : (protocol ≠ 0 ∧ protocol ≠ jalv.urids.atom_eventTransfer) ∨
      port_index ≥ jalv.num_ports) :
    (jalv_ui_write jalv port_index buffer_size protocol buffer).1 = jalv := by
  unfold jalv_ui_write
  split
  · rfl
  · split
    · rfl
    · rename_i h1 h2
      rcases h with h | h
      · exact absurd h h1
      · exact absurd h h2

/-- The bytes `jalv_ui_write` copies from a buffer of `buffer_size` bytes. -/
theorem payload_eq (buffer : List Byte) :
    (List.range buffer.length).map (fun j => buffer.getD j 0) = buffer := by
  apply List.ext_getElem
  · simp
  · intro i h1 h2
    simp [List.getD_eq_getElem?_getD, List.getElem?_eq_getElem h2]

/-- A call of `jalv_ui_write` with protocol 0 or event-transfer and a port index
below `num_ports`, when the ring has room for the record, appends the record:
the header `(port_index, protocol, buffer_size)` and the payload. -/
theorem ui_write_whole (jalv : Jalv) (port_index protocol : Nat) (buffer : List Byte)
    (hproto : protocol = 0 ∨ protocol = jalv.urids.atom_eventTransfer)
    (hport : port_index < jalv.num_ports)
    (hroom : 12 + buffer.length ≤ jack_ringbuffer_write_space jalv.ui_events) :
    (jalv_ui_write jalv port_index buffer.length protocol buffer).1.ui_events.content
      = jalv.ui_events.content
        ++ (ControlChange.mk port_index protocol buffer.length buffer).bytes := by
  unfold jalv_ui_write
  rw [if_neg (by intro h; rcases hproto with h0 | h1; exact h.1 h0; exact h.2 h1),
    if_neg (by omega)]
  unfold jack_ringbuffer_write ControlChange.bytes
  dsimp only
  rw [Nat.min_eq_left hroom, payload_eq]
  congr 1
  apply List.take_of_length_le
  have hh := header_length port_index protocol buffer.length
  rw [List.length_append, hh]

/-- C29: `jalv_ui_write` writes a part of a record.  The ring from the UI is
empty and has the capacity 64; `jalv_ui_write` with the port index 2, the
protocol event-transfer and a payload of 60 bytes stores the first 64 of the 72
bytes of the record, the header and 52 bytes of the payload.  The next process
cycle reads the header, finds only 52 of the 60 bytes announced and reports an
error reading from the ring. -/
theorem ui_write_partial_record :
    (2 : Nat) < (jalv_with_ui []).num_ports ∧
    (jalv_with_ui []).urids.atom_eventTransfer = 11 ∧
    long_payload.length = 60 ∧
    jack_ringbuffer_write_space (jalv_with_ui []).ui_events = 64 ∧
    (jalv_ui_write (jalv_with_ui []) 2 60 11 long_payload).1.ui_events.content
      = le32 2 ++ le32 11 ++ le32 60 ++ long_payload.take 52 ∧
    (jalv_ui_write (jalv_with_ui []) 2 60 11 long_payload).1.ui_events.content
      ≠ (ControlChange.mk 2 11 60 long_payload).bytes ∧
    Call.fprintf_stderr LogMsg.ui_ring_read_error ∈
      (jack_process_cb float_ops_example
        (jalv_ui_write (jalv_with_ui []) 2 60 11 long_payload).1 input_example 64 8).calls := by
  decide

/-! ## C30: steady transport -/

/-- The transport state one execution of `jack_process_cb` leaves, in every
play state. -/
theorem cycle_snapshot (fl : FloatOps) (jalv : Jalv) (inp : CycleInput) (nframes fuel : Nat) :
    (jack_process_cb fl jalv inp nframes fuel).jalv.rolling = inp.rolling ∧
    (jack_process_cb fl jalv inp nframes fuel).jalv.position
      = (if inp.rolling then u32 (inp.pos_frame + nframes) else inp.pos_frame) ∧
    (jack_process_cb fl jalv inp nframes fuel).jalv.bpm
      = fl.f64_to_f32 inp.pos_beats_per_minute := by
  cases h : jalv.play_state with
  | JALV_RUNNING =>
    rw [running_cycle_eq fl jalv inp nframes fuel h]
    exact ⟨rfl, rfl, rfl⟩
  | JALV_PAUSE_REQUESTED =>
    rw [pause_requested_cycle_eq fl jalv inp nframes fuel h]
    exact ⟨rfl, rfl, rfl⟩
  | JALV_PAUSED =>
    rw [paused_cycle_eq fl jalv inp nframes fuel h]
    exact ⟨rfl, rfl, rfl⟩

/-- For a tempo that compares equal to the float it is stored as, a steady
transport is not a change: after a cycle of `nframes` frames, a cycle for which
the audio server reports the same tempo and either a rolling transport
`nframes` frames on or a stopped transport at the same frame finds the
transport unchanged. -/
theorem steady_transport_unchanged (fl : FloatOps) (jalv : Jalv) (inp1 inp2 : CycleInput)
    (nframes fuel : Nat)
    (hroll : inp2.rolling = inp1.rolling)
    (hframe : inp2.pos_frame
      = (if inp1.rolling then u32 (inp1.pos_frame + nframes) else inp1.pos_frame))
    (hbpm : inp2.pos_beats_per_minute = inp1.pos_beats_per_minute)
    (hfloat : fl.f64_ne_f32 inp1.pos_beats_per_minute
      (fl.f64_to_f32 inp1.pos_beats_per_minute) = false) :
    xport_changed fl (jack_process_cb fl jalv inp1 nframes fuel).jalv inp2 = false := by
  obtain ⟨s1, s2, s3⟩ := cycle_snapshot fl jalv inp1 nframes fuel
  unfold xport_changed
  rw [s1, s2, s3, hroll, hframe, hbpm, hfloat]
  simp

/-- The theorem `steady_transport_unchanged` at the tempo 120, which is a
float, for a rolling transport. -/
theorem steady_transport_unchanged_witness :
    xport_changed float_ops_ieee
      (jack_process_cb float_ops_ieee (jalv_example JALV_RUNNING)
        { input_tempo true 0 with pos_beats_per_minute := 4638144666238189568 } 64 8).jalv
      { input_tempo true 64 with pos_beats_per_minute := 4638144666238189568 } = false :=
  steady_transport_unchanged float_ops_ieee (jalv_example JALV_RUNNING)
    { input_tempo true 0 with pos_beats_per_minute := 4638144666238189568 }
    { input_tempo true 64 with pos_beats_per_minute := 4638144666238189568 } 64 8 rfl
    (by decide) rfl (by decide)

/-- C30: a steady transport at the tempo 120.1 is found changed in every cycle.
The audio server reports a stopped transport at frame 0 with the tempo 120.1
in three consecutive cycles of 64 frames.  The first cycle stores the tempo as
the float `0x42F03333`, which as a `double` is `0x405E066660000000`; the second
and the third cycle compare the tempo reported, `0x405E066666666666`, with it,
find the transport changed and write the position object as first record of
the event input port 2.  The same holds for a rolling transport reported at
frame 0 and then at frame 64. -/
theorem steady_tempo_flagged :
    (jack_process_cb float_ops_ieee (jalv_example JALV_RUNNING) (input_tempo false 0) 64
      8).jalv.bpm = 1123038003 ∧
    f32_to_f64 1123038003 = 4638151703005233152 ∧
    (jack_process_cb float_ops_ieee (jalv_example JALV_RUNNING) (input_tempo false 0) 64
      8).jalv.position = 0 ∧
    xport_changed float_ops_ieee
      (jack_process_cb float_ops_ieee (jalv_example JALV_RUNNING) (input_tempo false 0) 64
        8).jalv (input_tempo false 0) = true ∧
    (jack_process_cb float_ops_ieee
      (jack_process_cb float_ops_ieee (jalv_example JALV_RUNNING) (input_tempo false 0) 64
        8).jalv
      (input_tempo false 0) 64 8).jalv.ports.map
        (fun port => port.evbuf.map (fun ev => read_record ev (lv2_evbuf_begin ev)))
      = [none, none, some (some (position_record (input_tempo false 0)))] ∧
    xport_changed float_ops_ieee
      (jack_process_cb float_ops_ieee
        (jack_process_cb float_ops_ieee (jalv_example JALV_RUNNING) (input_tempo false 0) 64
          8).jalv
        (input_tempo false 0) 64 8).jalv (input_tempo false 0) = true ∧
    (jack_process_cb float_ops_ieee (jalv_example JALV_RUNNING) (input_tempo true 0) 64
      8).jalv.position = 64 ∧
    xport_changed float_ops_ieee
      (jack_process_cb float_ops_ieee (jalv_example JALV_RUNNING) (input_tempo true 0) 64
        8).jalv (input_tempo true 64) = true := by
  decide

/-! ## C23: calls of the dump in the process cycle -/

/-- Calls that do not belong to a dump, appended to calls whose dump calls lie
in `D`. -/
theorem append_clean (D l e : List Call)
    (hl : ∀ x ∈ l, Call.is_dump x = true → x ∈ D)
    (he : ∀ x ∈ e, Call.is_dump x = false) :
    ∀ x ∈ l ++ e, Call.is_dump x = true → x ∈ D := by
  intro x hx hd
  rcases List.mem_append.mp hx with h | h
  · exact hl x h hd
  · rw [he x h] at hd
    cases hd

/-- The body of "Prepare port buffers" makes no call of a dump. -/
theorem prepare_port_clean (D : List Call) (jalv : Jalv) (inp : CycleInput) (x : Bool) (p : Nat)
    (c : Cycle) (hc : ∀ y ∈ c.calls, Call.is_dump y = true → y ∈ D) :
    ∀ y ∈ (prepare_port jalv inp x p c).calls, Call.is_dump y = true → y ∈ D := by
  unfold prepare_port
  repeat' split
  all_goals first
    | exact hc
    | exact append_clean D _ _ hc (by intro y hy; rw [List.mem_singleton.mp hy]; rfl)

/-- The UI ring loop makes no call of a dump. -/
theorem drain_ui_clean (D : List Call) (jalv : Jalv) (nframes space : Nat) :
    ∀ (fuel i : Nat) (ev : List Byte) (c : Cycle),
      (∀ y ∈ c.calls, Call.is_dump y = true → y ∈ D) →
      ∀ y ∈ (drain_ui jalv nframes space fuel i ev c).calls, Call.is_dump y = true → y ∈ D := by
  intro fuel
  induction fuel with
  | zero => intro i ev c hc; exact hc
  | succ n ih =>
    intro i ev c hc
    unfold drain_ui
    dsimp only
    repeat' split
    all_goals first
      | exact hc
      | exact ih _ _ _ hc
      | exact append_clean D _ _ hc (by intro y hy; rw [List.mem_singleton.mp hy]; rfl)
      | exact ih _ _ _
          (append_clean D _ _ hc (by intro y hy; rw [List.mem_singleton.mp hy]; rfl))

/-- Writing a MIDI record to the audio server is no call of a dump. -/
theorem midi_calls_clean (D : List Call) (buf : Option Nat) (calls : List Call) (cond : Prop)
    [Decidable cond] (t : Nat) (data : List Byte) (size : Nat)
    (hc : ∀ y ∈ calls, Call.is_dump y = true → y ∈ D) :
    ∀ y ∈ (match buf with
      | some jport => if cond then calls ++ [Call.jack_midi_event_write jport t data size]
        else calls
      | none => calls), Call.is_dump y = true → y ∈ D := by
  cases buf with
  | none => exact hc
  | some jp =>
    by_cases h : cond
    · simp only [h, if_true]
      exact append_clean D _ _ hc (by intro y hy; rw [List.mem_singleton.mp hy]; rfl)
    · simp only [h, if_false]
      exact hc

/-- The loop over the records of an output buffer makes no call of a dump. -/
theorem deliver_events_clean (D : List Call) (j : Jalv) (p : Nat) (old_api : Bool)
    (buf : Option Nat) (evbuf : LV2_Evbuf) :
    ∀ (fuel : Nat) (i : LV2_Evbuf_Iterator) (rb : Ringbuffer) (calls : List Call),
      (∀ y ∈ calls, Call.is_dump y = true → y ∈ D) →
      ∀ y ∈ (deliver_events j p old_api buf evbuf fuel i rb calls).2.1,
        Call.is_dump y = true → y ∈ D := by
  intro fuel
  induction fuel with
  | zero => intro i rb calls hc; exact hc
  | succ n ih =>
    intro i rb calls hc
    unfold deliver_events
    dsimp only
    split
    · split
      · split
        · exact append_clean D _ _ (midi_calls_clean D _ _ _ _ _ _ hc)
            (by intro y hy; rw [List.mem_singleton.mp hy]; rfl)
        · exact ih _ _ _ (midi_calls_clean D _ _ _ _ _ _ hc)
      · exact ih _ _ _ (midi_calls_clean D _ _ _ _ _ _ hc)
    · exact hc

/-- The body of "Deliver MIDI output and UI events" makes no call of a dump. -/
theorem deliver_port_clean (D : List Call) (fl : FloatOps) (j : Jalv) (s : Bool) (fuel : Nat)
    (p : Nat) (c : Cycle) (hc : ∀ y ∈ c.calls, Call.is_dump y = true → y ∈ D) :
    ∀ y ∈ (deliver_port fl j s fuel p c).calls, Call.is_dump y = true → y ∈ D := by
  have h1 : ∀ e : Call, Call.is_dump e = false →
      ∀ y ∈ c.calls ++ [e], Call.is_dump y = true → y ∈ D := fun e he =>
    append_clean D _ _ hc (by intro y hy; rw [List.mem_singleton.mp hy]; exact he)
  have h2 : ∀ e f : Call, Call.is_dump e = false → Call.is_dump f = false →
      ∀ y ∈ c.calls ++ [e] ++ [f], Call.is_dump y = true → y ∈ D := fun e f he hf =>
    append_clean D _ _ (h1 e he) (by intro y hy; rw [List.mem_singleton.mp hy]; exact hf)
  unfold deliver_port
  dsimp only
  repeat' split
  all_goals first
    | exact hc
    | exact h1 _ rfl
    | exact h2 _ _ rfl rfl
    | exact deliver_events_clean D _ _ _ _ _ _ _ _ _ hc
    | exact deliver_events_clean D _ _ _ _ _ _ _ _ _ (h1 _ rfl)
    | exact deliver_events_clean D _ _ _ _ _ _ _ _ _ (h2 _ _ rfl rfl)

/-- The cycle from "Prepare port buffers" on makes no call of a dump. -/
theorem run_cycle_clean (D : List Call) (fl : FloatOps) (jalv : Jalv) (inp : CycleInput)
    (nframes : Nat) (x : Bool) (fuel : Nat) (c0 : Cycle)
    (h0 : ∀ y ∈ c0.calls, Call.is_dump y = true → y ∈ D) :
    ∀ y ∈ (run_cycle fl jalv inp nframes x fuel c0).calls, Call.is_dump y = true → y ∈ D := by
  have hprep : ∀ y ∈ (prepare_ports jalv inp x c0).calls, Call.is_dump y = true → y ∈ D := by
    unfold prepare_ports
    exact for_ports_inv (fun c => ∀ y ∈ c.calls, Call.is_dump y = true → y ∈ D) _
      (fun p c hc => prepare_port_clean D jalv inp x p c hc) _ c0 h0
  have hbefore : ∀ y ∈ (before_run jalv inp nframes x c0).calls,
      Call.is_dump y = true → y ∈ D := by
    unfold before_run
    dsimp only
    repeat' split
    all_goals first
      | exact hprep
      | exact drain_ui_clean D _ _ _ _ _ _ _ hprep
  rw [run_cycle_eq]
  split
  · exact hbefore
  · unfold after_run
    dsimp only
    have hrun : ∀ y ∈ (before_run jalv inp nframes x c0).calls
        ++ [Call.lilv_instance_run nframes, Call.jalv_worker_emit_responses]
        ++ (if jalv.worker_end_run then [Call.end_run] else []),
        Call.is_dump y = true → y ∈ D := by
      refine append_clean D _ _ (append_clean D _ _ hbefore ?_) ?_
      · intro y hy
        simp only [List.mem_cons, List.mem_singleton, List.not_mem_nil, or_false] at hy
        rcases hy with rfl | rfl <;> rfl
      · intro y hy
        split at hy
        · rw [List.mem_singleton.mp hy]; rfl
        · cases hy
    have h := for_ports_inv (fun c => ∀ y ∈ c.calls, Call.is_dump y = true → y ∈ D)
      (deliver_port fl jalv
        (jalv.has_ui && decide (u32 ((before_run jalv inp nframes x c0).event_delta_t + nframes)
          > fl.div_u32_f32 jalv.sample_rate jalv.ui_update_hz)) fuel)
      (fun p c hc => deliver_port_clean D fl jalv _ fuel p c hc)
      (List.range (run_plugin inp nframes (before_run jalv inp nframes x c0).ports).length)
      { before_run jalv inp nframes x c0 with
        ports := run_plugin inp nframes (before_run jalv inp nframes x c0).ports
        calls := (before_run jalv inp nframes x c0).calls
          ++ [Call.lilv_instance_run nframes, Call.jalv_worker_emit_responses]
          ++ (if jalv.worker_end_run then [Call.end_run] else [])
        event_delta_t :=
          if (jalv.has_ui && decide (u32 ((before_run jalv inp nframes x c0).event_delta_t
              + nframes) > fl.div_u32_f32 jalv.sample_rate jalv.ui_update_hz)) = true then 0
          else u32 ((before_run jalv inp nframes x c0).event_delta_t + nframes) } hrun
    split
    · exact h
    · exact h

/-- The calls of a dump that one execution of `jack_process_cb` makes are those
of the dump of the position object. -/
theorem process_dump_calls (fl : FloatOps) (jalv : Jalv) (inp : CycleInput)
    (nframes fuel : Nat) :
    ∀ y ∈ (jack_process_cb fl jalv inp nframes fuel).calls,
      Call.is_dump y = true → y ∈ dump_calls fl jalv inp := by
  have h0 : ∀ y ∈ (cycle_start fl jalv inp).calls,
      Call.is_dump y = true → y ∈ dump_calls fl jalv inp := fun y hy _ => hy
  cases h : jalv.play_state with
  | JALV_RUNNING =>
    rw [running_cycle_eq fl jalv inp nframes fuel h]
    exact run_cycle_clean _ _ _ _ _ _ _ _ h0
  | JALV_PAUSE_REQUESTED =>
    rw [pause_requested_cycle_eq fl jalv inp nframes fuel h]
    exact run_cycle_clean _ _ _ _ _ _ _ _ h0
  | JALV_PAUSED =>
    rw [paused_cycle_eq fl jalv inp nframes fuel h]
    refine append_clean _ _ _ (fun y hy _ => hy) ?_
    intro y hy
    rcases silence_outputs_only nframes jalv.ports y hy with ⟨j, rfl⟩ | ⟨j, rfl⟩ <;> rfl

/-- The dump of the position object is among the calls of every execution of
`jack_process_cb`. -/
theorem process_dump_made (fl : FloatOps) (jalv : Jalv) (inp : CycleInput)
    (nframes fuel : Nat) :
    dump_calls fl jalv inp ⊆ (jack_process_cb fl jalv inp nframes fuel).calls := by
  have hrun : dump_calls fl jalv inp ⊆
      (run_cycle fl (transport_updated fl jalv inp nframes) inp nframes
        (xport_changed fl jalv inp) fuel (cycle_start fl jalv inp)).calls := by
    rw [run_cycle_eq]
    have hb : (cycle_start fl jalv inp).calls ⊆
        (before_run (transport_updated fl jalv inp nframes) inp nframes
          (xport_changed fl jalv inp) (cycle_start fl jalv inp)).calls := by
      unfold before_run prepare_ports
      dsimp only
      have hp := for_ports_inv (fun c => (cycle_start fl jalv inp).calls ⊆ c.calls)
        (prepare_port (transport_updated fl jalv inp nframes) inp (xport_changed fl jalv inp))
        (fun p c hc => by
          refine hc.trans ?_
          unfold prepare_port
          repeat' split
          all_goals first
            | exact List.Subset.refl _
            | exact List.subset_append_left _ _)
        (List.range (cycle_start fl jalv inp).ports.length) (cycle_start fl jalv inp)
        (List.Subset.refl _)
      have hd : ∀ (space fuel i : Nat) (ev : List Byte) (c : Cycle),
          (cycle_start fl jalv inp).calls ⊆ c.calls →
          (cycle_start fl jalv inp).calls ⊆
            (drain_ui (transport_updated fl jalv inp nframes) nframes space fuel i ev
              c).calls := by
        intro space fuel
        induction fuel with
        | zero => intro i ev c hc; exact hc
        | succ n ih =>
          intro i ev c hc
          unfold drain_ui
          dsimp only
          repeat' split
          all_goals first
            | exact hc
            | exact hc.trans (List.subset_append_left _ _)
            | exact ih _ _ _ hc
            | exact ih _ _ _ (hc.trans (List.subset_append_left _ _))
      repeat' split
      all_goals first
        | exact hp
        | exact hd _ _ _ _ _ hp
    split
    · exact hb
    · exact hb.trans (after_run_calls _ _ _ _ _ _).1
  cases h : jalv.play_state with
  | JALV_RUNNING =>
    rw [running_cycle_eq fl jalv inp nframes fuel h]
    exact hrun
  | JALV_PAUSE_REQUESTED =>
    rw [pause_requested_cycle_eq fl jalv inp nframes fuel h]
    exact hrun
  | JALV_PAUSED =>
    rw [paused_cycle_eq fl jalv inp nframes fuel h]
    exact List.subset_append_left _ _

/-- C23, as the claim states it, fails: with `opts.dump` set, a cycle that
finds the transport changed calls `sratom_to_turtle`, which is handed
`&jalv->unmap` and returns an allocated string, and frees that string. -/
theorem realtime_discipline_counterexample :
    jalv_dump.opts_dump = true ∧
    xport_changed float_ops_example jalv_dump input_rolling = true ∧
    (jack_process_cb float_ops_example jalv_dump input_rolling 64 8).calls.take 3
      = [Call.sratom_to_turtle, Call.printf_position, Call.free] ∧
    (jack_process_cb float_ops_example jalv_dump input_rolling 64 8).outcome
      = Outcome.returned 0 := by
  decide

/-- C23 (amended): an execution of `jack_process_cb` with `opts.dump` not set
calls neither `sratom_to_turtle`, the routine that is handed `&jalv->unmap`,
nor `free`, and makes no other call of a dump.  In every execution, the calls
`sratom_to_turtle` and `free` are made exactly if `opts.dump` is set and the
cycle finds the transport changed. -/
theorem realtime_discipline (fl : FloatOps) (jalv : Jalv) (inp : CycleInput)
    (nframes fuel : Nat) :
    (jalv.opts_dump = false →
      Call.sratom_to_turtle ∉ (jack_process_cb fl jalv inp nframes fuel).calls ∧
      Call.free ∉ (jack_process_cb fl jalv inp nframes fuel).calls ∧
      ∀ y ∈ (jack_process_cb fl jalv inp nframes fuel).calls, Call.is_dump y = false) ∧
    (Call.sratom_to_turtle ∈ (jack_process_cb fl jalv inp nframes fuel).calls ↔
      (jalv.opts_dump = true ∧ xport_changed fl jalv inp = true)) ∧
    (Call.free ∈ (jack_process_cb fl jalv inp nframes fuel).calls ↔
      (jalv.opts_dump = true ∧ xport_changed fl jalv inp = true)) := by
  have hin := process_dump_calls fl jalv inp nframes fuel
  have hsub := process_dump_made fl jalv inp nframes fuel
  have hd : ∀ y, Call.is_dump y = true →
      (y ∈ dump_calls fl jalv inp ↔ (jalv.opts_dump = true ∧ xport_changed fl jalv inp = true)) := by
    intro y hy
    unfold dump_calls
    constructor
    · intro hm
      split at hm
      · rename_i hc
        exact ⟨hc.2, hc.1⟩
      · cases hm
    · intro hc
      rw [if_pos ⟨hc.2, hc.1⟩]
      cases y <;> first | (simp; done) | cases hy
  have hiff : ∀ y, Call.is_dump y = true →
      (y ∈ (jack_process_cb fl jalv inp nframes fuel).calls ↔
        (jalv.opts_dump = true ∧ xport_changed fl jalv inp = true)) := fun y hy =>
    ⟨fun hm => (hd y hy).mp (hin y hm hy), fun hc => hsub ((hd y hy).mpr hc)⟩
  refine ⟨fun hoff => ?_, hiff _ rfl, hiff _ rfl⟩
  have hno : ∀ y ∈ (jack_process_cb fl jalv inp nframes fuel).calls, Call.is_dump y = false := by
    intro y hm
    cases hy : Call.is_dump y with
    | false => rfl
    | true =>
      have := ((hiff y hy).mp hm).1
      rw [hoff] at this
      cases this
  exact ⟨fun hm => Bool.noConfusion (hno _ hm), fun hm => Bool.noConfusion (hno _ hm), hno⟩

/-- C23 (amended) at the host of `jalv_example`, in which `opts.dump` is not
set, for a cycle that finds the transport changed. -/
theorem realtime_discipline_witness :
    (jalv_example JALV_RUNNING).opts_dump = false ∧
    xport_changed float_ops_example (jalv_example JALV_RUNNING) input_rolling = true ∧
    Call.sratom_to_turtle ∉
      (jack_process_cb float_ops_example (jalv_example JALV_RUNNING) input_rolling 64 8).calls ∧
    Call.free ∉
      (jack_process_cb float_ops_example (jalv_example JALV_RUNNING) input_rolling 64 8).calls :=
  ⟨rfl, by decide,
   ((realtime_discipline float_ops_example (jalv_example JALV_RUNNING) input_rolling 64 8).1
      rfl).1,
   ((realtime_discipline float_ops_example (jalv_example JALV_RUNNING) input_rolling 64 8).1
      rfl).2.1⟩

/-! ## C22: the patch-get request -/

/-- One execution of `jack_process_cb` leaves the sample rate, the update rate
and the presence of a UI. -/
theorem cycle_constants (fl : FloatOps) (jalv : Jalv) (inp : CycleInput) (nframes fuel : Nat) :
    (jack_process_cb fl jalv inp nframes fuel).jalv.sample_rate = jalv.sample_rate ∧
    (jack_process_cb fl jalv inp nframes fuel).jalv.ui_update_hz = jalv.ui_update_hz ∧
    (jack_process_cb fl jalv inp nframes fuel).jalv.has_ui = jalv.has_ui := by
  cases h : jalv.play_state with
  | JALV_RUNNING =>
    rw [running_cycle_eq fl jalv inp nframes fuel h]
    exact ⟨rfl, rfl, rfl⟩
  | JALV_PAUSE_REQUESTED =>
    rw [pause_requested_cycle_eq fl jalv inp nframes fuel h]
    exact ⟨rfl, rfl, rfl⟩
  | JALV_PAUSED =>
    rw [paused_cycle_eq fl jalv inp nframes fuel h]
    exact ⟨rfl, rfl, rfl⟩

/-- The body of "Prepare port buffers" leaves the frame counter and the ring to
the UI and calls only `lilv_instance_connect_port`. -/
theorem prepare_port_quiet (jalv : Jalv) (inp : CycleInput) (x : Bool) (p : Nat) (c : Cycle)
    (n : Nat) (hc : Call.lilv_instance_run n ∉ c.calls) :
    (prepare_port jalv inp x p c).event_delta_t = c.event_delta_t ∧
    (prepare_port jalv inp x p c).plugin_events = c.plugin_events ∧
    Call.lilv_instance_run n ∉ (prepare_port jalv inp x p c).calls := by
  unfold prepare_port
  repeat' split
  all_goals first
    | exact ⟨rfl, rfl, hc⟩
    | exact ⟨rfl, rfl, by simp [hc]⟩

/-- The UI ring loop leaves the frame counter and the ring to the UI and calls
only `fprintf`. -/
theorem drain_ui_quiet (jalv : Jalv) (nframes space n : Nat) :
    ∀ (fuel i : Nat) (ev : List Byte) (c : Cycle),
      Call.lilv_instance_run n ∉ c.calls →
      (drain_ui jalv nframes space fuel i ev c).event_delta_t = c.event_delta_t ∧
      (drain_ui jalv nframes space fuel i ev c).plugin_events = c.plugin_events ∧
      Call.lilv_instance_run n ∉ (drain_ui jalv nframes space fuel i ev c).calls := by
  intro fuel
  induction fuel with
  | zero => intro i ev c hc; exact ⟨rfl, rfl, hc⟩
  | succ k ih =>
    intro i ev c hc
    unfold drain_ui
    dsimp only
    repeat' split
    all_goals first
      | exact ⟨rfl, rfl, hc⟩
      | exact ⟨rfl, rfl, by simp [hc]⟩
      | exact ih _ _ _ hc
      | exact ih _ _ _ (by simp [hc])

/-- Up to the call of `lilv_instance_run` the cycle leaves the frame counter
and the ring to the UI and does not call `lilv_instance_run`. -/
theorem before_run_quiet (jalv : Jalv) (inp : CycleInput) (nframes : Nat) (x : Bool)
    (c0 : Cycle) (n : Nat) (h0 : Call.lilv_instance_run n ∉ c0.calls) :
    (before_run jalv inp nframes x c0).event_delta_t = c0.event_delta_t ∧
    (before_run jalv inp nframes x c0).plugin_events = c0.plugin_events ∧
    Call.lilv_instance_run n ∉ (before_run jalv inp nframes x c0).calls := by
  have hprep : (prepare_ports jalv inp x c0).event_delta_t = c0.event_delta_t ∧
      (prepare_ports jalv inp x c0).plugin_events = c0.plugin_events ∧
      Call.lilv_instance_run n ∉ (prepare_ports jalv inp x c0).calls := by
    unfold prepare_ports
    exact for_ports_inv
      (fun c => c.event_delta_t = c0.event_delta_t ∧ c.plugin_events = c0.plugin_events ∧
        Call.lilv_instance_run n ∉ c.calls) _
      (fun p c hc =>
        ⟨(prepare_port_quiet jalv inp x p c n hc.2.2).1.trans hc.1,
         (prepare_port_quiet jalv inp x p c n hc.2.2).2.1.trans hc.2.1,
         (prepare_port_quiet jalv inp x p c n hc.2.2).2.2⟩) _ c0 ⟨rfl, rfl, h0⟩
  unfold before_run
  dsimp only
  repeat' split
  all_goals first
    | exact hprep
    | exact ⟨(drain_ui_quiet _ _ _ n _ _ _ _ hprep.2.2).1.trans hprep.1,
        (drain_ui_quiet _ _ _ n _ _ _ _ hprep.2.2).2.1.trans hprep.2.1,
        (drain_ui_quiet _ _ _ n _ _ _ _ hprep.2.2).2.2⟩

/-- The body of "Deliver MIDI output and UI events" leaves the frame counter. -/
theorem deliver_port_delta (fl : FloatOps) (j : Jalv) (s : Bool) (fuel : Nat) (p : Nat)
    (c : Cycle) : (deliver_port fl j s fuel p c).event_delta_t = c.event_delta_t := by
  unfold deliver_port
  dsimp only
  repeat' split
  all_goals rfl

/-- The frame counter after the part of the cycle from the call of
`lilv_instance_run` on. -/
theorem after_run_delta (fl : FloatOps) (j : Jalv) (inp : CycleInput) (nframes fuel : Nat)
    (c2 : Cycle) :
    (after_run fl j inp nframes fuel c2).event_delta_t
      = if (j.has_ui && decide (u32 (c2.event_delta_t + nframes)
          > fl.div_u32_f32 j.sample_rate j.ui_update_hz)) = true then 0
        else u32 (c2.event_delta_t + nframes) := by
  unfold after_run
  dsimp only
  have h := for_ports_inv
    (fun c => c.event_delta_t = if (j.has_ui && decide (u32 (c2.event_delta_t + nframes)
          > fl.div_u32_f32 j.sample_rate j.ui_update_hz)) = true then 0
        else u32 (c2.event_delta_t + nframes))
    (deliver_port fl j
      (j.has_ui && decide (u32 (c2.event_delta_t + nframes)
        > fl.div_u32_f32 j.sample_rate j.ui_update_hz)) fuel)
    (fun p c hc => (deliver_port_delta fl j _ fuel p c).trans hc)
    (List.range (run_plugin inp nframes c2.ports).length)
    { c2 with
      ports := run_plugin inp nframes c2.ports
      calls := c2.calls ++ [Call.lilv_instance_run nframes, Call.jalv_worker_emit_responses]
        ++ (if j.worker_end_run then [Call.end_run] else [])
      event_delta_t := if (j.has_ui && decide (u32 (c2.event_delta_t + nframes)
          > fl.div_u32_f32 j.sample_rate j.ui_update_hz)) = true then 0
        else u32 (c2.event_delta_t + nframes) } rfl
  split
  · exact h
  · exact h

/-- The dump of the position object does not call `lilv_instance_run`. -/
theorem dump_calls_no_run (fl : FloatOps) (jalv : Jalv) (inp : CycleInput) (n : Nat) :
    Call.lilv_instance_run n ∉ dump_calls fl jalv inp := by
  unfold dump_calls
  split <;> simp

/-- The frame counter after a cycle from "Prepare port buffers" on: a cycle
that calls `lilv_instance_run` adds the block length and sets the counter to 0
if `send_ui_updates` is set; a cycle that ends before leaves the counter. -/
theorem run_cycle_delta (fl : FloatOps) (j jalv : Jalv) (inp : CycleInput) (nframes : Nat)
    (fuel : Nat)
    (hui : j.has_ui = jalv.has_ui) (hsr : j.sample_rate = jalv.sample_rate)
    (hhz : j.ui_update_hz = jalv.ui_update_hz) :
    (run_cycle fl j inp nframes (xport_changed fl jalv inp) fuel
        (cycle_start fl jalv inp)).event_delta_t
      = (if Call.lilv_instance_run nframes ∈
            (run_cycle fl j inp nframes (xport_changed fl jalv inp) fuel
              (cycle_start fl jalv inp)).calls then
          (if send_ui_updates fl jalv nframes then 0 else u32 (jalv.event_delta_t + nframes))
        else jalv.event_delta_t) := by
  obtain ⟨b1, _, b3⟩ := before_run_quiet j inp nframes (xport_changed fl jalv inp)
    (cycle_start fl jalv inp) nframes (dump_calls_no_run fl jalv inp nframes)
  rw [run_cycle_eq]
  split
  · rw [if_neg b3]
    exact b1
  · rw [if_pos (after_run_calls _ _ _ _ _ _).2, after_run_delta, b1, hui, hsr, hhz]
    rfl

/-- The frame counter after one execution of `jack_process_cb`. -/
theorem cycle_delta (fl : FloatOps) (jalv : Jalv) (inp : CycleInput) (nframes fuel : Nat) :
    (jack_process_cb fl jalv inp nframes fuel).jalv.event_delta_t
      = (if Call.lilv_instance_run nframes ∈ (jack_process_cb fl jalv inp nframes fuel).calls
         then (if send_ui_updates fl jalv nframes then 0
           else u32 (jalv.event_delta_t + nframes))
         else jalv.event_delta_t) := by
  cases h : jalv.play_state with
  | JALV_RUNNING =>
    rw [running_cycle_eq fl jalv inp nframes fuel h]
    exact run_cycle_delta fl _ jalv inp nframes fuel rfl rfl rfl
  | JALV_PAUSE_REQUESTED =>
    rw [pause_requested_cycle_eq fl jalv inp nframes fuel h]
    exact run_cycle_delta fl _ jalv inp nframes fuel rfl rfl rfl
  | JALV_PAUSED =>
    rw [paused_cycle_eq fl jalv inp nframes fuel h]
    have hno : Call.lilv_instance_run nframes ∉
        dump_calls fl jalv inp ++ silence_outputs nframes jalv.ports := by
      intro hm
      rcases List.mem_append.mp hm with hm | hm
      · exact dump_calls_no_run fl jalv inp nframes hm
      · rcases silence_outputs_only nframes jalv.ports _ hm with ⟨j, hj⟩ | ⟨j, hj⟩ <;> cases hj
    show jalv.event_delta_t = _
    rw [if_neg hno]

/-- The cycles in which scalar control values are sent are at least
`update_frames + 1` frames apart. -/
theorem update_cycles_spaced (fl : FloatOps) (fuel : Nat) (cycles : List (CycleInput × Nat)) :
    ∀ jalv : Jalv,
      update_cycles fl fuel jalv cycles * (update_frames fl jalv + 1)
        ≤ total_frames cycles + min jalv.event_delta_t (update_frames fl jalv + 1) := by
  induction cycles with
  | nil => intro jalv; simp [update_cycles, total_frames]
  | cons c rest ih =>
    intro jalv
    obtain ⟨inp, n⟩ := c
    have hk := cycle_constants fl jalv inp n fuel
    have hd := cycle_delta fl jalv inp n fuel
    have hU : update_frames fl (jack_process_cb fl jalv inp n fuel).jalv
        = update_frames fl jalv := by
      unfold update_frames
      rw [hk.1, hk.2.1]
    have hi := ih (jack_process_cb fl jalv inp n fuel).jalv
    rw [hU] at hi
    have htot : total_frames ((inp, n) :: rest) = n + total_frames rest := by
      simp [total_frames]
    have hu32 : u32 (jalv.event_delta_t + n) ≤ jalv.event_delta_t + n := Nat.mod_le _ _
    rw [htot]
    show ((if update_cycle fl fuel jalv inp n = true then 1 else 0)
      + update_cycles fl fuel (jack_process_cb fl jalv inp n fuel).jalv rest)
        * (update_frames fl jalv + 1) ≤ _
    generalize update_cycles fl fuel (jack_process_cb fl jalv inp n fuel).jalv rest = k at hi ⊢
    generalize (jack_process_cb fl jalv inp n fuel).jalv.event_delta_t = d' at hi hd
    have hs_def : send_ui_updates fl jalv n = true →
        update_frames fl jalv + 1 ≤ u32 (jalv.event_delta_t + n) := by
      intro hs
      unfold send_ui_updates at hs
      simp only [Bool.and_eq_true, decide_eq_true_eq] at hs
      exact hs.2
    have huc : update_cycle fl fuel jalv inp n = true ↔
        (Call.lilv_instance_run n ∈ (jack_process_cb fl jalv inp n fuel).calls ∧
          send_ui_updates fl jalv n = true) := by
      unfold update_cycle
      simp
    generalize update_frames fl jalv + 1 = U1 at hi hs_def ⊢
    generalize hm : k * U1 = m at hi
    by_cases hr : Call.lilv_instance_run n ∈ (jack_process_cb fl jalv inp n fuel).calls
    · rw [if_pos hr] at hd
      by_cases hs : send_ui_updates fl jalv n = true
      · rw [if_pos hs] at hd
        rw [if_pos (huc.mpr ⟨hr, hs⟩), Nat.add_mul, Nat.one_mul, hm]
        have := hs_def hs
        subst hd
        omega
      · rw [if_neg hs] at hd
        rw [if_neg (fun h => hs (huc.mp h).2), Nat.zero_add, hm]
        subst hd
        omega
    · rw [if_neg hr] at hd
      rw [if_neg (fun h => hr (huc.mp h).1), Nat.zero_add, hm]
      subst hd
      omega

/-- The number of cycles in which scalar control values are sent, against the
update rate `hz`: when the update period the host computes, plus 1, is at
least `sample_rate / hz` frames. -/
theorem update_cycles_rate (k W U rate : Nat) (hz : ℚ) (hspaced : k * (U + 1) ≤ W + (U + 1))
    (hhz : 0 < hz) (hrate : 0 < rate) (hperiod : (rate : ℚ) ≤ ((U : ℚ) + 1) * hz) :
    (k : ℤ) ≤ ⌈(W : ℚ) * hz / (rate : ℚ)⌉ + 1 := by
  have hr : (0 : ℚ) < (rate : ℚ) := by exact_mod_cast hrate
  have hU : (0 : ℚ) < (U : ℚ) + 1 := by positivity
  have h1 : ((k : ℚ) - 1) * ((U : ℚ) + 1) ≤ (W : ℚ) := by
    have : ((k * (U + 1) : ℕ) : ℚ) ≤ ((W + (U + 1) : ℕ) : ℚ) := by exact_mod_cast hspaced
    push_cast at this
    linarith
  have hW : (0 : ℚ) ≤ (W : ℚ) := by positivity
  have h2 : (k : ℚ) - 1 ≤ (W : ℚ) * hz / (rate : ℚ) := by
    rw [le_div_iff₀ hr]
    by_cases hk : (k : ℚ) - 1 ≤ 0
    · have : 0 ≤ (W : ℚ) * hz := mul_nonneg hW (le_of_lt hhz)
      nlinarith
    · push_neg at hk
      have h3 : ((k : ℚ) - 1) * (rate : ℚ) ≤ ((k : ℚ) - 1) * (((U : ℚ) + 1) * hz) :=
        mul_le_mul_of_nonneg_left hperiod (le_of_lt hk)
      have h4 : ((k : ℚ) - 1) * (((U : ℚ) + 1) * hz) ≤ (W : ℚ) * hz := by
        have := mul_le_mul_of_nonneg_right h1 (le_of_lt hhz)
        linarith
      linarith
  have h5 : (((k : ℤ) - 1 : ℤ) : ℚ) ≤ (W : ℚ) * hz / (rate : ℚ) := by
    push_cast
    exact h2
  have h6 : (k : ℤ) - 1 ≤ ⌈(W : ℚ) * hz / (rate : ℚ)⌉ := Int.le_ceil_iff.mpr (by linarith)
  omega

/-- The body of "Deliver MIDI output and UI events" for a control port: the
ring to the UI receives one `jack_ringbuffer_write` of the scalar record of the
port if `send_ui_updates` is set and the port is not an input, and is left as
it is otherwise. -/
theorem deliver_port_push (fl : FloatOps) (j : Jalv) (s : Bool) (fuel : Nat) (p : Nat)
    (c : Cycle) (port : Port) (hp : c.ports[p]? = some port) (hty : port.type = TYPE_CONTROL) :
    (deliver_port fl j s fuel p c).plugin_events
      = if s = true ∧ port.flow ≠ FLOW_INPUT then
          (jack_ringbuffer_write c.plugin_events (scalar_record p port.control) 16).2
        else c.plugin_events := by
  unfold deliver_port
  simp only [hp, hty]
  have hne : ¬ (port.flow = FLOW_OUTPUT ∧ TYPE_CONTROL = TYPE_EVENT) := by
    intro h
    cases h.2
  by_cases hs : s = true ∧ port.flow ≠ FLOW_INPUT
  · rw [if_pos hs, if_neg hne, if_pos ⟨hs.1, hs.2, trivial⟩]
    repeat' split
    all_goals rfl
  · rw [if_neg hs, if_neg hne, if_neg (fun h => hs ⟨h.1, h.2.1⟩)]
    repeat' split
    all_goals rfl

/-- The body of "Deliver MIDI output and UI events" without `send_ui_updates`,
for a port that is not an event output, leaves the ring to the UI. -/
theorem deliver_port_silent (fl : FloatOps) (j : Jalv) (fuel : Nat) (p : Nat) (c : Cycle)
    (hno : ∀ port, c.ports[p]? = some port →
      ¬ (port.flow = FLOW_OUTPUT ∧ port.type = TYPE_EVENT)) :
    (deliver_port fl j false fuel p c).plugin_events = c.plugin_events := by
  unfold deliver_port
  cases hp : c.ports[p]? with
  | none => rfl
  | some port =>
    have h1 := hno port hp
    dsimp only
    rw [if_neg h1, if_neg (by simp)]
    repeat' split
    all_goals rfl

/-- Up to the call of `lilv_instance_run` the cycle leaves kind, flow and index
of every port. -/
theorem before_run_identity (jalv : Jalv) (inp : CycleInput) (nframes : Nat) (x : Bool)
    (c0 : Cycle) :
    (before_run jalv inp nframes x c0).ports.map port_identity
      = c0.ports.map port_identity := by
  have hprep : (prepare_ports jalv inp x c0).ports.map port_identity
      = c0.ports.map port_identity := by
    unfold prepare_ports
    exact for_ports_inv (fun c => c.ports.map port_identity = c0.ports.map port_identity) _
      (fun p c hc => (prepare_port_identity jalv inp x p c).trans hc) _ c0 rfl
  unfold before_run
  dsimp only
  repeat' split
  all_goals first
    | exact hprep
    | (rw [drain_ui_identity]; exact hprep)

/-- Ports of the same kinds and flows: none is an event output if none was. -/
theorem no_event_output_of_identity (ports ports' : List Port)
    (hid : ports'.map port_identity = ports.map port_identity)
    (hno : ∀ port ∈ ports, ¬ (port.flow = FLOW_OUTPUT ∧ port.type = TYPE_EVENT))
    (p : Nat) (port : Port) (hp : ports'[p]? = some port) :
    ¬ (port.flow = FLOW_OUTPUT ∧ port.type = TYPE_EVENT) := by
  have h1 : (ports'.map port_identity)[p]? = some (port_identity port) := by
    rw [List.getElem?_map, hp]
    rfl
  rw [hid, List.getElem?_map] at h1
  cases hq : ports[p]? with
  | none => rw [hq] at h1; cases h1
  | some port0 =>
    rw [hq] at h1
    simp only [Option.map_some', Option.some.injEq, port_identity, Prod.mk.injEq] at h1
    have hm : port0 ∈ ports := List.mem_iff_getElem?.mpr ⟨p, hq⟩
    rw [← h1.1, ← h1.2.1]
    exact hno port0 hm

/-- In a host without an event output port, a cycle from "Prepare port buffers"
on that does not call `lilv_instance_run` or does not find `send_ui_updates`
set leaves the ring to the UI. -/
theorem run_cycle_silent (fl : FloatOps) (j jalv : Jalv) (inp : CycleInput) (nframes : Nat)
    (fuel : Nat)
    (hui : j.has_ui = jalv.has_ui) (hsr : j.sample_rate = jalv.sample_rate)
    (hhz : j.ui_update_hz = jalv.ui_update_hz)
    (hno : ∀ port ∈ jalv.ports, ¬ (port.flow = FLOW_OUTPUT ∧ port.type = TYPE_EVENT))
    (hs : send_ui_updates fl jalv nframes = false) :
    (run_cycle fl j inp nframes (xport_changed fl jalv inp) fuel
        (cycle_start fl jalv inp)).plugin_events = jalv.plugin_events := by
  obtain ⟨b1, b2, _⟩ := before_run_quiet j inp nframes (xport_changed fl jalv inp)
    (cycle_start fl jalv inp) nframes (dump_calls_no_run fl jalv inp nframes)
  have hid := before_run_identity j inp nframes (xport_changed fl jalv inp)
    (cycle_start fl jalv inp)
  rw [run_cycle_eq]
  split
  · exact b2
  · unfold after_run
    dsimp only
    have hflag : (j.has_ui && decide (u32 ((before_run j inp nframes (xport_changed fl jalv inp)
        (cycle_start fl jalv inp)).event_delta_t + nframes)
          > fl.div_u32_f32 j.sample_rate j.ui_update_hz)) = false := by
      rw [b1, hui, hsr, hhz]
      exact hs
    rw [hflag]
    have h := for_ports_inv
      (fun c => c.plugin_events = jalv.plugin_events ∧
        c.ports.map port_identity = jalv.ports.map port_identity)
      (deliver_port fl j false fuel)
      (fun p c hc =>
        ⟨(deliver_port_silent fl j fuel p c
            (fun port hp => no_event_output_of_identity jalv.ports c.ports hc.2 hno p port
              hp)).trans hc.1,
         by rw [deliver_port_ports]; exact hc.2⟩)
      (List.range (run_plugin inp nframes (before_run j inp nframes (xport_changed fl jalv inp)
        (cycle_start fl jalv inp)).ports).length)
      { before_run j inp nframes (xport_changed fl jalv inp) (cycle_start fl jalv inp) with
        ports := run_plugin inp nframes (before_run j inp nframes (xport_changed fl jalv inp)
          (cycle_start fl jalv inp)).ports
        calls := (before_run j inp nframes (xport_changed fl jalv inp)
            (cycle_start fl jalv inp)).calls
          ++ [Call.lilv_instance_run nframes, Call.jalv_worker_emit_responses]
          ++ (if j.worker_end_run then [Call.end_run] else [])
        event_delta_t := if false = true then 0
          else u32 ((before_run j inp nframes (xport_changed fl jalv inp)
            (cycle_start fl jalv inp)).event_delta_t + nframes) }
      ⟨b2, by rw [run_plugin_identity]; exact hid⟩
    split
    · exact h.1
    · exact h.1

/-- A cycle from "Prepare port buffers" on that does not call
`lilv_instance_run` leaves the ring to the UI. -/
theorem run_cycle_not_run (fl : FloatOps) (j jalv : Jalv) (inp : CycleInput) (nframes : Nat)
    (fuel : Nat)
    (hr : Call.lilv_instance_run nframes ∉
      (run_cycle fl j inp nframes (xport_changed fl jalv inp) fuel
        (cycle_start fl jalv inp)).calls) :
    (run_cycle fl j inp nframes (xport_changed fl jalv inp) fuel
        (cycle_start fl jalv inp)).plugin_events = jalv.plugin_events := by
  obtain ⟨_, b2, _⟩ := before_run_quiet j inp nframes (xport_changed fl jalv inp)
    (cycle_start fl jalv inp) nframes (dump_calls_no_run fl jalv inp nframes)
  rw [run_cycle_eq] at hr ⊢
  cases ho : (before_run j inp nframes (xport_changed fl jalv inp)
      (cycle_start fl jalv inp)).outcome with
  | some o =>
    simp only [ho]
    exact b2
  | none =>
    simp only [ho] at hr
    exact absurd (after_run_calls _ _ _ _ _ _).2 hr

/-- In a host without an event output port, a cycle that is not one in which
scalar control values are sent leaves the ring to the UI. -/
theorem cycle_silent (fl : FloatOps) (jalv : Jalv) (inp : CycleInput) (nframes fuel : Nat)
    (hno : ∀ port ∈ jalv.ports, ¬ (port.flow = FLOW_OUTPUT ∧ port.type = TYPE_EVENT))
    (hu : update_cycle fl fuel jalv inp nframes = false) :
    (jack_process_cb fl jalv inp nframes fuel).jalv.plugin_events = jalv.plugin_events := by
  by_cases hr : Call.lilv_instance_run nframes ∈ (jack_process_cb fl jalv inp nframes fuel).calls
  · have hs : send_ui_updates fl jalv nframes = false := by
      unfold update_cycle at hu
      simpa [hr] using hu
    cases h : jalv.play_state with
    | JALV_RUNNING =>
      rw [running_cycle_eq fl jalv inp nframes fuel h]
      exact run_cycle_silent fl _ jalv inp nframes fuel rfl rfl rfl hno hs
    | JALV_PAUSE_REQUESTED =>
      rw [pause_requested_cycle_eq fl jalv inp nframes fuel h]
      exact run_cycle_silent fl _ jalv inp nframes fuel rfl rfl rfl hno hs
    | JALV_PAUSED =>
      rw [paused_cycle_eq fl jalv inp nframes fuel h]
      rfl
  · cases h : jalv.play_state with
    | JALV_RUNNING =>
      rw [running_cycle_eq fl jalv inp nframes fuel h] at hr ⊢
      exact run_cycle_not_run fl _ jalv inp nframes fuel hr
    | JALV_PAUSE_REQUESTED =>
      rw [pause_requested_cycle_eq fl jalv inp nframes fuel h] at hr ⊢
      exact run_cycle_not_run fl _ jalv inp nframes fuel hr
    | JALV_PAUSED =>
      rw [paused_cycle_eq fl jalv inp nframes fuel h]
      rfl

/-! ### The update period in `float` arithmetic -/

/-- The result of the search `doublings`: it lies between `k` and `k + fuel`,
every doubling counted leaves `d * 2^j` at most `n`, and unless the fuel ran
out the next doubling exceeds `n`. -/
theorem doublings_spec (n : Nat) :
    ∀ (fuel d k : Nat),
      k ≤ doublings n fuel d k ∧ doublings n fuel d k ≤ k + fuel ∧
      (∀ j, j < doublings n fuel d k - k → d * 2 ^ j ≤ n) ∧
      (doublings n fuel d k < k + fuel → n < d * 2 ^ (doublings n fuel d k - k)) := by
  intro fuel
  induction fuel with
  | zero =>
    intro d k
    refine ⟨Nat.le_refl _, Nat.le_refl _, ?_, ?_⟩
    · intro j hj
      simp [doublings] at hj
    · intro h
      simp [doublings] at h
  | succ f ih =>
    intro d k
    unfold doublings
    by_cases hd : d ≤ n
    · simp only [hd, if_true]
      obtain ⟨i1, i2, i3, i4⟩ := ih (2 * d) (k + 1)
      refine ⟨by omega, by omega, ?_, ?_⟩
      · intro j hj
        cases j with
        | zero => simpa using hd
        | succ j' =>
          have := i3 j' (by omega)
          rw [pow_succ]
          calc d * (2 ^ j' * 2) = 2 * d * 2 ^ j' := by ring
            _ ≤ n := this
      · intro h
        have h4 := i4 (by omega)
        have he : doublings n f (2 * d) (k + 1) - k
            = (doublings n f (2 * d) (k + 1) - (k + 1)) + 1 := by omega
        rw [he, pow_succ]
        calc n < 2 * d * 2 ^ (doublings n f (2 * d) (k + 1) - (k + 1)) := h4
          _ = d * (2 ^ (doublings n f (2 * d) (k + 1) - (k + 1)) * 2) := by ring
    · simp only [hd, if_false]
      refine ⟨Nat.le_refl _, by omega, ?_, ?_⟩
      · intro j hj
        omega
      · intro _
        simp only [Nat.sub_self, pow_zero, Nat.mul_one]
        omega

/-- The search `doublings` from 0 stops at the latest where `d * 2^k` exceeds
`n`. -/
theorem doublings_le (n fuel d k0 : Nat) (h : n < d * 2 ^ k0) :
    doublings n fuel d 0 ≤ k0 := by
  by_contra hgt
  have := (doublings_spec n fuel d 0).2.2.1 k0 (by omega)
  omega

/-- The rounded quotient lies between the quotient rounded down and the next
integer. -/
theorem round_div_bounds (n d : Nat) : n / d ≤ round_div n d ∧ round_div n d ≤ n / d + 1 := by
  unfold round_div
  repeat' split
  all_goals omega

/-- A quotient without remainder is not changed by the rounding. -/
theorem round_div_exact (q d : Nat) (hd : 0 < d) : round_div (q * d) d = q := by
  unfold round_div
  rw [Nat.mul_mod_left, Nat.mul_div_cancel _ hd]
  simp [hd]

/-- The bit pattern of a positive finite `float`: a positive significand. -/
theorem f32_of_bits_pos (hz : Nat) (h0 : 0 < hz) (h1 : hz < 2139095040) :
    ∃ M E, f32_of_bits hz = F32.finite false M E ∧ 0 < M := by
  unfold f32_of_bits
  have hneg : ¬ (hz / 2147483648 % 2 = 1) := by omega
  have he : hz / 8388608 % 256 ≠ 255 := by omega
  simp only [hneg, decide_False, he, if_false]
  by_cases hz0 : hz / 8388608 % 256 = 0
  · simp only [hz0, if_true]
    exact ⟨_, _, rfl, by omega⟩
  · simp only [hz0, if_false]
    exact ⟨_, _, rfl, by omega⟩

/-- The conversion of a `uint32_t` below `2^24` to `float` is exact. -/
theorem u32_to_f32_exact (n : Nat) (hn : n < 16777216) :
    ∃ E, E ≤ 149 ∧ u32_to_f32 n = F32.finite false (n * 2 ^ (149 - E)) E := by
  have hE : doublings (n * 2 ^ 149) 1024 (1 * 16777216) 0 ≤ 149 := by
    apply doublings_le
    have : (0 : Nat) < 2 ^ 149 := Nat.pow_pos (by decide)
    calc n * 2 ^ 149 < 16777216 * 2 ^ 149 := Nat.mul_lt_mul_of_pos_right hn this
      _ = 1 * 16777216 * 2 ^ 149 := by ring
  refine ⟨_, hE, ?_⟩
  unfold u32_to_f32 f32_round
  generalize doublings (n * 2 ^ 149) 1024 (1 * 16777216) 0 = E at hE
  have hsplit : n * 2 ^ 149 = n * 2 ^ (149 - E) * (1 * 2 ^ E) := by
    have : 2 ^ 149 = 2 ^ (149 - E) * 2 ^ E := by
      rw [← pow_add]
      congr 1
      omega
    rw [this]
    ring
  have hsig : round_div (n * 2 ^ 149) (1 * 2 ^ E) = n * 2 ^ (149 - E) := by
    rw [hsplit]
    exact round_div_exact _ _ (by positivity)
  simp only [hsig]
  have hval : n * 2 ^ (149 - E) * 2 ^ E = n * 2 ^ 149 := by
    rw [hsplit]; ring
  rw [hval]
  have hlt : n * 2 ^ 149
      < 242833611528216133864932738352939863330300854881517440156476551217363035650651062272 := by
    calc n * 2 ^ 149 < 16777216 * 2 ^ 149 :=
          Nat.mul_lt_mul_of_pos_right hn (Nat.pow_pos (by decide))
      _ ≤ _ := by norm_num
  simp only [ge_iff_le, Nat.not_le.mpr hlt, if_false]

/-- The quotient of two positive numbers rounded to `float`, when it is below
`2^24`: a finite value, not below the quotient rounded down to an integer. -/
theorem f32_round_floor (A B : Nat) (hB : 0 < B) (hq : A < 16777216 * B) :
    ∃ sig E, f32_round false A B = F32.finite false sig E ∧
      A / B ≤ sig * 2 ^ E / 2 ^ 149 ∧ sig * 2 ^ E / 2 ^ 149 ≤ 16777216 := by
  have h149 : (0 : Nat) < 2 ^ 149 := Nat.pow_pos (by decide)
  have hE : doublings (A * 2 ^ 149) 1024 (B * 16777216) 0 ≤ 149 := by
    apply doublings_le
    calc A * 2 ^ 149 < 16777216 * B * 2 ^ 149 := Nat.mul_lt_mul_of_pos_right hq h149
      _ = B * 16777216 * 2 ^ 149 := by ring
  have hspec := (doublings_spec (A * 2 ^ 149) 1024 (B * 16777216) 0).2.2.2 (by omega)
  rw [Nat.sub_zero] at hspec
  unfold f32_round
  generalize doublings (A * 2 ^ 149) 1024 (B * 16777216) 0 = E at hE hspec
  have hE0 : (0 : Nat) < 2 ^ E := Nat.pow_pos (by decide)
  have hD : 0 < B * 2 ^ E := Nat.mul_pos hB hE0
  obtain ⟨b1, b2⟩ := round_div_bounds (A * 2 ^ 149) (B * 2 ^ E)
  have hqlt : A * 2 ^ 149 / (B * 2 ^ E) < 16777216 := by
    rw [Nat.div_lt_iff_lt_mul hD]
    calc A * 2 ^ 149 < B * 16777216 * 2 ^ E := hspec
      _ = 16777216 * (B * 2 ^ E) := by ring
  have hsig : round_div (A * 2 ^ 149) (B * 2 ^ E) ≤ 16777216 := by omega
  have hpow : 2 ^ 149 = 2 ^ (149 - E) * 2 ^ E := by
    rw [← pow_add]
    congr 1
    omega
  have hupper : round_div (A * 2 ^ 149) (B * 2 ^ E) * 2 ^ E ≤ 16777216 * 2 ^ 149 := by
    calc round_div (A * 2 ^ 149) (B * 2 ^ E) * 2 ^ E ≤ 16777216 * 2 ^ E :=
          Nat.mul_le_mul_right _ hsig
      _ ≤ 16777216 * 2 ^ 149 :=
          Nat.mul_le_mul_left _ (Nat.pow_le_pow_right (by decide) hE)
  have hfin : ¬ (round_div (A * 2 ^ 149) (B * 2 ^ E) * 2 ^ E
      ≥ 242833611528216133864932738352939863330300854881517440156476551217363035650651062272) := by
    have : 16777216 * 2 ^ 149
        < 242833611528216133864932738352939863330300854881517440156476551217363035650651062272 := by
      norm_num
    omega
  simp only [hfin, if_false]
  refine ⟨_, _, rfl, ?_, ?_⟩
  · have hq1 : A * 2 ^ 149 / (B * 2 ^ E) = A * 2 ^ (149 - E) / B := by
      rw [hpow, ← Nat.mul_assoc]
      exact Nat.mul_div_mul_right _ _ hE0
    have hj0 : (0 : Nat) < 2 ^ (149 - E) := Nat.pow_pos (by decide)
    have hfloor : A * 2 ^ (149 - E) / B * 2 ^ E / 2 ^ 149 = A / B := by
      rw [hpow, Nat.mul_div_mul_right _ _ hE0, Nat.div_div_eq_div_mul,
        Nat.mul_div_mul_right _ _ hj0]
    rw [← hfloor, ← hq1]
    exact Nat.div_le_div_right (Nat.mul_le_mul_right _ b1)
  · calc round_div (A * 2 ^ 149) (B * 2 ^ E) * 2 ^ E / 2 ^ 149
        ≤ 16777216 * 2 ^ 149 / 2 ^ 149 := Nat.div_le_div_right hupper
      _ = 16777216 := Nat.mul_div_cancel _ h149

/-- The update period in `float` arithmetic, for a sample rate below `2^24` and
a positive finite update rate `M * 2^E / 2^149` with a quotient below `2^24`:
the period plus 1 is more than the exact quotient. -/
theorem u32_div_f32_period (rate hz M E : Nat) (hdec : f32_of_bits hz = F32.finite false M E)
    (hM : 0 < M) (hr : rate < 16777216) (hq : rate * 2 ^ 149 < 16777216 * (M * 2 ^ E)) :
    rate * 2 ^ 149 < (u32_div_f32 rate hz + 1) * (M * 2 ^ E) := by
  have hB : 0 < M * 2 ^ E := Nat.mul_pos hM (Nat.pow_pos (by decide))
  obtain ⟨Ea, hEa, hconv⟩ := u32_to_f32_exact rate hr
  have hA : rate * 2 ^ (149 - Ea) * 2 ^ Ea = rate * 2 ^ 149 := by
    have : 2 ^ 149 = 2 ^ (149 - Ea) * 2 ^ Ea := by
      rw [← pow_add]
      congr 1
      omega
    rw [this]; ring
  unfold u32_div_f32
  rw [hconv, hdec]
  unfold f32_div
  have hM0 : M ≠ 0 := by omega
  by_cases hr0 : rate * 2 ^ (149 - Ea) = 0
  · simp only [hM0, if_false, hr0, if_true]
    have : rate * 2 ^ 149 = 0 := by rw [← hA, hr0, Nat.zero_mul]
    rw [this]
    unfold f32_trunc_u32
    simp
    exact hM
  · simp only [hM0, if_false, hr0, bne_self_eq_false]
    rw [hA]
    obtain ⟨sig, E', hround, hlow, hup⟩ := f32_round_floor (rate * 2 ^ 149) (M * 2 ^ E) hB hq
    rw [hround]
    unfold f32_trunc_u32
    have hv : sig * 2 ^ E' / 2 ^ 149 < 4294967296 := by omega
    simp only [Bool.false_eq_true, if_false, hv, if_true]
    calc rate * 2 ^ 149 < (rate * 2 ^ 149 / (M * 2 ^ E) + 1) * (M * 2 ^ E) := by
          rw [Nat.mul_comm (rate * 2 ^ 149 / (M * 2 ^ E) + 1)]
          exact Nat.lt_mul_div_succ _ hB
      _ ≤ (sig * 2 ^ E' / 2 ^ 149 + 1) * (M * 2 ^ E) :=
          Nat.mul_le_mul_right _ (by omega)

/-- The update period in `float` arithmetic against the value of the update
rate: for a sample rate below `2^24` and a positive finite update rate with
`sample_rate / ui_update_hz` below `2^24`, the update rate is positive and the
period plus 1 is at least `sample_rate / ui_update_hz` frames. -/
theorem u32_div_f32_rate (rate hz : Nat) (h0 : 0 < hz) (h1 : hz < 2139095040)
    (hr : rate < 16777216) (hq : (rate : ℚ) < 16777216 * f32_value hz) :
    0 < f32_value hz ∧ (rate : ℚ) ≤ ((u32_div_f32 rate hz : ℚ) + 1) * f32_value hz := by
  obtain ⟨M, E, hdec, hM⟩ := f32_of_bits_pos hz h0 h1
  have hval : f32_value hz = ((M * 2 ^ E : ℕ) : ℚ) / 2 ^ 149 := by
    unfold f32_value F32.value
    rw [hdec]
    simp
  have hp : (0 : ℚ) < 2 ^ 149 := by positivity
  have hB : (0 : ℚ) < ((M * 2 ^ E : ℕ) : ℚ) := by
    have : 0 < M * 2 ^ E := Nat.mul_pos hM (Nat.pow_pos (by decide))
    exact_mod_cast this
  rw [hval] at hq ⊢
  have hqn : rate * 2 ^ 149 < 16777216 * (M * 2 ^ E) := by
    have h2 : (rate : ℚ) * 2 ^ 149 < 16777216 * ((M * 2 ^ E : ℕ) : ℚ) := by
      have := mul_lt_mul_of_pos_right hq hp
      rw [mul_assoc, div_mul_cancel₀ _ (ne_of_gt hp)] at this
      exact this
    exact_mod_cast h2
  have hmain := u32_div_f32_period rate hz M E hdec hM hr hqn
  refine ⟨div_pos hB hp, ?_⟩
  have h3 : ((rate * 2 ^ 149 : ℕ) : ℚ) < (((u32_div_f32 rate hz + 1) * (M * 2 ^ E) : ℕ) : ℚ) := by
    exact_mod_cast hmain
  push_cast at h3
  rw [← mul_div_assoc, le_div_iff₀ hp]
  push_cast
  linarith

/-! ### Cycles of a host without event ports -/

/-- The body of "Prepare port buffers" for a port that is not an event port does
not end the cycle. -/
theorem prepare_port_outcome (jalv : Jalv) (inp : CycleInput) (x : Bool) (p : Nat) (c : Cycle)
    (hno : ∀ port, c.ports[p]? = some port → port.type ≠ TYPE_EVENT) :
    (prepare_port jalv inp x p c).outcome = c.outcome := by
  unfold prepare_port
  cases hp : c.ports[p]? with
  | none => rfl
  | some port =>
    have h1 := hno port hp
    dsimp only
    repeat' split
    all_goals first
      | rfl
      | (exfalso; simp_all)

/-- Ports of the same kinds: none is an event port if none was. -/
theorem no_event_of_identity (ports ports' : List Port)
    (hid : ports'.map port_identity = ports.map port_identity)
    (hno : ∀ port ∈ ports, port.type ≠ TYPE_EVENT)
    (p : Nat) (port : Port) (hp : ports'[p]? = some port) : port.type ≠ TYPE_EVENT := by
  have h1 : (ports'.map port_identity)[p]? = some (port_identity port) := by
    rw [List.getElem?_map, hp]
    rfl
  rw [hid, List.getElem?_map] at h1
  cases hq : ports[p]? with
  | none => rw [hq] at h1; cases h1
  | some port0 =>
    rw [hq] at h1
    simp only [Option.map_some', Option.some.injEq, port_identity, Prod.mk.injEq] at h1
    have hm : port0 ∈ ports := List.mem_iff_getElem?.mpr ⟨p, hq⟩
    rw [← h1.1]
    exact hno port0 hm

/-- The body of "Deliver MIDI output and UI events" leaves the ring from the
UI. -/
theorem deliver_port_ui_events (fl : FloatOps) (j : Jalv) (s : Bool) (fuel : Nat) (p : Nat)
    (c : Cycle) : (deliver_port fl j s fuel p c).ui_events = c.ui_events := by
  unfold deliver_port
  dsimp only
  repeat' split
  all_goals rfl

/-- From the call of `lilv_instance_run` on the cycle leaves the ring from the
UI. -/
theorem after_run_ui_events (fl : FloatOps) (j : Jalv) (inp : CycleInput) (nframes fuel : Nat)
    (c2 : Cycle) : (after_run fl j inp nframes fuel c2).ui_events = c2.ui_events := by
  unfold after_run
  dsimp only
  have h := for_ports_inv (fun c => c.ui_events = c2.ui_events)
    (deliver_port fl j
      (j.has_ui && decide (u32 (c2.event_delta_t + nframes)
        > fl.div_u32_f32 j.sample_rate j.ui_update_hz)) fuel)
    (fun p c hc => (deliver_port_ui_events fl j _ fuel p c).trans hc)
    (List.range (run_plugin inp nframes c2.ports).length)
    { c2 with
      ports := run_plugin inp nframes c2.ports
      calls := c2.calls ++ [Call.lilv_instance_run nframes, Call.jalv_worker_emit_responses]
        ++ (if j.worker_end_run then [Call.end_run] else [])
      event_delta_t := if (j.has_ui && decide (u32 (c2.event_delta_t + nframes)
          > fl.div_u32_f32 j.sample_rate j.ui_update_hz)) = true then 0
        else u32 (c2.event_delta_t + nframes) } rfl
  split
  · exact h
  · exact h

/-- In a host without an event port whose ring from the UI is empty, the cycle
up to the call of `lilv_instance_run` does not end and leaves the ring from the
UI empty. -/
theorem before_run_plain (jalv : Jalv) (inp : CycleInput) (nframes : Nat) (x : Bool)
    (c0 : Cycle) (h0 : c0.outcome = none)
    (hno : ∀ port ∈ c0.ports, port.type ≠ TYPE_EVENT)
    (hui : c0.ui_events.content = []) :
    (before_run jalv inp nframes x c0).outcome = none ∧
    (before_run jalv inp nframes x c0).ui_events.content = [] := by
  have hprep := for_ports_inv
    (fun c => c.outcome = none ∧ c.ports.map port_identity = c0.ports.map port_identity ∧
      c.ui_events = c0.ui_events)
    (prepare_port jalv inp x)
    (fun p c hc =>
      ⟨(prepare_port_outcome jalv inp x p c
          (fun port hp => no_event_of_identity c0.ports c.ports hc.2.1 hno p port hp)).trans hc.1,
       (prepare_port_identity jalv inp x p c).trans hc.2.1,
       (prepare_port_controls jalv inp x p c).2.trans hc.2.2⟩)
    (List.range c0.ports.length) c0 ⟨h0, rfl, rfl⟩
  have hspace : jack_ringbuffer_read_space
      (for_ports (prepare_port jalv inp x) (List.range c0.ports.length) c0).ui_events = 0 := by
    unfold jack_ringbuffer_read_space
    rw [hprep.2.2, hui]
    rfl
  have hc1 : (for_ports (prepare_port jalv inp x) (List.range c0.ports.length) c0).ui_events.content
      = [] := by
    rw [hprep.2.2]; exact hui
  have hdrain : drain_ui jalv nframes 0 0 0 (inp.uninit_ev.take 12)
      (for_ports (prepare_port jalv inp x) (List.range c0.ports.length) c0)
      = for_ports (prepare_port jalv inp x) (List.range c0.ports.length) c0 := rfl
  unfold before_run prepare_ports
  simp only [hprep.1, hspace, hdrain]
  split
  · exact ⟨hprep.1, hc1⟩
  · exact ⟨hprep.1, hc1⟩

/-- In a host in the running state without an event port whose ring from the UI
is empty, a cycle calls `lilv_instance_run` and leaves the ring from the UI
empty. -/
theorem cycle_reaches_run (fl : FloatOps) (jalv : Jalv) (inp : CycleInput) (nframes fuel : Nat)
    (h : jalv.play_state = JALV_RUNNING)
    (hno : ∀ port ∈ jalv.ports, port.type ≠ TYPE_EVENT)
    (hui : jalv.ui_events.content = []) :
    Call.lilv_instance_run nframes ∈ (jack_process_cb fl jalv inp nframes fuel).calls ∧
    (jack_process_cb fl jalv inp nframes fuel).jalv.ui_events.content = [] := by
  obtain ⟨b1, b2⟩ := before_run_plain (transport_updated fl jalv inp nframes) inp nframes
    (xport_changed fl jalv inp) (cycle_start fl jalv inp) rfl hno hui
  rw [running_cycle_eq fl jalv inp nframes fuel h]
  show Call.lilv_instance_run nframes ∈ (run_cycle _ _ _ _ _ _ _).calls ∧
    (run_cycle _ _ _ _ _ _ _).ui_events.content = []
  rw [run_cycle_eq]
  simp only [b1]
  exact ⟨(after_run_calls _ _ _ _ _ _).2, by rw [after_run_ui_events]; exact b2⟩

/-- In a host in the running state with a UI, without an event port and with
an empty ring from the UI, whose frame counter is 0: of consecutive cycles of
more frames than the update period, every one sends the scalar control
values. -/
theorem update_cycles_every (fl : FloatOps) (fuel : Nat) (inp : CycleInput) (n U : Nat)
    (hn : U < u32 n) :
    ∀ (k : Nat) (jalv : Jalv), jalv.play_state = JALV_RUNNING →
      (∀ port ∈ jalv.ports, port.type ≠ TYPE_EVENT) → jalv.ui_events.content = [] →
      jalv.has_ui = true → jalv.event_delta_t = 0 → update_frames fl jalv = U →
      update_cycles fl fuel jalv (List.replicate k (inp, n)) = k := by
  intro k
  induction k with
  | zero => intro jalv _ _ _ _ _ _; rfl
  | succ k ih =>
    intro jalv hplay hno hui hhas hdelta hU
    obtain ⟨r1, r2⟩ := cycle_reaches_run fl jalv inp n fuel hplay hno hui
    have hsend : send_ui_updates fl jalv n = true := by
      unfold send_ui_updates
      rw [hhas, hdelta, hU, Nat.zero_add]
      simp [hn]
    have hupd : update_cycle fl fuel jalv inp n = true := by
      unfold update_cycle
      simp [r1, hsend]
    have hk := cycle_constants fl jalv inp n fuel
    have hd := cycle_delta fl jalv inp n fuel
    rw [if_pos r1, if_pos hsend] at hd
    have hid := process_identity fl jalv inp n fuel
    have hnext := ih (jack_process_cb fl jalv inp n fuel).jalv
      (running_cycle_snapshot fl jalv inp n fuel hplay).1
      (fun port hm => by
        obtain ⟨p, hp⟩ := List.mem_iff_getElem?.mp hm
        exact no_event_of_identity jalv.ports _ hid hno p port hp)
      r2 (by rw [hk.2.2]; exact hhas) hd
      (by unfold update_frames; rw [hk.1, hk.2.1]; exact hU)
    show (if update_cycle fl fuel jalv inp n = true then 1 else 0)
      + update_cycles fl fuel (jack_process_cb fl jalv inp n fuel).jalv (List.replicate k (inp, n))
      = k + 1
    rw [hupd, hnext]
    simp
    omega

/-- The frames of equal cycles. -/
theorem total_frames_replicate (k : Nat) (inp : CycleInput) (n : Nat) :
    total_frames (List.replicate k (inp, n)) = k * n := by
  unfold total_frames
  simp [List.map_replicate, List.sum_replicate]

/-! ### The bound on the updates -/

/-- A finite `float` whose bit pattern is at least that of `1.0f`, `0x3F800000`,
has a value of at least 1. -/
theorem f32_value_ge_one (hz : Nat) (h0 : 1065353216 ≤ hz) (h1 : hz < 2139095040) :
    1 ≤ f32_value hz := by
  unfold f32_value f32_of_bits
  have hneg : ¬ (hz / 2147483648 % 2 = 1) := by omega
  have he : hz / 8388608 % 256 ≠ 255 := by omega
  have he0 : hz / 8388608 % 256 ≠ 0 := by omega
  simp only [hneg, decide_False, he, he0, if_false, F32.value]
  have hexp : 126 ≤ hz / 8388608 % 256 - 1 := by omega
  have hnat : 2 ^ 149 ≤ (8388608 + hz % 8388608) * 2 ^ (hz / 8388608 % 256 - 1) := by
    calc 2 ^ 149 = 8388608 * 2 ^ 126 := by norm_num
      _ ≤ (8388608 + hz % 8388608) * 2 ^ 126 := Nat.mul_le_mul_right _ (by omega)
      _ ≤ _ := Nat.mul_le_mul_left _ (Nat.pow_le_pow_right (by decide) hexp)
  have hq : ((2 ^ 149 : ℕ) : ℚ)
      ≤ (((8388608 + hz % 8388608) * 2 ^ (hz / 8388608 % 256 - 1) : ℕ) : ℚ) := by
    exact_mod_cast hnat
  simp only [Bool.false_eq_true, if_false, one_mul]
  rw [le_div_iff₀ (by positivity), one_mul]
  simp only [Nat.cast_mul, Nat.cast_pow, Nat.cast_ofNat] at hq
  exact hq

/-- C21 (UI update throttling).  A cycle sends scalar control values to the UI
only if it comes to the call of `lilv_instance_run` and the frame counter with
the block length of the cycle added exceeds `update_frames`
(`send_ui_updates`); such a cycle sets the counter to 0, another cycle that
calls `lilv_instance_run` adds its block length to the counter, a cycle that
ends before leaves it.  A control port gets one `jack_ringbuffer_write` of its
scalar record in the loop body if `send_ui_updates` is set and the port is not
an input, and none otherwise; in a host without an event output port a cycle
that is no such cycle leaves the ring to the UI as it is.  With the update
period computed in `float` arithmetic, in a host whose sample rate is positive
and below `2^24` and whose `ui_update_hz` lies between `1.0f` and `60.0f`, the
range to which `main` clamps it: `update_frames + 1` is at least
`sample_rate / ui_update_hz`, and over consecutive cycles of `W` frames in all
the number of cycles in which scalar control values are sent, and so the
number of scalar updates of one control port, is at most
`⌈W * ui_update_hz / sample_rate⌉ + 1`. -/
theorem ui_update_throttling (fl : FloatOps) (fuel : Nat) (jalv : Jalv)
    (cycles : List (CycleInput × Nat))
    (hdiv : fl.div_u32_f32 = u32_div_f32)
    (hrate : 0 < jalv.sample_rate ∧ jalv.sample_rate < 16777216)
    (hhz : 1065353216 ≤ jalv.ui_update_hz ∧ jalv.ui_update_hz ≤ 1114636288) :
    (∀ (inp : CycleInput) (nframes : Nat),
      (jack_process_cb fl jalv inp nframes fuel).jalv.event_delta_t
        = (if update_cycle fl fuel jalv inp nframes then 0
           else if Call.lilv_instance_run nframes ∈
               (jack_process_cb fl jalv inp nframes fuel).calls
             then u32 (jalv.event_delta_t + nframes)
           else jalv.event_delta_t) ∧
      (update_cycle fl fuel jalv inp nframes = true →
        jalv.has_ui = true ∧ update_frames fl jalv < u32 (jalv.event_delta_t + nframes))) ∧
    (∀ (s : Bool) (p : Nat) (c : Cycle) (port : Port),
      c.ports[p]? = some port → port.type = TYPE_CONTROL →
      (deliver_port fl jalv s fuel p c).plugin_events
        = if s = true ∧ port.flow ≠ FLOW_INPUT then
            (jack_ringbuffer_write c.plugin_events (scalar_record p port.control) 16).2
          else c.plugin_events) ∧
    (∀ (inp : CycleInput) (nframes : Nat),
      (∀ port ∈ jalv.ports, ¬ (port.flow = FLOW_OUTPUT ∧ port.type = TYPE_EVENT)) →
      update_cycle fl fuel jalv inp nframes = false →
      (jack_process_cb fl jalv inp nframes fuel).jalv.plugin_events = jalv.plugin_events) ∧
    (jalv.sample_rate : ℚ)
      ≤ ((update_frames fl jalv : ℚ) + 1) * f32_value jalv.ui_update_hz ∧
    ((update_cycles fl fuel jalv cycles : ℕ) : ℤ)
      ≤ ⌈(total_frames cycles : ℚ) * f32_value jalv.ui_update_hz
          / (jalv.sample_rate : ℚ)⌉ + 1 := by
  have hfin : jalv.ui_update_hz < 2139095040 := by omega
  have hone := f32_value_ge_one jalv.ui_update_hz hhz.1 hfin
  have hq : (jalv.sample_rate : ℚ) < 16777216 * f32_value jalv.ui_update_hz := by
    have h1 : (jalv.sample_rate : ℚ) < 16777216 := by exact_mod_cast hrate.2
    nlinarith
  have hper := u32_div_f32_rate jalv.sample_rate jalv.ui_update_hz (by omega) hfin hrate.2 hq
  have hU : update_frames fl jalv = u32_div_f32 jalv.sample_rate jalv.ui_update_hz := by
    unfold update_frames
    rw [hdiv]
  refine ⟨?_, fun s p c port hp hty => deliver_port_push fl jalv s fuel p c port hp hty,
    fun inp nframes hno hu => cycle_silent fl jalv inp nframes fuel hno hu, ?_, ?_⟩
  · intro inp nframes
    have hd := cycle_delta fl jalv inp nframes fuel
    constructor
    · rw [hd]
      unfold update_cycle
      by_cases hr : Call.lilv_instance_run nframes ∈
          (jack_process_cb fl jalv inp nframes fuel).calls
      · by_cases hs : send_ui_updates fl jalv nframes = true
        · simp [hr, hs]
        · simp [hr, hs]
      · simp [hr]
    · intro hu
      unfold update_cycle send_ui_updates at hu
      simp only [Bool.and_eq_true, decide_eq_true_eq] at hu
      exact ⟨hu.2.1, hu.2.2⟩
  · rw [hU]
    exact hper.2
  · have hsp := update_cycles_spaced fl fuel cycles jalv
    exact update_cycles_rate _ _ (update_frames fl jalv) _ (f32_value jalv.ui_update_hz)
      (le_trans hsp (Nat.add_le_add_left (Nat.min_le_right _ _) _)) hper.1 hrate.1
      (by rw [hU]; exact hper.2)

/-- The value of the `float` `0x41F00000` is 30. -/
theorem f32_value_30 : f32_value 1106247680 = 30 := by
  have h : f32_of_bits 1106247680 = F32.finite false 15728640 130 := rfl
  unfold f32_value
  rw [h]
  simp only [F32.value]
  norm_num

set_option maxRecDepth 4000 in
/-- C21 at a host with a UI, the sample rate 48000 and the update rate 30 Hz,
with the update period 1600 of `float` arithmetic: of three cycles of 1024
frames, the second sends the scalar control values, and the bound is 3. -/
theorem ui_update_throttling_witness :
    update_frames float_ops_f32 jalv_updates_30 = 1600 ∧
    update_cycles float_ops_f32 8 jalv_updates_30
      [(input_example, 1024), (input_example, 1024), (input_example, 1024)] = 1 ∧
    ((update_cycles float_ops_f32 8 jalv_updates_30
        [(input_example, 1024), (input_example, 1024), (input_example, 1024)] : ℕ) : ℤ)
      ≤ ⌈(total_frames [(input_example, 1024), (input_example, 1024), (input_example, 1024)] : ℚ)
          * f32_value jalv_updates_30.ui_update_hz / (jalv_updates_30.sample_rate : ℚ)⌉ + 1 :=
  ⟨by decide, by decide,
   (ui_update_throttling float_ops_f32 8 jalv_updates_30
      [(input_example, 1024), (input_example, 1024), (input_example, 1024)]
      rfl (by decide) (by decide)).2.2.2.2⟩

/-- The value of the `float` `0x3F800000` is 1. -/
theorem f32_value_1 : f32_value 1065353216 = 1 := by
  have h : f32_of_bits 1065353216 = F32.finite false 8388608 126 := rfl
  unfold f32_value
  rw [h]
  simp only [F32.value]
  norm_num

set_option maxRecDepth 4000 in
/-- C21, counterexample: a running host with a UI, the sample rate `2^26 + 3`
and the update rate 1 Hz, a rate in the range to which `main` clamps it.  The
sample rate converted to `float` is `2^26`, so the update period is `2^26`
frames, 3 less than the sample rate.  Of `2^26 + 3` consecutive cycles of
`2^26 + 1` frames every one sends the scalar control values, which is one more
than the bound `⌈W * ui_update_hz / sample_rate⌉ + 1 = 2^26 + 2` for their
`W = (2^26 + 3) * (2^26 + 1)` frames. -/
theorem ui_update_throttling_counterexample :
    u32_to_f32 jalv_rate_high.sample_rate = F32.finite false 8388608 152 ∧
    f32_value jalv_rate_high.ui_update_hz = 1 ∧
    update_frames float_ops_f32 jalv_rate_high = 67108864 ∧
    update_cycles float_ops_f32 8 jalv_rate_high
      (List.replicate 67108867 (input_example, 67108865)) = 67108867 ∧
    ¬ (((update_cycles float_ops_f32 8 jalv_rate_high
          (List.replicate 67108867 (input_example, 67108865)) : ℕ) : ℤ)
        ≤ ⌈(total_frames (List.replicate 67108867 (input_example, 67108865)) : ℚ)
            * f32_value jalv_rate_high.ui_update_hz / (jalv_rate_high.sample_rate : ℚ)⌉ + 1) := by
  have hU : update_frames float_ops_f32 jalv_rate_high = 67108864 := by decide
  have hk : update_cycles float_ops_f32 8 jalv_rate_high
      (List.replicate 67108867 (input_example, 67108865)) = 67108867 :=
    update_cycles_every float_ops_f32 8 input_example 67108865 67108864 (by decide)
      67108867 jalv_rate_high rfl (by decide) rfl rfl rfl hU
  have hv : f32_value jalv_rate_high.ui_update_hz = 1 := f32_value_1
  refine ⟨rfl, hv, hU, hk, ?_⟩
  rw [hk, hv, total_frames_replicate]
  have hrate : jalv_rate_high.sample_rate = 67108867 := rfl
  rw [hrate]
  have hval : (((67108867 * 67108865 : ℕ) : ℚ) * 1 / ((67108867 : ℕ) : ℚ))
      = ((67108865 : ℤ) : ℚ) := by norm_num
  rw [hval, Int.ceil_intCast]
  norm_num

set_option maxRecDepth 4000 in
/-- The bound of C21 and an update rate below 1 Hz: a running host with a UI,
the sample rate 48000 and the update rate `11 / 32768` Hz.  The quotient
`48000 / (11 / 32768) = 142987636.36...` rounded to `float` is 142987632, the
update period.  Of `10^8` consecutive cycles of 142987633 frames every one
sends the scalar control values, which is more than the bound
`⌈W * ui_update_hz / sample_rate⌉ + 1 = 99999999` for their
`W = 10^8 * 142987633` frames. -/
theorem update_rate_below_one :
    f32_value jalv_rate_low.ui_update_hz = 11 / 32768 ∧
    update_frames float_ops_f32 jalv_rate_low = 142987632 ∧
    update_cycles float_ops_f32 8 jalv_rate_low
      (List.replicate 100000000 (input_example, 142987633)) = 100000000 ∧
    ¬ (((update_cycles float_ops_f32 8 jalv_rate_low
          (List.replicate 100000000 (input_example, 142987633)) : ℕ) : ℤ)
        ≤ ⌈(total_frames (List.replicate 100000000 (input_example, 142987633)) : ℚ)
            * f32_value jalv_rate_low.ui_update_hz / (jalv_rate_low.sample_rate : ℚ)⌉ + 1) := by
  have hU : update_frames float_ops_f32 jalv_rate_low = 142987632 := by decide
  have hk : update_cycles float_ops_f32 8 jalv_rate_low
      (List.replicate 100000000 (input_example, 142987633)) = 100000000 :=
    update_cycles_every float_ops_f32 8 input_example 142987633 142987632 (by decide)
      100000000 jalv_rate_low rfl (by decide) rfl rfl rfl hU
  have hv : f32_value jalv_rate_low.ui_update_hz = 11 / 32768 := by
    have h : f32_of_bits jalv_rate_low.ui_update_hz = F32.finite false 11534336 114 := rfl
    unfold f32_value
    rw [h]
    simp only [F32.value]
    norm_num
  refine ⟨hv, hU, hk, ?_⟩
  rw [hk, hv, total_frames_replicate]
  have hrate : jalv_rate_low.sample_rate = 48000 := rfl
  rw [hrate]
  rw [not_le, Int.lt_iff_add_one_le, ← le_sub_iff_add_le, ← le_sub_iff_add_le, Int.ceil_le]
  norm_num

end JalvHost
